import Mathlib

/-!
# FileSystem: a verification development

A shallow embedding of the storage engine of the virtual file system
(`filesystem.h`, `system.c`, `dir.c`, `file.c`, `link.c`, `perm.c`) and
theorems about it.

Conventions of the embedding.

* A C string is the list of its bytes before the terminating NUL; a byte is a
  natural number.  A copy with `strncpy` into a buffer of `n` bytes is the first
  `n` bytes of the source.
* `int` values (inode numbers, page numbers, link counts, page counts) are
  integers; `size_t` values are naturals and `size_t` arithmetic that can
  wrap is reduced modulo `2 ^ 64`.  An `int` is 4 bytes, stored little-endian in
  two's complement, and `sizeof(DirectoryEntry)` is 264.
* The tables of the superblock are total functions of the index; the C
  arrays are the restrictions to `0 .. MAX_FILES - 1`
  (resp. `0 .. MAX_FILES * MAX_FILE_PAGES - 1`).  A store through an index
  outside the declared array is recorded at that index and never aliases a
  cell of the table.  The same holds for the page slots `pages[i]` of an inode.
* `time(NULL)` is the parameter `now` of an operation.
* `load_superblock` / `save_superblock`: the state carried between
  operations is the disk image.  An operation that returns without calling
  `save_superblock` therefore returns the image it started from.
* Every operation returns the new state together with the last status line
  it prints.
* A C loop or recursion without a bound of its own (the upward walk of
  `move_directory`, the recursion of `delete_directory_recursive` and of
  `get_dir_size`) takes the number of passes or levels it may make and the
  operation returns `none` when they do not suffice.
-/

namespace FileSystem

/-! ## Constants (`filesystem.h`) -/

abbrev MAX_FILES : Nat := 500
abbrev MAX_FILENAME_LENGTH : Nat := 256
abbrev MAX_PATH_LENGTH : Nat := 1024
abbrev PAGE_SIZE : Nat := 4096
abbrev MAX_FILE_PAGES : Nat := 10

abbrev PERM_READ : Nat := 4
abbrev PERM_WRITE : Nat := 2
abbrev PERM_EXECUTE : Nat := 1

abbrev FILE_TYPE_REGULAR : Nat := 1
abbrev FILE_TYPE_DIR : Nat := 2
abbrev FILE_TYPE_SYMLINK : Nat := 3

/-- Number of entries of the page table, `MAX_FILES * MAX_FILE_PAGES`. -/
abbrev NUM_PAGES : Nat := MAX_FILES * MAX_FILE_PAGES

/-- The value of `sizeof(DirectoryEntry)`: a 256 byte name and two 4 byte
`int`s. -/
abbrev SIZEOF_DIRECTORY_ENTRY : Nat := 264

/-- Modulus of `size_t` arithmetic. -/
abbrev SIZE_MOD : Nat := 18446744073709551616

/-- The byte `'/'`. -/
abbrev SLASH : Nat := 47

/-- The C string `"."`. -/
abbrev DOT : List Nat := [46]

/-- The C string `".."`. -/
abbrev DOTDOT : List Nat := [46, 46]

/-- The bytes of an ASCII string literal, used to write paths and contents. -/
def cstr (s : String) : List Nat := s.toList.map Char.toNat

/-! ## Data model (`filesystem.h`) -/

/-- The C `Inode` record. -/
structure Inode where
  inode_number : Int
  size : Nat
  file_type : Nat
  permissions : Nat
  link_count : Int
  atime : Int
  mtime : Int
  ctime : Int
  page_count : Int
  pages : Nat → Int
  symlink_path : List Nat

/-- The C `DirectoryEntry` record. -/
structure DirectoryEntry where
  name : List Nat
  inode_number : Int
  parent_inode : Int

/-- The C `PageTableEntry` record; `data j` is byte `j` of the page. -/
structure PageTableEntry where
  is_used : Int
  data : Nat → Nat

/-- The C `SuperBlock` record. -/
structure SuperBlock where
  inodes : Int → Inode
  directory : Int → DirectoryEntry
  page_table : Int → PageTableEntry
  free_inode_head : Int
  free_page_head : Int

/-- The disk image together with the process-wide `current_path`. -/
structure State where
  fs : SuperBlock
  current_path : List Nat

/-- The state with the disk image replaced (`save_superblock`). -/
def State.save (s : State) (fs : SuperBlock) : State :=
  { s with fs := fs }

/-- An inode after `memset(.., 0, sizeof(Inode))`. -/
def zero_inode : Inode :=
  { inode_number := 0, size := 0, file_type := 0, permissions := 0, link_count := 0,
    atime := 0, mtime := 0, ctime := 0, page_count := 0, pages := fun _ => 0,
    symlink_path := [] }

/-- Replace cell `i` of a table. -/
def setAt {α : Type} (f : Int → α) (i : Int) (v : α) : Int → α :=
  fun j => if j = i then v else f j

/-- Replace the inode in slot `i`. -/
def SuperBlock.setInode (fs : SuperBlock) (i : Int) (v : Inode) : SuperBlock :=
  { fs with inodes := setAt fs.inodes i v }

/-- Replace the directory entry in slot `i`. -/
def SuperBlock.setEntry (fs : SuperBlock) (i : Int) (v : DirectoryEntry) : SuperBlock :=
  { fs with directory := setAt fs.directory i v }

/-- Replace the page table entry in slot `i`. -/
def SuperBlock.setPage (fs : SuperBlock) (i : Int) (v : PageTableEntry) : SuperBlock :=
  { fs with page_table := setAt fs.page_table i v }

/-! ## The `int` stored in the first four bytes of a page -/

/-- The value read by the C expression `*((int*)data)`: the first four bytes
as a little-endian two's complement 32 bit integer. -/
def read_int (d : Nat → Nat) : Int :=
  if d 0 + 256 * d 1 + 65536 * d 2 + 16777216 * d 3 < 2147483648 then
    ((d 0 + 256 * d 1 + 65536 * d 2 + 16777216 * d 3 : Nat) : Int)
  else
    ((d 0 + 256 * d 1 + 65536 * d 2 + 16777216 * d 3 : Nat) : Int) - 4294967296

/-- The store `*((int*)data) = v`: the first four bytes are overwritten, the
other bytes are kept. -/
def write_int (d : Nat → Nat) (v : Int) : Nat → Nat :=
  fun j =>
    if j = 0 then (v % 4294967296).toNat % 256
    else if j = 1 then (v % 4294967296).toNat / 256 % 256
    else if j = 2 then (v % 4294967296).toNat / 65536 % 256
    else if j = 3 then (v % 4294967296).toNat / 16777216 % 256
    else d j

/-- The C call `memcpy(data + off, src, n)` where `src` holds the `n` bytes
copied. -/
def memcpy_at (d : Nat → Nat) (off : Nat) (src : List Nat) : Nat → Nat :=
  fun j => if off ≤ j ∧ j < off + src.length then src.getD (j - off) 0 else d j

/-! ## Allocation (`system.c`) -/

/-- The C function `allocate_inode`: the new image and the returned number. -/
def allocate_inode (now : Int) (fs : SuperBlock) : SuperBlock × Int :=
  if fs.free_inode_head = -1 then (fs, -1)
  else
    ({ fs with
        free_inode_head := (fs.inodes fs.free_inode_head).link_count,
        inodes := setAt fs.inodes fs.free_inode_head
          { zero_inode with inode_number := fs.free_inode_head, ctime := now } },
     fs.free_inode_head)

/-- The C function `free_inode`. -/
def free_inode (fs : SuperBlock) (inode_number : Int) : SuperBlock :=
  { fs with
    inodes := setAt fs.inodes inode_number
      { fs.inodes inode_number with link_count := fs.free_inode_head },
    free_inode_head := inode_number }

/-- The C function `allocate_page`: the new image and the returned number. -/
def allocate_page (fs : SuperBlock) : SuperBlock × Int :=
  if fs.free_page_head = -1 then (fs, -1)
  else
    ({ fs with
        free_page_head := read_int (fs.page_table fs.free_page_head).data,
        page_table := setAt fs.page_table fs.free_page_head
          { fs.page_table fs.free_page_head with is_used := 1 } },
     fs.free_page_head)

/-- The C function `free_page`. -/
def free_page (fs : SuperBlock) (page_number : Int) : SuperBlock :=
  { fs with
    page_table := setAt fs.page_table page_number
      { is_used := 0,
        data := write_int (fs.page_table page_number).data fs.free_page_head },
    free_page_head := page_number }

/-- The image built by `format_partition` before the root directory is
created: zeroed, with both free lists threaded through the tables. -/
def format_tables : SuperBlock :=
  { inodes := fun i =>
      { zero_inode with
        inode_number := -1,
        link_count := if i < (MAX_FILES : Int) - 1 then i + 1 else -1 },
    directory := fun _ => { name := [], inode_number := 0, parent_inode := 0 },
    page_table := fun i =>
      { is_used := 0,
        data := write_int (fun _ => 0)
          (if i < (NUM_PAGES : Int) - 1 then i + 1 else -1) },
    free_inode_head := 0,
    free_page_head := 0 }

/-- The C function `format_partition`: the formatted image, with the root
directory in the inode it allocates and `current_path` reset to `"/"`. -/
def format_partition (now : Int) : State :=
  let a := allocate_inode now format_tables
  let fs1 := a.1.setInode a.2
    { a.1.inodes a.2 with
      file_type := FILE_TYPE_DIR,
      permissions := PERM_READ ||| PERM_WRITE ||| PERM_EXECUTE,
      ctime := now }
  { fs :=
      { fs1 with
        directory := fun i =>
          if i = 0 then { name := DOT, inode_number := a.2, parent_inode := a.2 }
          else if i = 1 then { name := DOTDOT, inode_number := a.2, parent_inode := a.2 }
          else { name := [], inode_number := -1, parent_inode := -1 } },
    current_path := [SLASH] }

/-! ## Paths and the directory table (`dir.c`, `system.c`) -/

/-- The tokens `strtok(.., "/")` yields one after the other: the maximal
non-empty runs of bytes other than `'/'`.  The second argument is the token
being read. -/
def strtok_loop : List Nat → List Nat → List (List Nat)
  | [], tok => if tok = [] then [] else [tok]
  | c :: cs, tok =>
    if c = SLASH then
      if tok = [] then strtok_loop cs [] else tok :: strtok_loop cs []
    else strtok_loop cs (tok ++ [c])

/-- The C function `split_path`: the path is copied with
`strncpy(.., MAX_PATH_LENGTH)`, at most `MAX_PATH_LENGTH` tokens are kept and
each is copied with `strncpy(.., MAX_FILENAME_LENGTH)`.  (A copy that fills
its buffer is left without terminator in C; here it is the truncated string.) -/
def split_path (path : List Nat) : List (List Nat) :=
  ((strtok_loop (path.take MAX_PATH_LENGTH) []).take MAX_PATH_LENGTH).map
    (fun t => t.take MAX_FILENAME_LENGTH)

/-- The C function `extract_last_path_component`: trailing `'/'` are skipped,
then the bytes back to the previous `'/'` are returned. -/
def extract_last_path_component (path : List Nat) : List Nat :=
  ((path.reverse.dropWhile (fun c => c = SLASH)).takeWhile (fun c => c ≠ SLASH)).reverse

/-- The C function `find_in_directory`: the inode of the first slot, in table
order, whose parent and name match. -/
def find_in_directory (fs : SuperBlock) (dir_inode : Int) (name : List Nat) : Int :=
  match (List.range MAX_FILES).find?
      (fun (i : Nat) => (fs.directory (i : Int)).parent_inode = dir_inode ∧
        (fs.directory (i : Int)).name = name) with
  | some i => (fs.directory (i : Int)).inode_number
  | none => -1

/-- The component loop of `get_inode_from_path`, from inode `cur` over the
components still to be walked (`i != count-1` is `rest ≠ []`). -/
def walk_path (fs : SuperBlock) : Int → List (List Nat) → Int
  | cur, [] => cur
  | cur, c :: rest =>
    if c = DOT then walk_path fs cur rest
    else if c = DOTDOT then
      if find_in_directory fs cur DOTDOT = -1 then -1
      else walk_path fs (find_in_directory fs cur DOTDOT) rest
    else if find_in_directory fs cur c = -1 then -1
    else if (fs.inodes (find_in_directory fs cur c)).file_type ≠ FILE_TYPE_DIR ∧ rest ≠ [] then -1
    else walk_path fs (find_in_directory fs cur c) rest

/-- The C function `get_inode_from_path` with a bound on the depth of its
recursion: a relative path is rewritten to `current_path` joined with it and
resolved again. -/
def get_inode_from_path_fuel (s : State) : Nat → List Nat → Int
  | 0, _ => -1
  | fuel + 1, path =>
    if path.head? = some SLASH then
      walk_path s.fs (s.fs.directory 0).inode_number (split_path path)
    else if s.current_path.length + path.length + 1 ≥ MAX_PATH_LENGTH then -1
    else if s.current_path.getLast? = some SLASH then
      get_inode_from_path_fuel s fuel (s.current_path ++ path)
    else
      get_inode_from_path_fuel s fuel (s.current_path ++ [SLASH] ++ path)

/-- The C function `get_inode_from_path`.  Each recursive call lengthens the
path and the length test stops it below `MAX_PATH_LENGTH`, so
`MAX_PATH_LENGTH + 1` levels are enough. -/
def get_inode_from_path (s : State) (path : List Nat) : Int :=
  get_inode_from_path_fuel s (MAX_PATH_LENGTH + 1) path

/-- The loop of `get_parent_directory_inode` that removes trailing `'/'`
while the string is longer than one byte, on the reversed string. -/
def strip_trailing_rev : List Nat → List Nat
  | [] => []
  | [c] => [c]
  | c :: d :: rest => if c = SLASH then strip_trailing_rev (d :: rest) else c :: d :: rest

/-- The C function `get_parent_directory_inode`. -/
def get_parent_directory_inode (s : State) (path : List Nat) : Int :=
  let normalized_path :=
    (strip_trailing_rev
      (if path.head? ≠ some SLASH then
        (s.current_path ++ [SLASH] ++ path).take (MAX_PATH_LENGTH - 1)
      else path.take MAX_PATH_LENGTH).reverse).reverse
  if normalized_path = [SLASH] then (s.fs.directory 0).inode_number
  else if (normalized_path.reverse.dropWhile (fun c => c ≠ SLASH)) = [] then -1
  else get_inode_from_path s (normalized_path.reverse.dropWhile (fun c => c ≠ SLASH)).reverse

/-- The C function `add_directory_entry`: the first free slot is filled and
the size and `mtime` of the parent are updated; with no free slot only
"Directory is full" is printed. -/
def add_directory_entry (now : Int) (fs : SuperBlock) (parent_inode : Int) (name : List Nat)
    (target_inode : Int) : SuperBlock :=
  match (List.range MAX_FILES).find? (fun (i : Nat) => (fs.directory (i : Int)).inode_number = -1) with
  | some i =>
    let fs1 := fs.setEntry (i : Int)
      { name := name.take MAX_FILENAME_LENGTH, inode_number := target_inode,
        parent_inode := parent_inode }
    if 0 ≤ parent_inode ∧ parent_inode < (MAX_FILES : Int) then
      fs1.setInode parent_inode
        { fs1.inodes parent_inode with
          size := ((fs1.inodes parent_inode).size + SIZEOF_DIRECTORY_ENTRY) % SIZE_MOD,
          mtime := now }
    else fs1
  | none => fs

/-- The C function `remove_directory_entry`. -/
def remove_directory_entry (now : Int) (fs : SuperBlock) (name : List Nat) (parent_inode : Int) :
    SuperBlock :=
  match (List.range MAX_FILES).find?
      (fun (i : Nat) => (fs.directory (i : Int)).parent_inode = parent_inode ∧
        (fs.directory (i : Int)).name = name) with
  | some i =>
    let fs1 :=
      if 0 ≤ parent_inode ∧ parent_inode < (MAX_FILES : Int) then
        fs.setInode parent_inode
          { fs.inodes parent_inode with
            size := ((fs.inodes parent_inode).size + SIZE_MOD - SIZEOF_DIRECTORY_ENTRY) % SIZE_MOD,
            mtime := now }
      else fs
    fs1.setEntry (i : Int) { name := [], inode_number := -1, parent_inode := -1 }
  | none => fs

/-! ## Permissions (`perm.c`) -/

/-- The C function `check_directory_permission`; the result is used as a
truth value. -/
def check_directory_permission (fs : SuperBlock) (dir_inode : Int) (required_perm : Nat) : Nat :=
  if dir_inode = -1 then 0
  else if (fs.inodes dir_inode).file_type ≠ FILE_TYPE_DIR then 0
  else if required_perm = PERM_READ then (fs.inodes dir_inode).permissions &&& PERM_READ
  else if required_perm = (PERM_READ ||| PERM_EXECUTE) then
    if (fs.inodes dir_inode).permissions &&& PERM_READ ≠ 0 ∧
        (fs.inodes dir_inode).permissions &&& PERM_EXECUTE ≠ 0 then 1 else 0
  else if required_perm = PERM_WRITE then (fs.inodes dir_inode).permissions &&& PERM_WRITE
  else if required_perm = (PERM_READ ||| PERM_WRITE) then
    if (fs.inodes dir_inode).permissions &&& PERM_READ ≠ 0 ∧
        (fs.inodes dir_inode).permissions &&& PERM_WRITE ≠ 0 then 1 else 0
  else if required_perm = (PERM_READ ||| PERM_WRITE ||| PERM_EXECUTE) then
    if (fs.inodes dir_inode).permissions &&& PERM_READ ≠ 0 ∧
        (fs.inodes dir_inode).permissions &&& PERM_WRITE ≠ 0 ∧
        (fs.inodes dir_inode).permissions &&& PERM_EXECUTE ≠ 0 then 1 else 0
  else 0

/-- The C function `check_file_permission`; the result is used as a truth
value. -/
def check_file_permission (fs : SuperBlock) (file_inode : Int) (required_perm : Nat) : Nat :=
  if file_inode = -1 then 0
  else if (fs.inodes file_inode).file_type ≠ FILE_TYPE_REGULAR then 0
  else if required_perm = PERM_READ then (fs.inodes file_inode).permissions &&& PERM_READ
  else if required_perm = PERM_WRITE then (fs.inodes file_inode).permissions &&& PERM_WRITE
  else if required_perm = (PERM_READ ||| PERM_WRITE) then
    if (fs.inodes file_inode).permissions &&& PERM_READ ≠ 0 ∧
        (fs.inodes file_inode).permissions &&& PERM_WRITE ≠ 0 then 1 else 0
  else if required_perm = (PERM_READ ||| PERM_WRITE ||| PERM_EXECUTE) then
    if (fs.inodes file_inode).permissions &&& PERM_READ ≠ 0 ∧
        (fs.inodes file_inode).permissions &&& PERM_WRITE ≠ 0 ∧
        (fs.inodes file_inode).permissions &&& PERM_EXECUTE ≠ 0 then 1 else 0
  else if required_perm = PERM_EXECUTE then (fs.inodes file_inode).permissions &&& PERM_EXECUTE
  else 0

/-! ## Symbolic link resolution (`link.c`) -/

/-- The loop of `resolve_symlink` with `max_links` hops left; when the
counter reaches zero the function reports too many levels. -/
def resolve_symlink_loop (s : State) : Nat → Int → Int
  | 0, _ => -1
  | max_links + 1, current =>
    if (s.fs.inodes current).file_type = FILE_TYPE_SYMLINK then
      if get_inode_from_path s (s.fs.inodes current).symlink_path = -1 then -1
      else resolve_symlink_loop s max_links
        (get_inode_from_path s (s.fs.inodes current).symlink_path)
    else current

/-- The C function `resolve_symlink`. -/
def resolve_symlink (s : State) (inode_num : Int) : Int :=
  resolve_symlink_loop s 10 inode_num

/-! ## Directory and file operations (`dir.c`, `file.c`, `link.c`) -/

/-- The conversion of a `size_t` value to `int` (32 bit two's complement). -/
def to_int (n : Nat) : Int :=
  if n % 4294967296 < 2147483648 then ((n % 4294967296 : Nat) : Int)
  else ((n % 4294967296 : Nat) : Int) - 4294967296

/-- The C function `create_directory`. -/
def create_directory (now : Int) (s : State) (path : List Nat) : State × String :=
  if get_parent_directory_inode s path = -1 then (s, "Parent directory not found")
  else if check_directory_permission s.fs (get_parent_directory_inode s path)
      (PERM_READ ||| PERM_WRITE) = 0 then (s, "Permission denied")
  else if find_in_directory s.fs (get_parent_directory_inode s path)
      (extract_last_path_component path) ≠ -1 then (s, "Directory already exists")
  else if (allocate_inode now s.fs).2 = -1 then (s, "No free inodes")
  else
    let parent_inode := get_parent_directory_inode s path
    let dirname := extract_last_path_component path
    let new_inode := (allocate_inode now s.fs).2
    let fs1 := (allocate_inode now s.fs).1
    let fs2 := fs1.setInode new_inode
      { fs1.inodes new_inode with
        file_type := FILE_TYPE_DIR,
        permissions := PERM_READ ||| PERM_WRITE ||| PERM_EXECUTE,
        size := 2 * SIZEOF_DIRECTORY_ENTRY,
        ctime := now, mtime := now, atime := now }
    let fs3 := add_directory_entry now fs2 parent_inode dirname new_inode
    let fs4 := add_directory_entry now fs3 new_inode DOT new_inode
    let fs5 := add_directory_entry now fs4 new_inode DOTDOT parent_inode
    ({ s with fs := fs5 }, "Directory created successfully")

/-- The C function `create_file`. -/
def create_file (now : Int) (s : State) (path : List Nat) : State × String :=
  if path = [SLASH] then (s, "Cannot create root directory")
  else if get_parent_directory_inode s path = -1 then (s, "Parent directory not found")
  else if check_directory_permission s.fs (get_parent_directory_inode s path)
      (PERM_READ ||| PERM_WRITE) = 0 then (s, "Permission denied")
  else if find_in_directory s.fs (get_parent_directory_inode s path)
      (extract_last_path_component path) ≠ -1 then (s, "File already exists")
  else if (allocate_inode now s.fs).2 = -1 then (s, "No free inodes")
  else
    let parent_inode := get_parent_directory_inode s path
    let filename := extract_last_path_component path
    let new_inode := (allocate_inode now s.fs).2
    let fs1 := (allocate_inode now s.fs).1
    let fs2 := fs1.setInode new_inode
      { fs1.inodes new_inode with
        file_type := FILE_TYPE_REGULAR,
        permissions := PERM_READ ||| PERM_WRITE,
        size := 0,
        ctime := now, mtime := now, atime := now }
    let fs3 := add_directory_entry now fs2 parent_inode filename new_inode
    let fs4 := fs3.setInode parent_inode
      { fs3.inodes parent_inode with
        size := ((fs3.inodes parent_inode).size + SIZEOF_DIRECTORY_ENTRY) % SIZE_MOD }
    ({ s with fs := fs4 }, "File created successfully")

/-- The loop `for (i = 0; i < inode->page_count; i++) free_page(inode->pages[i])`
found in `delete_file` and `write_file`. -/
def free_pages (fs : SuperBlock) (inode : Int) : SuperBlock :=
  (List.range (fs.inodes inode).page_count.toNat).foldl
    (fun acc i => free_page acc ((acc.inodes inode).pages i)) fs

/-- The C function `delete_file`. -/
def delete_file (now : Int) (s : State) (path : List Nat) : State × String :=
  if get_inode_from_path s path = -1 then (s, "File not found")
  else if (s.fs.inodes (get_inode_from_path s path)).file_type ≠ FILE_TYPE_REGULAR then
    (s, "Not a regular file")
  else if get_parent_directory_inode s path = -1 then (s, "Parent directory not found")
  else if check_directory_permission s.fs (get_parent_directory_inode s path)
      (PERM_READ ||| PERM_WRITE) = 0 then (s, "Permission denied")
  else
    let file_inode := get_inode_from_path s path
    let parent_inode := get_parent_directory_inode s path
    let fs1 := free_pages s.fs file_inode
    let fs2 := remove_directory_entry now fs1 (extract_last_path_component path) parent_inode
    if (fs2.inodes file_inode).link_count = 0 then
      ({ s with fs := free_inode (free_pages fs2 file_inode) file_inode },
        "File deleted successfully")
    else
      ({ s with fs := fs2 },
        "File unlinked successfully (hard links remaining: " ++
          toString (fs2.inodes file_inode).link_count ++ ")")

/-- One pass of the allocation loop of `write_file` after a successful
`allocate_page`: the page is recorded in slot `i` of the inode, the page count
is incremented and the bytes `src` are copied to the start of the page. -/
def store_page (fs : SuperBlock) (file_inode : Int) (i : Nat) (new_page : Int)
    (src : List Nat) : SuperBlock :=
  let fs1 := fs.setInode file_inode
    { fs.inodes file_inode with
      pages := fun j => if j = i then new_page else (fs.inodes file_inode).pages j,
      page_count := (fs.inodes file_inode).page_count + 1 }
  fs1.setPage new_page
    { fs1.page_table new_page with data := memcpy_at (fs1.page_table new_page).data 0 src }

/-- The allocation loop of `write_file` with `n` passes left, at index `i`,
with `remaining` bytes to write from `offset`; the flag tells whether every
`allocate_page` succeeded. -/
def write_file_loop (content : List Nat) (file_inode : Int) :
    Nat → Nat → Nat → Nat → SuperBlock → SuperBlock × Bool
  | 0, _, _, _, fs => (fs, true)
  | n + 1, i, remaining, offset, fs =>
    if (allocate_page fs).2 = -1 then ((allocate_page fs).1, false)
    else
      write_file_loop content file_inode n (i + 1)
        (remaining - (if remaining > PAGE_SIZE then PAGE_SIZE else remaining))
        (offset + (if remaining > PAGE_SIZE then PAGE_SIZE else remaining))
        (store_page (allocate_page fs).1 file_inode i (allocate_page fs).2
          ((content.drop offset).take (if remaining > PAGE_SIZE then PAGE_SIZE else remaining)))

/-- The inode `write_file`, `append_to_file` and `open_file` work on: the one
the path resolves to, after `resolve_symlink` when it is a symbolic link. -/
def target_inode (s : State) (path : List Nat) : Int :=
  if (s.fs.inodes (get_inode_from_path s path)).file_type = FILE_TYPE_SYMLINK then
    resolve_symlink s (get_inode_from_path s path)
  else get_inode_from_path s path

/-- The value of `pages_needed` in `write_file` for a content of the given
length. -/
def pages_needed (content_len : Nat) : Int :=
  to_int ((content_len + PAGE_SIZE - 1) % SIZE_MOD / PAGE_SIZE)

/-- The statement `inode->page_count = 0` of `write_file`. -/
def clear_page_count (fs : SuperBlock) (file_inode : Int) : SuperBlock :=
  fs.setInode file_inode { fs.inodes file_inode with page_count := 0 }

/-- The statement `fs.inodes[i].mtime = now`. -/
def set_mtime (now : Int) (fs : SuperBlock) (i : Int) : SuperBlock :=
  fs.setInode i { fs.inodes i with mtime := now }

/-- The end of `write_file` after its loop: size and times of the inode are
set, and `mtime` is stored through `dest_parent_inode` when that is `-1`. -/
def write_file_finish (now : Int) (s : State) (path : List Nat) (content_len : Nat)
    (file_inode : Int) (fs : SuperBlock) : SuperBlock :=
  if get_parent_directory_inode s path = -1 then
    set_mtime now
      (fs.setInode file_inode
        { fs.inodes file_inode with size := content_len, mtime := now, atime := now })
      (get_parent_directory_inode s path)
  else
    fs.setInode file_inode
      { fs.inodes file_inode with size := content_len, mtime := now, atime := now }

/-- The body of `write_file` once the inode is found and the checks have
passed: the old pages are released, the page count is reset, the loop runs; when
an allocation fails the image is saved as it is. -/
def write_file_body (now : Int) (s : State) (path content : List Nat) (file_inode : Int) :
    State × String :=
  if (write_file_loop content file_inode (pages_needed content.length).toNat 0 content.length 0
      (clear_page_count (free_pages s.fs file_inode) file_inode)).2 = false then
    (s.save
        (write_file_loop content file_inode (pages_needed content.length).toNat 0 content.length 0
          (clear_page_count (free_pages s.fs file_inode) file_inode)).1,
      "No free pages available")
  else
    (s.save
        (write_file_finish now s path content.length file_inode
          (write_file_loop content file_inode (pages_needed content.length).toNat 0
            content.length 0 (clear_page_count (free_pages s.fs file_inode) file_inode)).1),
      "File written successfully")

/-- The C function `write_file`. -/
def write_file (now : Int) (s : State) (path content : List Nat) : State × String :=
  if get_inode_from_path s path = -1 then (s, "File not found")
  else if target_inode s path = -1 then (s, "Source file does not exist or has been deleted")
  else if (s.fs.inodes (target_inode s path)).file_type ≠ FILE_TYPE_REGULAR then
    (s, "Not a regular file")
  else if check_file_permission s.fs (target_inode s path) (PERM_READ ||| PERM_WRITE) = 0 then
    (s, "Permission denied")
  else write_file_body now s path content (target_inode s path)

/-- The first part of the body of `append_to_file`: when the file has a page,
the start of the content is copied behind the `size % PAGE_SIZE` bytes in use
of the last page.  The result is the image, `offset` and `remaining`. -/
def append_fill (content : List Nat) (file_inode : Int) (fs : SuperBlock) :
    SuperBlock × Nat × Nat :=
  if (fs.inodes file_inode).page_count > 0 then
    let last_page := (fs.inodes file_inode).pages ((fs.inodes file_inode).page_count - 1).toNat
    let existing_used := (fs.inodes file_inode).size % PAGE_SIZE
    let free_space := PAGE_SIZE - existing_used
    if free_space > 0 then
      let write_size := if content.length < free_space then content.length else free_space
      let fs1 := fs.setPage last_page
        { fs.page_table last_page with
          data := memcpy_at (fs.page_table last_page).data existing_used (content.take write_size) }
      (fs1.setInode file_inode
        { fs1.inodes file_inode with
          size := ((fs1.inodes file_inode).size + write_size) % SIZE_MOD },
        write_size, content.length - write_size)
    else (fs, 0, content.length)
  else (fs, 0, content.length)

/-- One pass of the loop `while (remaining > 0)` of `append_to_file` after a
successful `allocate_page`: the page is recorded in the slot `page_count`, the
page count is incremented, the bytes `src` are copied to the start of the page
and `write_size` is added to the size. -/
def append_page (fs : SuperBlock) (file_inode : Int) (new_page : Int) (src : List Nat)
    (write_size : Nat) : SuperBlock :=
  let fs1 := fs.setInode file_inode
    { fs.inodes file_inode with
      pages := fun j =>
        if j = (fs.inodes file_inode).page_count.toNat then new_page
        else (fs.inodes file_inode).pages j,
      page_count := (fs.inodes file_inode).page_count + 1 }
  let fs2 := fs1.setPage new_page
    { fs1.page_table new_page with data := memcpy_at (fs1.page_table new_page).data 0 src }
  fs2.setInode file_inode
    { fs2.inodes file_inode with size := ((fs2.inodes file_inode).size + write_size) % SIZE_MOD }

/-- The loop `while (remaining > 0)` of `append_to_file`.  Each pass writes
at least one byte, so `remaining` passes are enough; the flag tells whether
every `allocate_page` succeeded. -/
def append_loop (content : List Nat) (file_inode : Int) :
    Nat → Nat → Nat → SuperBlock → SuperBlock × Bool
  | 0, _, _, fs => (fs, true)
  | fuel + 1, remaining, offset, fs =>
    if remaining = 0 then (fs, true)
    else if (allocate_page fs).2 = -1 then ((allocate_page fs).1, false)
    else
      append_loop content file_inode fuel
        (remaining - (if remaining > PAGE_SIZE then PAGE_SIZE else remaining))
        (offset + (if remaining > PAGE_SIZE then PAGE_SIZE else remaining))
        (append_page (allocate_page fs).1 file_inode (allocate_page fs).2
          ((content.drop offset).take (if remaining > PAGE_SIZE then PAGE_SIZE else remaining))
          (if remaining > PAGE_SIZE then PAGE_SIZE else remaining))

/-- The value of `total_pages_needed` in `append_to_file`. -/
def total_pages_needed (size content_len : Nat) : Int :=
  to_int (((size + content_len) % SIZE_MOD + PAGE_SIZE - 1) % SIZE_MOD / PAGE_SIZE)

/-- The end of `append_to_file` after its loop: the times of the inode are
set and, when the parent resolves, its `mtime`. -/
def append_finish (now : Int) (s : State) (path : List Nat) (file_inode : Int)
    (fs : SuperBlock) : SuperBlock :=
  if get_parent_directory_inode s path ≠ -1 then
    set_mtime now
      (fs.setInode file_inode { fs.inodes file_inode with mtime := now, atime := now })
      (get_parent_directory_inode s path)
  else fs.setInode file_inode { fs.inodes file_inode with mtime := now, atime := now }

/-- The image after the filling of the last page and the loop of
`append_to_file`, with the flag of the loop. -/
def append_pages (content : List Nat) (file_inode : Int) (fs : SuperBlock) : SuperBlock × Bool :=
  append_loop content file_inode (append_fill content file_inode fs).2.2
    (append_fill content file_inode fs).2.2 (append_fill content file_inode fs).2.1
    (append_fill content file_inode fs).1

/-- The body of `append_to_file` once the inode is found and the checks
have passed. -/
def append_body (now : Int) (s : State) (path content : List Nat) (file_inode : Int) :
    State × String :=
  if total_pages_needed (s.fs.inodes file_inode).size content.length > (MAX_FILE_PAGES : Int) then
    (s, "File size exceeds maximum limit")
  else if (append_pages content file_inode s.fs).2 = false then
    (s.save (append_pages content file_inode s.fs).1, "No free pages available")
  else
    (s.save (append_finish now s path file_inode (append_pages content file_inode s.fs).1),
      "Content appended successfully")

/-- The C function `append_to_file`. -/
def append_to_file (now : Int) (s : State) (path content : List Nat) : State × String :=
  if get_inode_from_path s path = -1 then (s, "File not found")
  else if target_inode s path = -1 then (s, "Source file does not exist or has been deleted")
  else if (s.fs.inodes (target_inode s path)).file_type ≠ FILE_TYPE_REGULAR then
    (s, "Not a regular file")
  else if check_file_permission s.fs (target_inode s path) PERM_WRITE = 0 then
    (s, "Permission denied")
  else append_body now s path content (target_inode s path)

/-- The buffers `open_file` fills one after the other: with `n` passes left,
at page index `i`, with `remaining` bytes to read.  A buffer holds the first
`read_size` bytes of the page. -/
def read_loop (fs : SuperBlock) (inode : Int) : Nat → Nat → Nat → List (List Nat)
  | 0, _, _ => []
  | n + 1, i, remaining =>
    if remaining = 0 then []
    else
      (List.range (if remaining > PAGE_SIZE then PAGE_SIZE else remaining)).map
          (fs.page_table ((fs.inodes inode).pages i)).data ::
        read_loop fs inode n (i + 1)
          (remaining - (if remaining > PAGE_SIZE then PAGE_SIZE else remaining))

/-- The buffers read by `open_file` from the pages of an inode, in order. -/
def read_buffers (fs : SuperBlock) (inode : Int) : List (List Nat) :=
  read_loop fs inode (fs.inodes inode).page_count.toNat 0 (fs.inodes inode).size

/-- The bytes read page-sequentially from an inode: its buffers in order. -/
def read_bytes (fs : SuperBlock) (inode : Int) : List Nat :=
  (read_buffers fs inode).flatten

/-- What `printf("%s", buffer)` prints after `buffer[read_size] = '\0'`: the
bytes of the buffer before the first NUL.  (For `read_size = PAGE_SIZE` the
terminator is stored one byte past the buffer in C; here the buffer is its
`read_size` bytes.) -/
def printf_s (buffer : List Nat) : List Nat :=
  buffer.takeWhile (fun b => b ≠ 0)

/-- What a reading operation writes to the standard output: a refusal, or
the bytes of the file it printed. -/
inductive Output where
  | refused (message : String)
  | printed (bytes : List Nat)
  deriving DecidableEq

/-- The C function `open_file`: the new state and either the refusal or the
bytes printed (each buffer through `printf("%s")`, then a newline). -/
def open_file (now : Int) (s : State) (path : List Nat) : State × Output :=
  if get_inode_from_path s path = -1 then (s, .refused "File not found")
  else if target_inode s path = -1 then
    (s, .refused "Source file does not exist or has been deleted")
  else if check_file_permission s.fs (target_inode s path) PERM_READ = 0 then
    (s, .refused "Permission denied")
  else if (s.fs.inodes (target_inode s path)).file_type ≠ FILE_TYPE_REGULAR then
    (s, .refused "Not a regular file")
  else
    let file_inode := target_inode s path
    ({ s with fs := s.fs.setInode file_inode { s.fs.inodes file_inode with atime := now } },
      .printed (((read_buffers s.fs file_inode).map printf_s).flatten ++ [10]))

/-- The C function `link_file`. -/
def link_file (now : Int) (s : State) (source link_name : List Nat) : State × String :=
  if get_inode_from_path s source = -1 then (s, "Source file not found")
  else if (s.fs.inodes (get_inode_from_path s source)).file_type ≠ FILE_TYPE_REGULAR then
    (s, "Hard links can only be created for regular files")
  else if get_parent_directory_inode s link_name = -1 then
    (s, "Destination parent directory not found")
  else if (s.fs.inodes (get_parent_directory_inode s link_name)).permissions &&& PERM_WRITE = 0 then
    (s, "Permission denied: parent directory is read-only")
  else if find_in_directory s.fs (get_parent_directory_inode s link_name)
      (extract_last_path_component link_name) ≠ -1 then (s, "Link name already exists")
  else
    let src_inode := get_inode_from_path s source
    let fs1 := add_directory_entry now s.fs (get_parent_directory_inode s link_name)
      (extract_last_path_component link_name) src_inode
    let fs2 := fs1.setInode src_inode
      { fs1.inodes src_inode with
        link_count := (fs1.inodes src_inode).link_count + 1, mtime := now }
    ({ s with fs := fs2 }, "Hard link created successfully")

/-- The directory that `copy_file` and `move_file` put the new entry in: the
destination itself when it resolves to a directory, otherwise the parent
directory named by the destination path. -/
def dest_parent_of (s : State) (destination : List Nat) : Int :=
  if get_inode_from_path s destination ≠ -1 ∧
      (s.fs.inodes (get_inode_from_path s destination)).file_type = FILE_TYPE_DIR then
    get_inode_from_path s destination
  else get_parent_directory_inode s destination

/-- The name that `copy_file` and `move_file` give the new entry: the last
component of the source when the destination resolves to a directory,
otherwise the last component of the destination. -/
def dest_name_of (s : State) (source destination : List Nat) : List Nat :=
  if get_inode_from_path s destination ≠ -1 ∧
      (s.fs.inodes (get_inode_from_path s destination)).file_type = FILE_TYPE_DIR then
    extract_last_path_component source
  else extract_last_path_component destination

/-- The inode of the copy in `copy_file`, after `allocate_inode` and the
assignments to its fields. -/
def copy_inode (now : Int) (fs : SuperBlock) (src_inode : Int) : SuperBlock :=
  (allocate_inode now fs).1.setInode (allocate_inode now fs).2
    { (allocate_inode now fs).1.inodes (allocate_inode now fs).2 with
      file_type := FILE_TYPE_REGULAR,
      permissions := ((allocate_inode now fs).1.inodes src_inode).permissions,
      size := ((allocate_inode now fs).1.inodes src_inode).size,
      page_count := 0,
      ctime := now, mtime := now, atime := now }

/-- One pass of the loop of `copy_file` after a successful `allocate_page`:
`PAGE_SIZE` bytes of page `i` of the source are copied into the new page, and
the new page is recorded at index `page_count` of the copy, whose page count
is incremented. -/
def copy_page (fs : SuperBlock) (src_inode new_inode : Int) (i : Nat) (new_page : Int) :
    SuperBlock :=
  (fs.setPage new_page
    { fs.page_table new_page with
      data := fun j =>
        if j < PAGE_SIZE then (fs.page_table ((fs.inodes src_inode).pages i)).data j
        else (fs.page_table new_page).data j }).setInode new_inode
    { fs.inodes new_inode with
      pages := fun j =>
        if j = (fs.inodes new_inode).page_count.toNat then new_page
        else (fs.inodes new_inode).pages j,
      page_count := (fs.inodes new_inode).page_count + 1 }

/-- The loop of `copy_file` with `n` passes left, at index `i`.  When
`allocate_page` fails the pages of the copy and its inode are released and the
result is marked `false`.  The bound `src->page_count` is read once: the loop
does not change it when the copy is another inode, and it has just been set to
0 when the copy is the source inode itself. -/
def copy_loop (src_inode new_inode : Int) : Nat → Nat → SuperBlock → SuperBlock × Bool
  | 0, _, fs => (fs, true)
  | n + 1, i, fs =>
    if (allocate_page fs).2 = -1 then
      (free_inode (free_pages fs new_inode) new_inode, false)
    else
      copy_loop src_inode new_inode n (i + 1)
        (copy_page (allocate_page fs).1 src_inode new_inode i (allocate_page fs).2)

/-- The loop of `copy_file` run on the image in which the copy's inode has
been set up. -/
def copy_pages (now : Int) (fs : SuperBlock) (src_inode : Int) : SuperBlock × Bool :=
  copy_loop src_inode (allocate_inode now fs).2
    ((copy_inode now fs src_inode).inodes src_inode).page_count.toNat 0
    (copy_inode now fs src_inode)

/-- The C function `copy_file`. -/
def copy_file (now : Int) (s : State) (source destination : List Nat) : State × String :=
  if get_inode_from_path s source = -1 then (s, "Source file not found")
  else if (s.fs.inodes (get_inode_from_path s source)).file_type ≠ FILE_TYPE_REGULAR then
    (s, "Source is not a regular file")
  else if check_file_permission s.fs (get_inode_from_path s source) PERM_READ = 0 then
    (s, "Permission denied: cannot read source file")
  else if dest_parent_of s destination = -1 then
    (s, "Destination parent directory not found")
  else if check_directory_permission s.fs (dest_parent_of s destination)
      (PERM_READ ||| PERM_WRITE) = 0 then
    (s, "Permission denied: cannot write to destination directory")
  else if find_in_directory s.fs (dest_parent_of s destination)
      (dest_name_of s source destination) ≠ -1 then (s, "Destination already exists")
  else if (allocate_inode now s.fs).2 = -1 then (s, "No free inodes available")
  else if (copy_pages now s.fs (get_inode_from_path s source)).2 = true then
    (s.save (add_directory_entry now (copy_pages now s.fs (get_inode_from_path s source)).1
        (dest_parent_of s destination) (dest_name_of s source destination)
        (allocate_inode now s.fs).2),
      "File copied successfully")
  else
    (s.save (copy_pages now s.fs (get_inode_from_path s source)).1, "No free pages available")

/-- The test `is_rename` of `move_file`: the destination string has no `'/'`
and does not resolve to a directory. -/
def is_rename (s : State) (destination : List Nat) : Bool :=
  decide (SLASH ∉ destination ∧
    ¬ (get_inode_from_path s destination ≠ -1 ∧
      (s.fs.inodes (get_inode_from_path s destination)).file_type = FILE_TYPE_DIR))

/-- The C function `move_file`. -/
def move_file (now : Int) (s : State) (source destination : List Nat) : State × String :=
  if get_inode_from_path s source = -1 then (s, "Source file not found")
  else if (s.fs.inodes (get_inode_from_path s source)).file_type ≠ FILE_TYPE_REGULAR then
    (s, "Source is not a regular file")
  else if check_file_permission s.fs (get_inode_from_path s source) PERM_READ = 0 then
    (s, "Permission denied: cannot read source file")
  else if dest_parent_of s destination = -1 then
    (s, "Destination parent directory not found")
  else if get_parent_directory_inode s source = -1 then
    (s, "Source parent directory not found")
  else if check_directory_permission s.fs (get_parent_directory_inode s source)
      PERM_WRITE = 0 then
    (s, "Permission denied: cannot modify source directory")
  else if is_rename s destination = false ∧
      check_directory_permission s.fs (dest_parent_of s destination) PERM_WRITE = 0 then
    (s, "Permission denied: cannot modify destination directory")
  else if find_in_directory s.fs (dest_parent_of s destination)
      (dest_name_of s source destination) ≠ -1 then (s, "Destination already exists")
  else
    (s.save (set_mtime now
        (add_directory_entry now
          (remove_directory_entry now s.fs (extract_last_path_component source)
            (get_parent_directory_inode s source))
          (dest_parent_of s destination) (dest_name_of s source destination)
          (get_inode_from_path s source))
        (get_inode_from_path s source)),
      "File moved successfully")

/-- The test for the root directory made by `delete_directory` and
`move_directory`: the path is the string `"/"`, or it is `"."` while the
current path is `"/"`. -/
def is_root_string (s : State) (path : List Nat) : Bool :=
  decide (path = [SLASH] ∨ (path = DOT ∧ s.current_path = [SLASH]))

/-- The number of slots of the directory table with parent `dir_inode` and an
inode number other than `-1` (the counter `entry_count` of `delete_directory`
when its loop is not left early). -/
def entry_count (fs : SuperBlock) (dir_inode : Int) : Nat :=
  ((List.range MAX_FILES).filter (fun (i : Nat) =>
    (fs.directory (i : Int)).parent_inode = dir_inode ∧
      (fs.directory (i : Int)).inode_number ≠ -1)).length

/-- The second loop of `delete_directory`: every slot of the table with
parent `dir_inode` and an inode number other than `-1` is cleared.  Each pass
reads and writes one slot only, so the loop is given slot by slot. -/
def clear_entries (fs : SuperBlock) (dir_inode : Int) : SuperBlock :=
  { fs with
    directory := fun i =>
      if 0 ≤ i ∧ i < (MAX_FILES : Int) ∧ (fs.directory i).parent_inode = dir_inode ∧
          (fs.directory i).inode_number ≠ -1 then
        { name := [], inode_number := -1, parent_inode := -1 }
      else fs.directory i }

/-- The C function `delete_directory`. -/
def delete_directory (now : Int) (s : State) (path : List Nat) : State × String :=
  if is_root_string s path = true then (s, "Cannot delete root directory")
  else if get_inode_from_path s path = -1 then (s, "Directory not found")
  else if (s.fs.inodes (get_inode_from_path s path)).file_type ≠ FILE_TYPE_DIR then
    (s, "Not a directory")
  else if entry_count s.fs (get_inode_from_path s path) > 2 then (s, "Directory not empty")
  else if get_parent_directory_inode s path = -1 then (s, "Parent directory not found")
  else if check_directory_permission s.fs (get_parent_directory_inode s path)
      (PERM_READ ||| PERM_WRITE) = 0 then (s, "Permission denied")
  else
    (s.save (free_inode
        (remove_directory_entry now (clear_entries s.fs (get_inode_from_path s path))
          (extract_last_path_component path) (get_parent_directory_inode s path))
        (get_inode_from_path s path)),
      "Directory deleted successfully")

/-- The loop `while (temp_inode != 0)` of `move_directory`, with `fuel`
passes allowed: `some false` when the walk reaches inode 0, `some true` when
it meets `src_inode` first, `none` when neither has happened after `fuel`
passes (the C loop has no bound of its own). -/
def cycle_walk (fs : SuperBlock) (src_inode : Int) : Nat → Int → Option Bool
  | 0, _ => none
  | fuel + 1, temp_inode =>
    if temp_inode = 0 then some false
    else if temp_inode = src_inode then some true
    else cycle_walk fs src_inode fuel (find_in_directory fs temp_inode DOTDOT)

/-- The last loop of `move_directory`: the first slot, in table order, with
parent `src_inode` and name `".."` gets the inode number `dest_parent`. -/
def set_dotdot (fs : SuperBlock) (src_inode dest_parent : Int) : SuperBlock :=
  match (List.range MAX_FILES).find?
      (fun (i : Nat) => (fs.directory (i : Int)).parent_inode = src_inode ∧
        (fs.directory (i : Int)).name = DOTDOT) with
  | some i => fs.setEntry (i : Int) { fs.directory (i : Int) with inode_number := dest_parent }
  | none => fs

/-- The C function `move_directory`, with `fuel` passes allowed to its
upward walk; `none` when the walk does not end within them. -/
def move_directory (fuel : Nat) (now : Int) (s : State) (source destination : List Nat) :
    Option (State × String) :=
  if is_root_string s source = true then some (s, "Cannot move root directory")
  else if get_inode_from_path s source = -1 then some (s, "Source directory not found")
  else if (s.fs.inodes (get_inode_from_path s source)).file_type ≠ FILE_TYPE_DIR then
    some (s, "Source is not a directory")
  else if get_parent_directory_inode s destination = -1 then
    some (s, "Destination parent directory not found")
  else if get_parent_directory_inode s source = -1 then
    some (s, "Source parent directory not found")
  else if find_in_directory s.fs (get_parent_directory_inode s destination)
      (extract_last_path_component destination) ≠ -1 then
    some (s, "Destination already exists")
  else
    match cycle_walk s.fs (get_inode_from_path s source) fuel
        (get_parent_directory_inode s destination) with
    | none => none
    | some true => some (s, "Cannot move a directory to its subdirectory")
    | some false =>
      some (s.save (set_dotdot
          (add_directory_entry now
            (remove_directory_entry now s.fs (extract_last_path_component source)
              (get_parent_directory_inode s source))
            (get_parent_directory_inode s destination)
            (extract_last_path_component destination) (get_inode_from_path s source))
          (get_inode_from_path s source) (get_parent_directory_inode s destination)),
        "Directory moved successfully")

/-- What `delete_directory_recursive` does with the child `child_inode`
found in slot `i`, after the recursive call for a directory: a regular
file has its link count decremented and is released when the count is then 0,
a symbolic link is released, a directory is left alone; then the slot is
cleared. -/
def delete_child_entry (fs : SuperBlock) (i : Nat) (child_inode : Int) : SuperBlock :=
  (if (fs.inodes child_inode).file_type = FILE_TYPE_REGULAR then
    if (fs.inodes child_inode).link_count - 1 = 0 then
      free_inode
        (free_pages
          (fs.setInode child_inode
            { fs.inodes child_inode with link_count := (fs.inodes child_inode).link_count - 1 })
          child_inode)
        child_inode
    else
      fs.setInode child_inode
        { fs.inodes child_inode with link_count := (fs.inodes child_inode).link_count - 1 }
  else if (fs.inodes child_inode).file_type = FILE_TYPE_SYMLINK then free_inode fs child_inode
  else fs).setEntry (i : Int) { name := [], inode_number := -1, parent_inode := -1 }

/-- The C function `delete_directory_recursive`, with `fuel` levels of
recursion allowed; `none` when they do not suffice.  The loop visits the slots
in table order and reads each slot in the image left by the passes before
it. -/
def delete_directory_recursive : Nat → SuperBlock → Int → Option SuperBlock
  | 0, _, _ => none
  | fuel + 1, fs, dir_inode =>
    (List.range MAX_FILES).foldl
      (fun acc (i : Nat) =>
        match acc with
        | none => none
        | some fs1 =>
          if (fs1.directory (i : Int)).parent_inode = dir_inode ∧
              (fs1.directory (i : Int)).inode_number ≠ -1 ∧
              (fs1.directory (i : Int)).name ≠ DOT ∧
              (fs1.directory (i : Int)).name ≠ DOTDOT then
            match
              (if (fs1.inodes (fs1.directory (i : Int)).inode_number).file_type =
                  FILE_TYPE_DIR then
                delete_directory_recursive fuel fs1 (fs1.directory (i : Int)).inode_number
              else some fs1) with
            | none => none
            | some fs2 => some (delete_child_entry fs2 i (fs1.directory (i : Int)).inode_number)
          else some fs1)
      (some fs)

/-- The C function `delete_directory_force`, with `fuel` levels of recursion
allowed; `response` is the line read from the standard input, without its
newline. -/
def delete_directory_force (fuel : Nat) (now : Int) (s : State) (path response : List Nat) :
    Option (State × String) :=
  if is_root_string s path = true then some (s, "Cannot delete root directory")
  else if get_inode_from_path s path = -1 then some (s, "Directory not found")
  else if (s.fs.inodes (get_inode_from_path s path)).file_type ≠ FILE_TYPE_DIR then
    some (s, "Not a directory")
  else if get_parent_directory_inode s path = -1 then some (s, "Parent directory not found")
  else if check_directory_permission s.fs (get_parent_directory_inode s path)
      (PERM_READ ||| PERM_WRITE) = 0 then some (s, "Permission denied")
  else if response ≠ cstr "yes" then some (s, "Operation cancelled")
  else
    match delete_directory_recursive fuel s.fs (get_inode_from_path s path) with
    | none => none
    | some fs1 =>
      some (s.save (free_inode
          (remove_directory_entry now (clear_entries fs1 (get_inode_from_path s path))
            (extract_last_path_component path) (get_parent_directory_inode s path))
          (get_inode_from_path s path)),
        "Directory and all its contents deleted successfully")

/-- The C function `parse_permissions`: the bits of the letters `r`, `w`, `x`
found anywhere in the string. -/
def parse_permissions (perm_str : List Nat) : Nat :=
  perm_str.foldl
    (fun perms c =>
      if c = 114 then perms ||| PERM_READ
      else if c = 119 then perms ||| PERM_WRITE
      else if c = 120 then perms ||| PERM_EXECUTE
      else perms)
    0

/-- The C function `change_permissions`. -/
def change_permissions (now : Int) (s : State) (path perm_str : List Nat) : State × String :=
  if get_inode_from_path s path = -1 then (s, "File or directory not found")
  else if perm_str.length ≠ 3 then (s, "Invalid permission format. Please use format \x27rwx\x27 (e.g., \x27rw-\x27, \x27r--\x27, etc.)")
  else if perm_str.getD 0 0 ≠ 114 ∧ perm_str.getD 0 0 ≠ 45 then
    (s, "Invalid read permission. Use \x27r\x27 or \x27-\x27")
  else if perm_str.getD 1 0 ≠ 119 ∧ perm_str.getD 1 0 ≠ 45 then
    (s, "Invalid write permission. Use \x27w\x27 or \x27-\x27")
  else if perm_str.getD 2 0 ≠ 120 ∧ perm_str.getD 2 0 ≠ 45 then
    (s, "Invalid execute permission. Use \x27x\x27 or \x27-\x27")
  else
    (s.save (s.fs.setInode (get_inode_from_path s path)
        { s.fs.inodes (get_inode_from_path s path) with
          permissions := parse_permissions perm_str, mtime := now }),
      "Permissions changed successfully")

/-- The path that `create_symlink` stores in the inode: the target when it
is absolute, otherwise the current path, a `'/'` unless the current path is
`"/"`, and the target; the buffers hold `MAX_PATH_LENGTH - 1` bytes. -/
def stored_symlink_path (s : State) (target : List Nat) : List Nat :=
  (if target.head? = some SLASH then target.take (MAX_PATH_LENGTH - 1)
    else if s.current_path ≠ [SLASH] then s.current_path ++ [SLASH] ++ target
    else s.current_path ++ target).take (MAX_PATH_LENGTH - 1)

/-- The C function `create_symlink`. -/
def create_symlink (now : Int) (s : State) (target linkpath : List Nat) : State × String :=
  if get_inode_from_path s target = -1 then (s, "Target file not found")
  else if get_parent_directory_inode s linkpath = -1 then (s, "Parent directory not found")
  else if find_in_directory s.fs (get_parent_directory_inode s linkpath)
      (extract_last_path_component linkpath) ≠ -1 then (s, "Link name already exists")
  else if (allocate_inode now s.fs).2 = -1 then (s, "No free inodes available")
  else
    (s.save (add_directory_entry now
        ((allocate_inode now s.fs).1.setInode (allocate_inode now s.fs).2
          { (allocate_inode now s.fs).1.inodes (allocate_inode now s.fs).2 with
            file_type := FILE_TYPE_SYMLINK,
            permissions := PERM_READ ||| PERM_WRITE,
            size := (stored_symlink_path s target).length,
            link_count := 1,
            page_count := 0,
            ctime := now, mtime := now, atime := now,
            symlink_path := stored_symlink_path s target })
        (get_parent_directory_inode s linkpath) (extract_last_path_component linkpath)
        (allocate_inode now s.fs).2),
      "Symbolic link created successfully")

/-- The path that `change_directory` builds in `new_path` from the path it
works with (the argument, or the stored path of the symbolic link the
argument resolved to), before the trailing `'/'` is removed.  An absolute
path is copied with `strncpy(.., MAX_PATH_LENGTH)`; `".."` gives the current
path up to its last `'/'`, or `"/"` when that is its first character (with no
`'/'` in the current path `strrchr` returns `NULL` in C; here the result is
`"/"`); another relative path is printed after the current path with
`snprintf(.., MAX_PATH_LENGTH, ..)`. -/
def built_path (s : State) (path : List Nat) : List Nat :=
  if path.head? = some SLASH then path.take MAX_PATH_LENGTH
  else if path = DOTDOT then
    if ((s.current_path.reverse.dropWhile (fun c => c ≠ SLASH)).reverse).length ≤ 1 then [SLASH]
    else ((s.current_path.reverse.dropWhile (fun c => c ≠ SLASH)).reverse).dropLast
  else if s.current_path = [SLASH] then ([SLASH] ++ path).take (MAX_PATH_LENGTH - 1)
  else (s.current_path ++ [SLASH] ++ path).take (MAX_PATH_LENGTH - 1)

/-- The normalisation at the end of `change_directory`: one trailing `'/'` is
removed from a path longer than one byte. -/
def drop_trailing_slash (p : List Nat) : List Nat :=
  if p.length > 1 ∧ p.getLast? = some SLASH then p.dropLast else p

/-- The path `change_directory` works with after the resolution of a symbolic
link: the stored path of the link the argument resolved to, otherwise the
argument. -/
def working_path (s : State) (path : List Nat) : List Nat :=
  if (s.fs.inodes (get_inode_from_path s path)).file_type = FILE_TYPE_SYMLINK then
    (s.fs.inodes (get_inode_from_path s path)).symlink_path
  else path

/-- The C function `change_directory`.  For the relative path `"."` the
function returns before it prints or saves anything. -/
def change_directory (now : Int) (s : State) (path : List Nat) : State × String :=
  if get_inode_from_path s path = -1 then (s, "Directory not found")
  else if (s.fs.inodes (get_inode_from_path s path)).file_type = FILE_TYPE_SYMLINK ∧
      resolve_symlink s (get_inode_from_path s path) = -1 then
    (s, "Source directory does not exist or has been deleted")
  else if (s.fs.inodes (target_inode s path)).file_type ≠ FILE_TYPE_DIR then
    (s, "Not a directory")
  else if check_directory_permission s.fs (target_inode s path)
      (PERM_READ ||| PERM_EXECUTE) = 0 then (s, "Permission denied")
  else if working_path s path = DOT then (s, "")
  else
    ({ fs := s.fs.setInode (target_inode s path)
          { s.fs.inodes (target_inode s path) with atime := now },
       current_path := drop_trailing_slash (built_path s (working_path s path)) },
      "Changed directory to: " ++
        String.mk ((drop_trailing_slash (built_path s (working_path s path))).map Char.ofNat))

/-- The C function `print_working_directory`: the line it prints. -/
def print_working_directory (s : State) : List Nat :=
  s.current_path ++ [10]

/-- The C statement `total_size += x` for the `int` total and a `size_t`
value `x`: the sum is formed in `size_t` and converted back to `int`. -/
def add_size (total : Int) (x : Nat) : Int :=
  to_int (((total % (SIZE_MOD : Int)).toNat + x) % SIZE_MOD)

/-- The C statement `total_size += x` for two `int` values, reduced to 32 bits
in two's complement (a signed overflow is undefined in C). -/
def add_int (total x : Int) : Int :=
  to_int ((total + x) % 4294967296).toNat

/-- The end of a pass of the loop of `get_dir_size` over the slot `i`: the
size of the child is added to the total, and for a symbolic link the length
of its stored path as well. -/
def add_child_size (fs : SuperBlock) (i : Nat) (total : Int) : Int :=
  if (fs.inodes (fs.directory (i : Int)).inode_number).file_type = FILE_TYPE_SYMLINK then
    add_size (add_size total (fs.inodes (fs.directory (i : Int)).inode_number).size)
      (fs.inodes (fs.directory (i : Int)).inode_number).symlink_path.length
  else add_size total (fs.inodes (fs.directory (i : Int)).inode_number).size

/-- The C function `get_dir_size`, with `fuel` levels of recursion allowed;
`none` when they do not suffice (the recursion of the C function has no bound
of its own).  The accumulator of the loop is `some none` once the function
has returned `-1`, otherwise the running total. -/
def get_dir_size : Nat → SuperBlock → Int → Option Int
  | 0, _, _ => none
  | fuel + 1, fs, inode_number =>
    if inode_number < 0 ∨ inode_number ≥ (MAX_FILES : Int) then some (-1)
    else if (fs.inodes inode_number).file_type ≠ FILE_TYPE_DIR then some (-1)
    else
      match (List.range MAX_FILES).foldl
          (fun (acc : Option (Option Int)) (i : Nat) =>
            match acc with
            | none => none
            | some none => some none
            | some (some total) =>
              if (fs.directory (i : Int)).parent_inode = inode_number ∧
                  (fs.directory (i : Int)).inode_number ≠ -1 then
                if (fs.inodes (fs.directory (i : Int)).inode_number).file_type =
                      FILE_TYPE_DIR ∧
                    (fs.directory (i : Int)).name ≠ DOT ∧
                    (fs.directory (i : Int)).name ≠ DOTDOT then
                  match get_dir_size fuel fs (fs.directory (i : Int)).inode_number with
                  | none => none
                  | some subdir_size =>
                    if subdir_size = -1 then some none
                    else some (some (add_child_size fs i (add_int total subdir_size)))
                else some (some (add_child_size fs i total))
              else some (some total))
          (some (some 0)) with
      | none => none
      | some none => some (-1)
      | some (some total) => some (add_size total (fs.inodes inode_number).size)

/-! ## The page free list -/

/-- The pages met on the free list from `h`, following the index stored at
the start of each free page, when `-1` is reached within `fuel` steps. -/
def free_page_list (fs : SuperBlock) : Nat → Int → Option (List Int)
  | 0, _ => none
  | fuel + 1, h =>
    if h = -1 then some []
    else (free_page_list fs fuel (read_int (fs.page_table h).data)).map (fun l => h :: l)

/-- The first `n` pages of the free list from `h`, when it has that many. -/
def first_free_pages (fs : SuperBlock) : Nat → Int → Option (List Int)
  | 0, _ => some []
  | n + 1, h =>
    if h = -1 then none
    else (first_free_pages fs n (read_int (fs.page_table h).data)).map (fun l => h :: l)

/-- The number of pages of the table with `is_used = 1`. -/
def used_pages (fs : SuperBlock) : Nat :=
  ((List.range NUM_PAGES).filter (fun (i : Nat) => (fs.page_table (i : Int)).is_used = 1)).length

/-- A call of the page allocator. -/
inductive PageOp where
  | allocate
  | free (page_number : Int)

/-- The image after a call of the page allocator. -/
def PageOp.run (fs : SuperBlock) : PageOp → SuperBlock
  | .allocate => (allocate_page fs).1
  | .free page_number => free_page fs page_number

/-- The condition on a call: `free_page` is applied to a page of the table
that is marked used. -/
def PageOp.valid (fs : SuperBlock) : PageOp → Bool
  | .allocate => true
  | .free page_number =>
    decide (0 ≤ page_number ∧ page_number < (NUM_PAGES : Int) ∧
      (fs.page_table page_number).is_used = 1)

/-- The image after a sequence of calls of the page allocator. -/
def run_page_ops : SuperBlock → List PageOp → SuperBlock
  | fs, [] => fs
  | fs, op :: ops => run_page_ops (op.run fs) ops

/-- Every call of the sequence meets `PageOp.valid` in the image it is
applied to. -/
def valid_page_ops : SuperBlock → List PageOp → Bool
  | _, [] => true
  | fs, op :: ops => op.valid fs && valid_page_ops (op.run fs) ops

/-- The list `l` is the free list from `h`: it starts at `h`, each page
stores the index of the next one and the last one stores `-1`. -/
def IsFreeChain (fs : SuperBlock) : Int → List Int → Prop
  | h, [] => h = -1
  | h, p :: l => h = p ∧ p ≠ -1 ∧ IsFreeChain fs (read_int (fs.page_table p).data) l

/-- The invariant of the page allocator: the free list is a duplicate-free
chain through exactly the pages of the table with `is_used = 0`, and every
other page of the table has `is_used = 1`. -/
def PagesOK (fs : SuperBlock) (l : List Int) : Prop :=
  IsFreeChain fs fs.free_page_head l ∧ l.Nodup ∧
    (∀ p, p ∈ l ↔ (0 ≤ p ∧ p < (NUM_PAGES : Int) ∧ (fs.page_table p).is_used = 0)) ∧
    (∀ p, 0 ≤ p → p < (NUM_PAGES : Int) →
      (fs.page_table p).is_used = 0 ∨ (fs.page_table p).is_used = 1)

/-- Two states name the same objects: they have the same current path and
directory table, and every inode has the same kind and the same stored
symbolic-link target in both. -/
def SameNames (s s' : State) : Prop :=
  s'.current_path = s.current_path ∧ s'.fs.directory = s.fs.directory ∧
    ∀ i, (s'.fs.inodes i).file_type = (s.fs.inodes i).file_type ∧
      (s'.fs.inodes i).symlink_path = (s.fs.inodes i).symlink_path

/-! ## Scenarios -/

/-- The state after `format; mkdir /a; touch /a/f; write /a/f "hello";
ln /a/f /a/g`: inode 2 is the file, with the names `f` and `g` in `/a`. -/
def linked_state : State :=
  (link_file 0
    (write_file 0
      (create_file 0 (create_directory 0 (format_partition 0) (cstr "/a")).1 (cstr "/a/f")).1
      (cstr "/a/f") (cstr "hello")).1
    (cstr "/a/f") (cstr "/a/g")).1

/-- The state after `format; touch /f`: inode 1 is the empty file `/f`. -/
def one_file_state : State :=
  (create_file 0 (format_partition 0) (cstr "/f")).1

/-- The state after `format; touch /f; write /f "hello"`. -/
def hello_state : State :=
  (write_file 0 one_file_state (cstr "/f") (cstr "hello")).1

/-- The state after `format; touch /f; write /f c` where `c` is 4096 bytes
`'a'`: the file fills exactly one page. -/
def full_page_state : State :=
  (write_file 0 one_file_state (cstr "/f") (List.replicate 4096 97)).1

/-- The state after `format; touch /f; write /f "hello"; rm /f; touch /g`:
the file `/g` is inode 1 and has no page. -/
def recycled_state : State :=
  (create_file 0 (delete_file 0 hello_state (cstr "/f")).1 (cstr "/g")).1

/-- The state after `format; touch /f; write /f "hello"; rm /f; touch /g;
write /g c; touch /h` with `c` the four bytes `0xFF`: the write to `/g` took
page 0 from the free list (page 0 pointing at itself) and left in its first
four bytes the index `-1`, so the free list is page 0 alone; `/h` is inode 2
and has no page. -/
def one_free_page_state : State :=
  (create_file 0 (write_file 0 recycled_state (cstr "/g") [255, 255, 255, 255]).1
    (cstr "/h")).1

/-- A content of `2 * 4096 + 1` bytes, needing three pages, that starts with
four bytes `0xFF` (the `int` `-1` when they are read from the start of a page). -/
def three_page_content : List Nat :=
  [255, 255, 255, 255] ++ List.replicate 8189 97

/-- The state after `format; mkdir /a; touch /a/f; write /a/f "hello";
ln /a/f /a/g; rm /a/f`: the name `/a/g` is left for inode 2, whose page 0 has
been put back on the free list by `delete_file`. -/
def unlinked_state : State :=
  (delete_file 0 linked_state (cstr "/a/f")).1

/-- The state after `format; touch /f; touch /h; ln /h /f/g; rm /f`: the
entry `g` made by `link_file` under the regular file `/f` (inode 1) is still
in the table, with parent 1, and inode 1 is free again. -/
def stale_entry_state : State :=
  (delete_file 0
    (link_file 0 (create_file 0 one_file_state (cstr "/h")).1 (cstr "/h") (cstr "/f/g")).1
    (cstr "/f")).1

/-- The directory table of `one_file_state` with its 497 free slots filled:
slot `i`, for `3 ≤ i < 500`, holds an entry of the root for inode 1 named by
the decimal digits of `i` (the table that `ln /f /3`, ..., `ln /f /499`
build).  No slot has the inode number `-1`. -/
def full_table_state : State :=
  one_file_state.save
    { one_file_state.fs with
      directory := fun i =>
        if 3 ≤ i ∧ i < (MAX_FILES : Int) then
          { name := (Nat.toDigits 10 i.toNat).map Char.toNat, inode_number := 1,
            parent_inode := 0 }
        else one_file_state.fs.directory i }

/-- The state after `format; mkdir /a`: the directory `/a` is inode 1. -/
def one_dir_state : State :=
  (create_directory 0 (format_partition 0) (cstr "/a")).1

/-- The state after `format; mkdir /a; mkdir /a/b; mkdir /c`: the
directories are the inodes 1, 2 and 3. -/
def three_dirs_state : State :=
  (create_directory 0 (create_directory 0 one_dir_state (cstr "/a/b")).1 (cstr "/c")).1

/-- The state after `move_directory "/a/b/." "/c/d"` in `three_dirs_state`. -/
def moved_dot_state : State :=
  match move_directory MAX_FILES 0 three_dirs_state (cstr "/a/b/.") (cstr "/c/d") with
  | some r => r.1
  | none => three_dirs_state

/-- The number of slots of the directory table that hold the name `name` in
the directory `parent_inode`. -/
def name_count (fs : SuperBlock) (parent_inode : Int) (name : List Nat) : Nat :=
  (List.range MAX_FILES).countP (fun (i : Nat) =>
    decide ((fs.directory (i : Int)).parent_inode = parent_inode ∧
      (fs.directory (i : Int)).name = name))

/-- The number of slots of the directory table whose inode number is `inode`. -/
def ref_count (fs : SuperBlock) (inode : Int) : Nat :=
  (List.range MAX_FILES).countP (fun (i : Nat) =>
    decide ((fs.directory (i : Int)).inode_number = inode))

/-- The state after `format; mkdir /a; touch /f`: the directory `/a` is
inode 1 and the empty file `/f` is inode 2. -/
def file_and_dir_state : State :=
  (create_file 0 one_dir_state (cstr "/f")).1

/-- The state after `format; touch /f; write /f c` with `c` 4097 bytes `'a'`:
the file `/f` (inode 1) has the pages 0 and 1. -/
def two_page_state : State :=
  (write_file 0 one_file_state (cstr "/f") (List.replicate 4097 97)).1

/-- The image of `two_page_state` in which the pages 2 to 4998 are in use and
the free list is the single page 4999. -/
def last_free_page_state : State :=
  two_page_state.save
    { two_page_state.fs with
      free_page_head := 4999,
      page_table := fun i =>
        if 2 ≤ i ∧ i < 4999 then { two_page_state.fs.page_table i with is_used := 1 }
        else two_page_state.fs.page_table i }

/-- The inodes met on the inode free list from `h`, following the link count
of each free inode, when `-1` is reached within `fuel` steps. -/
def free_inode_list (fs : SuperBlock) : Nat → Int → Option (List Int)
  | 0, _ => none
  | fuel + 1, h =>
    if h = -1 then some []
    else (free_inode_list fs fuel (fs.inodes h).link_count).map (fun l => h :: l)

/-- The inode reached from `current` by following `n` symbolic links, each
of them a symbolic link whose stored path resolves. -/
def follow_links (s : State) : Nat → Int → Option Int
  | 0, current => some current
  | n + 1, current =>
    if (s.fs.inodes current).file_type = FILE_TYPE_SYMLINK ∧
        get_inode_from_path s (s.fs.inodes current).symlink_path ≠ -1 then
      follow_links s n (get_inode_from_path s (s.fs.inodes current).symlink_path)
    else none

/-- A path with every run of `'/'` collapsed to one `'/'`. -/
def collapse_slashes : List Nat → List Nat
  | [] => []
  | [c] => [c]
  | c :: d :: rest =>
    if c = SLASH ∧ d = SLASH then collapse_slashes (d :: rest)
    else c :: collapse_slashes (d :: rest)

/-- The absolute path that a relative path `p` stands for when the current
path is `c`: `c ++ p` when `c` ends with `'/'`, otherwise `c ++ "/" ++ p`. -/
def absolute_form (c p : List Nat) : List Nat :=
  if c.getLast? = some SLASH then c ++ p else c ++ [SLASH] ++ p

/-- A path with its trailing `'/'` characters removed. -/
def strip_trailing_slashes (path : List Nat) : List Nat :=
  (path.reverse.dropWhile (fun c => c = SLASH)).reverse

/-- A permission descriptor accepted by the rule of the specification:
exactly three characters, `r` or `-`, then `w` or `-`, then `x` or `-`. -/
def valid_descriptor (d : List Nat) : Prop :=
  ∃ a b c, d = [a, b, c] ∧ (a = 114 ∨ a = 45) ∧ (b = 119 ∨ b = 45) ∧ (c = 120 ∨ c = 45)

/-- The permission bits that a three-character descriptor stands for:
4 for `r` in the first place, 2 for `w` in the second, 1 for `x` in the third. -/
def descriptor_bits (d : List Nat) : Nat :=
  (if d.getD 0 0 = 114 then 4 else 0) + (if d.getD 1 0 = 119 then 2 else 0) +
    (if d.getD 2 0 = 120 then 1 else 0)

/-- The state after `format; mkdir /a; mkdir /a/b; touch /a/f;
write /a/f "hello"`: `/a` is inode 1, `/a/b` inode 2 and `/a/f` inode 3, with
page 0. -/
def subtree_state : State :=
  (write_file 0
    (create_file 0 (create_directory 0 one_dir_state (cstr "/a/b")).1 (cstr "/a/f")).1
    (cstr "/a/f") (cstr "hello")).1

/-- The name `/l` followed by the decimal digits of `i`. -/
def link_name_of (i : Nat) : List Nat :=
  cstr "/l" ++ (Nat.toDigits 10 i).map Char.toNat

/-- The state after `format; touch /t; ln -s /t /l1; ln -s /l1 /l2; ...;
ln -s /l10 /l11`: the file `/t` is inode 1 and the link `/li` is inode
`i + 1`, storing the path of the one before it. -/
def symlink_chain_state : State :=
  (List.range 11).foldl
    (fun s i => (create_symlink 0 s (if i = 0 then cstr "/t" else link_name_of i)
      (link_name_of (i + 1))).1)
    (create_file 0 (format_partition 0) (cstr "/t")).1

/-- The state after `format; touch /f; chmod r-x /f`. -/
def read_execute_state : State :=
  (change_permissions 0 one_file_state (cstr "/f") (cstr "r-x")).1

/-- The state after `format; mkdir /a; mkdir /a/b`. -/
def two_dirs_state : State :=
  (create_directory 0 one_dir_state (cstr "/a/b")).1

/-- The state after `format; mkdir /a; cd a/..`: the current path is
`"/a/.."`. -/
def cd_up_state : State :=
  (change_directory 0 one_dir_state (cstr "a/..")).1

/-- The state after `format; mkdir /a; ln -s /a /a/l`: the directory `/a` is
inode 1 and the symbolic link `/a/l` is inode 2, storing `"/a"`. -/
def link_in_dir_state : State :=
  (create_symlink 0 one_dir_state (cstr "/a") (cstr "/a/l")).1

/-- The state after `format; touch /f; touch /h; ln /h /f/.; rm /f;
mkdir /d`: inode 1, released by `rm /f` while the entry `"."` made under it
by `link_file` stayed, is the directory `/d`. -/
def reused_inode_state : State :=
  (create_directory 0
    (delete_file 0
      (link_file 0 (create_file 0 one_file_state (cstr "/h")).1 (cstr "/h") (cstr "/f/.")).1
      (cstr "/f")).1
    (cstr "/d")).1

/-- The state after `format; mkdir /a; rmdir /a/.`. -/
def dot_deleted_state : State :=
  (delete_directory 0 one_dir_state (cstr "/a/.")).1

/-- The state after `format; touch /s; write /s c; ln /s /t; rm /s;
append /t d` with `c` 4096 bytes `'a'` followed by 4096 bytes `'b'` and `d`
four bytes `0xFF`: the file `/t` (inode 1) has the pages 0 and 1, which
`delete_file` has put on the page free list, and the append has written `d`
over the free-list index at the start of page 1, so the free list is page 1
alone. -/
def shared_page_state : State :=
  (append_to_file 0
    (delete_file 0
      (link_file 0
        (write_file 0 (create_file 0 (format_partition 0) (cstr "/s")).1 (cstr "/s")
          (List.replicate 4096 97 ++ List.replicate 4096 98)).1
        (cstr "/s") (cstr "/t")).1
      (cstr "/s")).1
    (cstr "/t") [255, 255, 255, 255]).1

/-! ## Theorems -/

set_option maxRecDepth 1000000

/-! ### Basic facts -/

/-- Reading the cell that was replaced. -/
theorem setAt_same {α : Type} (f : Int → α) (i : Int) (v : α) : setAt f i v i = v := by
  simp [setAt]

/-- Reading another cell than the one replaced. -/
theorem setAt_other {α : Type} (f : Int → α) {i j : Int} (v : α) (h : j ≠ i) :
    setAt f i v j = f j := by
  simp [setAt, h]

/-- An `int` stored at the start of a page is read back unchanged. -/
theorem read_int_write_int (d : Nat → Nat) (v : Int)
    (h1 : -2147483648 ≤ v) (h2 : v < 2147483648) : read_int (write_int d v) = v := by
  have hu : (v % 4294967296).toNat < 4294967296 := by omega
  generalize hU : (v % 4294967296).toNat = u at hu
  have hv : (v = (u : Int) ∧ u < 2147483648) ∨ (v = (u : Int) - 4294967296 ∧ 2147483648 ≤ u) := by
    omega
  have hb : u % 256 + 256 * (u / 256 % 256) + 65536 * (u / 65536 % 256) +
      16777216 * (u / 16777216 % 256) = u := by omega
  unfold read_int write_int
  simp only [hU, if_true, if_false, OfNat.ofNat_ne_zero, OfNat.ofNat_ne_one, Nat.succ_ne_self,
    one_ne_zero, if_neg, hb]
  rcases hv with ⟨hv, hlt⟩ | ⟨hv, hge⟩
  · rw [if_pos hlt, hv]
  · rw [if_neg (by omega), hv]

/-- A `size_t` value below `2 ^ 31` converts to the same `int`. -/
theorem to_int_of_lt {n : Nat} (h : n < 2147483648) : to_int n = (n : Int) := by
  unfold to_int
  have h1 : n % 4294967296 = n := Nat.mod_eq_of_lt (by omega)
  rw [h1, if_pos h]

/-- The result of `allocate_page` when the free list is not empty. -/
theorem allocate_page_of_ne {fs : SuperBlock} (h : fs.free_page_head ≠ -1) :
    allocate_page fs =
      ({ fs with
          free_page_head := read_int (fs.page_table fs.free_page_head).data,
          page_table := setAt fs.page_table fs.free_page_head
            { fs.page_table fs.free_page_head with is_used := 1 } },
        fs.free_page_head) := by
  simp only [allocate_page, if_neg h]

/-- A free chain only depends on the data of the pages on it. -/
theorem isFreeChain_congr {fs fs' : SuperBlock} :
    ∀ (l : List Int) (h : Int),
      (∀ p ∈ l, (fs'.page_table p).data = (fs.page_table p).data) →
      IsFreeChain fs h l → IsFreeChain fs' h l
  | [], _, _, hc => hc
  | p :: l, _, hd, hc =>
    ⟨hc.1, hc.2.1, by
      rw [hd p (List.mem_cons_self _ _)]
      exact isFreeChain_congr l _ (fun q hq => hd q (List.mem_cons_of_mem _ hq)) hc.2.2⟩

/-- The head of a free list that satisfies the invariant is `-1` or a page of the table. -/
theorem pagesOK_head {fs : SuperBlock} {l : List Int} (h : PagesOK fs l) :
    -1 ≤ fs.free_page_head ∧ fs.free_page_head < (NUM_PAGES : Int) := by
  obtain ⟨hc, _, hm, _⟩ := h
  cases l with
  | nil =>
    have : fs.free_page_head = -1 := hc
    rw [this]; decide
  | cons p l =>
    have hp : fs.free_page_head = p := hc.1
    have := (hm p).1 (List.mem_cons_self _ _)
    rw [hp]; omega

/-- `free_page` on a used page of the table keeps the invariant: the page is pushed in front of the free list. -/
theorem pagesOK_free_page {fs : SuperBlock} {l : List Int} (h : PagesOK fs l) {p : Int}
    (h0 : 0 ≤ p) (h1 : p < (NUM_PAGES : Int)) (hu : (fs.page_table p).is_used = 1) :
    PagesOK (free_page fs p) (p :: l) := by
  have hhead := pagesOK_head h
  obtain ⟨hc, hnd, hm, hb⟩ := h
  have hpl : p ∉ l := fun hp => by
    have := ((hm p).1 hp).2.2
    rw [hu] at this
    exact absurd this (by decide)
  refine ⟨⟨rfl, by omega, ?_⟩, List.nodup_cons.2 ⟨hpl, hnd⟩, ?_, ?_⟩
  · have hn : read_int ((free_page fs p).page_table p).data = fs.free_page_head := by
      simp only [free_page, setAt_same]
      have hN : ((NUM_PAGES : Nat) : Int) = 5000 := rfl
      exact read_int_write_int _ _ (by omega) (by omega)
    rw [hn]
    refine isFreeChain_congr l _ (fun q hq => ?_) hc
    have hqp : q ≠ p := fun e => hpl (e ▸ hq)
    simp only [free_page, setAt_other _ _ hqp]
  · intro q
    by_cases hqp : q = p
    · subst hqp
      simp only [List.mem_cons, true_or, free_page, setAt_same, true_iff]
      exact ⟨h0, h1, trivial⟩
    · simp only [List.mem_cons, hqp, false_or, free_page, setAt_other _ _ hqp]
      exact hm q
  · intro q hq0 hq1
    by_cases hqp : q = p
    · subst hqp
      left
      simp only [free_page, setAt_same]
    · simp only [free_page, setAt_other _ _ hqp]
      exact hb q hq0 hq1

/-- `allocate_page` on a non-empty free list keeps the invariant: the head is popped. -/
theorem pagesOK_allocate_page {fs : SuperBlock} {p : Int} {l : List Int}
    (h : PagesOK fs (p :: l)) : PagesOK (allocate_page fs).1 l := by
  obtain ⟨hc, hnd, hm, hb⟩ := h
  have hp : fs.free_page_head = p := hc.1
  have hne : fs.free_page_head ≠ -1 := hp ▸ hc.2.1
  have hpl : p ∉ l := (List.nodup_cons.1 hnd).1
  rw [allocate_page_of_ne hne, hp]
  refine ⟨?_, (List.nodup_cons.1 hnd).2, ?_, ?_⟩
  · refine isFreeChain_congr l _ (fun q _ => ?_) hc.2.2
    by_cases hq : q = p
    · subst hq; simp only [setAt_same]
    · simp only [setAt_other _ _ hq]
  · intro q
    by_cases hq : q = p
    · subst hq
      simp only [setAt_same]
      constructor
      · intro h; exact absurd h hpl
      · intro h; exact absurd h.2.2 (by decide)
    · have := hm q
      simp only [List.mem_cons, hq, false_or] at this
      simp only [setAt_other _ _ hq]
      exact this
  · intro q hq0 hq1
    by_cases hq : q = p
    · subst hq
      right
      simp only [setAt_same]
    · simp only [setAt_other _ _ hq]
      exact hb q hq0 hq1

/-- `allocate_page` on an empty free list changes nothing. -/
theorem pagesOK_allocate_page_nil {fs : SuperBlock} (h : PagesOK fs []) :
    (allocate_page fs).1 = fs := by
  have : fs.free_page_head = -1 := h.1
  simp only [allocate_page, if_pos this]

/-- The page table of the formatted image. -/
theorem format_page_table (now : Int) :
    (format_partition now).fs.page_table = format_tables.page_table := rfl

/-- The head of the page free list of the formatted image. -/
theorem format_free_page_head (now : Int) : (format_partition now).fs.free_page_head = 0 := rfl

/-- The index stored in page `i` of the formatted image. -/
theorem format_next_page {i : Int} (h0 : 0 ≤ i) :
    read_int (format_tables.page_table i).data =
      if i < (NUM_PAGES : Int) - 1 then i + 1 else -1 := by
  have hN : ((NUM_PAGES : Nat) : Int) = 5000 := rfl
  simp only [format_tables]
  split
  · exact read_int_write_int _ _ (by omega) (by omega)
  · exact read_int_write_int _ _ (by omega) (by omega)

/-- In the formatted image the pages `k, k + 1, ..` up to the last one form a free chain. -/
theorem format_chain (now : Int) :
    ∀ (m k : Nat), k + m = NUM_PAGES →
      IsFreeChain (format_partition now).fs (if m = 0 then -1 else (k : Int))
        ((List.range' k m).map (fun i : Nat => (i : Int)))
  | 0, _, _ => rfl
  | m + 1, k, h => by
    have hN : ((NUM_PAGES : Nat) : Int) = 5000 := rfl
    have hN' : NUM_PAGES = 5000 := rfl
    rw [List.range'_succ, List.map_cons, if_neg (Nat.succ_ne_zero m)]
    refine ⟨rfl, by omega, ?_⟩
    rw [format_page_table, format_next_page (by omega)]
    have := format_chain now m (k + 1) (by omega)
    by_cases hm : m = 0
    · subst hm
      rw [if_neg (by omega)]
      exact this
    · rw [if_neg hm] at this
      rw [if_pos (by omega)]
      exact_mod_cast this

/-- The formatted image satisfies the invariant with the free list `0, 1, .., NUM_PAGES - 1`. -/
theorem format_pagesOK (now : Int) :
    PagesOK (format_partition now).fs ((List.range NUM_PAGES).map (fun i : Nat => (i : Int))) := by
  have hN : ((NUM_PAGES : Nat) : Int) = 5000 := rfl
  refine ⟨?_, ?_, ?_, ?_⟩
  · rw [format_free_page_head, List.range_eq_range']
    exact format_chain now NUM_PAGES 0 (by omega)
  · exact (List.nodup_range _).map Nat.cast_injective
  · intro p
    rw [format_page_table]
    simp only [List.mem_map, List.mem_range, format_tables, and_true]
    constructor
    · rintro ⟨a, ha, rfl⟩
      have hN' : NUM_PAGES = 5000 := rfl
      omega
    · rintro ⟨h0, h1⟩
      exact ⟨p.toNat, by have hN' : NUM_PAGES = 5000 := rfl; omega, by omega⟩
  · intro p _ _
    left
    rw [format_page_table]
    rfl

/-- Two predicates of which exactly one holds at each element split a list in two. -/
theorem length_filter_add_of_exclusive {α : Type} (p q : α → Bool) :
    ∀ (L : List α),
      (∀ x ∈ L, (p x = true ∧ q x = false) ∨ (p x = false ∧ q x = true)) →
      (L.filter p).length + (L.filter q).length = L.length
  | [], _ => rfl
  | x :: L, h => by
    have ih := length_filter_add_of_exclusive p q L
      (fun y hy => h y (List.mem_cons_of_mem _ hy))
    rcases h x (List.mem_cons_self _ _) with ⟨hp, hq⟩ | ⟨hp, hq⟩
    · simp only [List.filter, hp, hq, List.length_cons]; omega
    · simp only [List.filter, hp, hq, List.length_cons]; omega

/-- Under the invariant the free pages and the used pages add up to the size of the table. -/
theorem pagesOK_length {fs : SuperBlock} {l : List Int} (h : PagesOK fs l) :
    l.length + used_pages fs = NUM_PAGES := by
  obtain ⟨_, hnd, hm, hb⟩ := h
  have hperm : l.Perm (((List.range NUM_PAGES).filter
      (fun i : Nat => decide ((fs.page_table (i : Int)).is_used = 0))).map
        (fun i : Nat => (i : Int))) := by
    refine (List.perm_ext_iff_of_nodup hnd
      (((List.nodup_range _).filter _).map Nat.cast_injective)).2 (fun p => ?_)
    rw [hm p]
    simp only [List.mem_map, List.mem_filter, List.mem_range, decide_eq_true_eq]
    constructor
    · rintro ⟨h0, h1, h2⟩
      refine ⟨p.toNat, ⟨by omega, ?_⟩, by omega⟩
      rw [Int.toNat_of_nonneg h0]; exact h2
    · rintro ⟨a, ⟨ha, hu⟩, rfl⟩
      exact ⟨by omega, by exact_mod_cast ha, hu⟩
  have hsum := length_filter_add_of_exclusive
    (fun i : Nat => decide ((fs.page_table (i : Int)).is_used = 0))
    (fun i : Nat => decide ((fs.page_table (i : Int)).is_used = 1)) (List.range NUM_PAGES)
    (fun x hx => by
      have hx' := List.mem_range.1 hx
      rcases hb (x : Int) (by omega) (by exact_mod_cast hx') with h | h
      · left; simp [h]
      · right; simp [h])
  rw [List.length_range] at hsum
  have hl : l.length = ((List.range NUM_PAGES).filter
      (fun i : Nat => decide ((fs.page_table (i : Int)).is_used = 0))).length := by
    rw [hperm.length_eq, List.length_map]
  rw [hl]
  exact hsum

/-- Under the invariant the free list is no longer than the table. -/
theorem pagesOK_length_le {fs : SuperBlock} {l : List Int} (h : PagesOK fs l) :
    l.length ≤ NUM_PAGES := by
  have := pagesOK_length h
  omega

/-- The walk of the free list returns a free chain when the fuel exceeds its length. -/
theorem free_page_list_of_chain {fs : SuperBlock} :
    ∀ (l : List Int) (h : Int) (fuel : Nat), IsFreeChain fs h l → l.length < fuel →
      free_page_list fs fuel h = some l
  | [], h, fuel + 1, hc, _ => by
    have : h = -1 := hc
    simp only [free_page_list, if_pos this]
  | p :: l, h, fuel + 1, hc, hl => by
    obtain ⟨hp, hne, hc'⟩ := hc
    subst hp
    simp only [free_page_list, if_neg hne]
    rw [free_page_list_of_chain l _ fuel hc' (by simpa using hl)]
    rfl

/-- The invariant is kept by every valid sequence of calls of the page allocator. -/
theorem pagesOK_run_page_ops :
    ∀ (ops : List PageOp) (fs : SuperBlock) (l : List Int), PagesOK fs l →
      valid_page_ops fs ops = true → ∃ l', PagesOK (run_page_ops fs ops) l'
  | [], fs, l, h, _ => ⟨l, h⟩
  | .allocate :: ops, fs, l, h, hv => by
    simp only [valid_page_ops, PageOp.valid, Bool.true_and] at hv
    cases l with
    | nil =>
      have e : (PageOp.allocate).run fs = fs := pagesOK_allocate_page_nil h
      simp only [run_page_ops, e]
      rw [e] at hv
      exact pagesOK_run_page_ops ops fs [] h hv
    | cons p l =>
      exact pagesOK_run_page_ops ops _ l (pagesOK_allocate_page h) hv
  | .free p :: ops, fs, l, h, hv => by
    simp only [valid_page_ops, PageOp.valid, Bool.and_eq_true, decide_eq_true_eq] at hv
    exact pagesOK_run_page_ops ops _ (p :: l)
      (pagesOK_free_page h hv.1.1 hv.1.2.1 hv.1.2.2) hv.2

/-- C3 (page allocator conservation).  Starting from the image produced by
`format_partition`, after every sequence of `allocate_page` and `free_page`
calls in which `free_page` is only applied to a page of the table that is marked
used, the walk of the free list from `free_page_head` reaches `-1` (within
`NUM_PAGES + 1` steps), meets no page twice, and the number of pages on it plus
the number of pages with `is_used = 1` is `NUM_PAGES = 5000`. -/
theorem page_allocator_conservation (now : Int) (ops : List PageOp)
    (hvalid : valid_page_ops (format_partition now).fs ops = true) :
    ∃ l : List Int,
      free_page_list (run_page_ops (format_partition now).fs ops) (NUM_PAGES + 1)
        (run_page_ops (format_partition now).fs ops).free_page_head = some l ∧
      l.Nodup ∧
      l.length + used_pages (run_page_ops (format_partition now).fs ops) = NUM_PAGES := by
  obtain ⟨l, h⟩ := pagesOK_run_page_ops ops _ _ (format_pagesOK now) hvalid
  exact ⟨l, free_page_list_of_chain l _ _ h.1 (by have := pagesOK_length_le h; omega), h.2.1,
    pagesOK_length h⟩

/-- The conservation theorem applied to the sequence allocate, allocate,
free page 0, allocate, free page 1. -/
theorem page_allocator_conservation_witness :
    valid_page_ops (format_partition 0).fs
        [PageOp.allocate, PageOp.allocate, PageOp.free 0, PageOp.allocate, PageOp.free 1] = true ∧
      ∃ l : List Int,
        free_page_list
          (run_page_ops (format_partition 0).fs
            [PageOp.allocate, PageOp.allocate, PageOp.free 0, PageOp.allocate, PageOp.free 1])
          (NUM_PAGES + 1)
          (run_page_ops (format_partition 0).fs
            [PageOp.allocate, PageOp.allocate, PageOp.free 0, PageOp.allocate,
              PageOp.free 1]).free_page_head = some l ∧
        l.Nodup ∧
        l.length + used_pages
          (run_page_ops (format_partition 0).fs
            [PageOp.allocate, PageOp.allocate, PageOp.free 0, PageOp.allocate, PageOp.free 1]) =
          NUM_PAGES :=
  ⟨by decide, page_allocator_conservation 0 _ (by decide)⟩

/-! ### Name resolution only reads the directory table and the inode kinds -/

/-- `find_in_directory` only reads the directory table. -/
theorem find_in_directory_congr {fs fs' : SuperBlock} (h : fs'.directory = fs.directory)
    (d : Int) (name : List Nat) : find_in_directory fs' d name = find_in_directory fs d name := by
  unfold find_in_directory
  rw [h]

/-- The component walk only reads the directory table and the kinds of the inodes. -/
theorem walk_path_congr {fs fs' : SuperBlock} (hd : fs'.directory = fs.directory)
    (ht : ∀ i, (fs'.inodes i).file_type = (fs.inodes i).file_type) :
    ∀ (comps : List (List Nat)) (cur : Int), walk_path fs' cur comps = walk_path fs cur comps
  | [], _ => rfl
  | c :: rest, cur => by
    simp only [walk_path, find_in_directory_congr hd, ht, walk_path_congr hd ht rest]

/-- Path resolution agrees on states that name the same objects. -/
theorem get_inode_from_path_fuel_congr {s s' : State} (h : SameNames s s') :
    ∀ (fuel : Nat) (path : List Nat),
      get_inode_from_path_fuel s' fuel path = get_inode_from_path_fuel s fuel path
  | 0, _ => rfl
  | fuel + 1, path => by
    simp only [get_inode_from_path_fuel, h.1, h.2.1,
      walk_path_congr h.2.1 (fun i => (h.2.2 i).1), get_inode_from_path_fuel_congr h fuel]

/-- Path resolution agrees on states that name the same objects. -/
theorem get_inode_from_path_congr {s s' : State} (h : SameNames s s') (path : List Nat) :
    get_inode_from_path s' path = get_inode_from_path s path :=
  get_inode_from_path_fuel_congr h _ path

/-- Parent resolution agrees on states that name the same objects. -/
theorem get_parent_directory_inode_congr {s s' : State} (h : SameNames s s') (path : List Nat) :
    get_parent_directory_inode s' path = get_parent_directory_inode s path := by
  simp only [get_parent_directory_inode, h.1, h.2.1, get_inode_from_path_congr h]

/-- Symbolic-link resolution agrees on states that name the same objects. -/
theorem resolve_symlink_loop_congr {s s' : State} (h : SameNames s s') :
    ∀ (n : Nat) (cur : Int), resolve_symlink_loop s' n cur = resolve_symlink_loop s n cur
  | 0, _ => rfl
  | n + 1, cur => by
    simp only [resolve_symlink_loop, (h.2.2 _).1, (h.2.2 _).2, get_inode_from_path_congr h,
      resolve_symlink_loop_congr h n]

/-- The inode an operation works on is the same in states that name the same objects. -/
theorem target_inode_congr {s s' : State} (h : SameNames s s') (path : List Nat) :
    target_inode s' path = target_inode s path := by
  simp only [target_inode, resolve_symlink, (h.2.2 _).1, get_inode_from_path_congr h,
    resolve_symlink_loop_congr h]

/-! ### Writing a file -/

/-- The first pages of the free list only depend on the data of those pages. -/
theorem first_free_pages_congr {fs fs' : SuperBlock} :
    ∀ (n : Nat) (h : Int) (ps : List Int),
      (∀ q ∈ ps, (fs'.page_table q).data = (fs.page_table q).data) →
      first_free_pages fs n h = some ps → first_free_pages fs' n h = some ps
  | 0, _, _, _, hf => hf
  | n + 1, h, ps, hd, hf => by
    simp only [first_free_pages] at hf ⊢
    by_cases hh : h = -1
    · rw [if_pos hh] at hf; exact absurd hf (by simp)
    · rw [if_neg hh] at hf ⊢
      cases hrec : first_free_pages fs n (read_int (fs.page_table h).data) with
      | none => rw [hrec] at hf; exact absurd hf (by simp)
      | some l =>
        rw [hrec] at hf
        have hps : ps = h :: l := by simpa using hf.symm
        subst hps
        rw [hd h (List.mem_cons_self _ _),
          first_free_pages_congr n _ l (fun q hq => hd q (List.mem_cons_of_mem _ hq)) hrec]
        rfl

/-- The first `n + 1` pages of the free list are its head and the first `n` pages behind it. -/
theorem first_free_pages_succ {fs : SuperBlock} {n : Nat} {h : Int} {ps : List Int}
    (hf : first_free_pages fs (n + 1) h = some ps) :
    h ≠ -1 ∧ ∃ l, ps = h :: l ∧ first_free_pages fs n (read_int (fs.page_table h).data) = some l := by
  simp only [first_free_pages] at hf
  by_cases hh : h = -1
  · rw [if_pos hh] at hf; exact absurd hf (by simp)
  · rw [if_neg hh] at hf
    cases hrec : first_free_pages fs n (read_int (fs.page_table h).data) with
    | none => rw [hrec] at hf; exact absurd hf (by simp)
    | some l =>
      rw [hrec] at hf
      exact ⟨hh, l, by simpa using hf.symm, rfl⟩

/-- What `write_file_finish` leaves in the image: the page table, the
directory table, and in each inode the kind, the symbolic-link target, the
permission bits, the page slots and the page count; the file gets the size. -/
theorem write_file_finish_frame (now : Int) (s : State) (path : List Nat) (len : Nat) (k : Int)
    (fs : SuperBlock) (hk : k ≠ -1) :
    (write_file_finish now s path len k fs).page_table = fs.page_table ∧
    (write_file_finish now s path len k fs).directory = fs.directory ∧
    ((write_file_finish now s path len k fs).inodes k).size = len ∧
    ∀ j, ((write_file_finish now s path len k fs).inodes j).file_type = (fs.inodes j).file_type ∧
      ((write_file_finish now s path len k fs).inodes j).symlink_path =
        (fs.inodes j).symlink_path ∧
      ((write_file_finish now s path len k fs).inodes j).permissions =
        (fs.inodes j).permissions ∧
      ((write_file_finish now s path len k fs).inodes j).pages = (fs.inodes j).pages ∧
      ((write_file_finish now s path len k fs).inodes j).page_count = (fs.inodes j).page_count := by
  unfold write_file_finish
  by_cases hp : get_parent_directory_inode s path = -1
  · rw [if_pos hp, hp]
    refine ⟨rfl, rfl, ?_, fun j => ?_⟩
    · simp only [set_mtime, SuperBlock.setInode, setAt_other _ _ hk, setAt_same]
    · by_cases hj1 : j = -1 <;> by_cases hj2 : j = k
      · exact absurd (hj2 ▸ hj1) hk
      · subst hj1
        refine ⟨?_, ?_, ?_, ?_, ?_⟩ <;>
          simp only [set_mtime, SuperBlock.setInode, setAt_same, setAt_other _ _ hj2]
      · subst hj2
        refine ⟨?_, ?_, ?_, ?_, ?_⟩ <;>
          simp only [set_mtime, SuperBlock.setInode, setAt_same, setAt_other _ _ hj1]
      · refine ⟨?_, ?_, ?_, ?_, ?_⟩ <;>
          simp only [set_mtime, SuperBlock.setInode, setAt_other _ _ hj1, setAt_other _ _ hj2]
  · rw [if_neg hp]
    refine ⟨rfl, rfl, ?_, fun j => ?_⟩
    · simp only [SuperBlock.setInode, setAt_same]
    · by_cases hj2 : j = k
      · subst hj2
        refine ⟨?_, ?_, ?_, ?_, ?_⟩ <;> simp only [SuperBlock.setInode, setAt_same]
      · refine ⟨?_, ?_, ?_, ?_, ?_⟩ <;> simp only [SuperBlock.setInode, setAt_other _ _ hj2]

/-- What `clear_page_count` leaves in the image. -/
theorem clear_page_count_frame (fs : SuperBlock) (k : Int) :
    (clear_page_count fs k).page_table = fs.page_table ∧
    (clear_page_count fs k).free_page_head = fs.free_page_head ∧
    (clear_page_count fs k).directory = fs.directory ∧
    ((clear_page_count fs k).inodes k).page_count = 0 ∧
    ∀ j, ((clear_page_count fs k).inodes j).file_type = (fs.inodes j).file_type ∧
      ((clear_page_count fs k).inodes j).symlink_path = (fs.inodes j).symlink_path ∧
      ((clear_page_count fs k).inodes j).permissions = (fs.inodes j).permissions := by
  refine ⟨rfl, rfl, rfl, ?_, fun j => ?_⟩
  · simp only [clear_page_count, SuperBlock.setInode, setAt_same]
  · by_cases hj : j = k
    · subst hj
      refine ⟨?_, ?_, ?_⟩ <;> simp only [clear_page_count, SuperBlock.setInode, setAt_same]
    · refine ⟨?_, ?_, ?_⟩ <;>
        simp only [clear_page_count, SuperBlock.setInode, setAt_other _ _ hj]

/-- The result of `write_file_body` when every allocation of the loop
succeeded. -/
theorem write_file_body_of_success (now : Int) (s : State) (path c : List Nat) (k : Int)
    (n : Nat) (hn : (pages_needed c.length).toNat = n)
    (h : (write_file_loop c k n 0 c.length 0 (clear_page_count (free_pages s.fs k) k)).2 = true) :
    write_file_body now s path c k =
      (s.save (write_file_finish now s path c.length k
          (write_file_loop c k n 0 c.length 0 (clear_page_count (free_pages s.fs k) k)).1),
        "File written successfully") := by
  unfold write_file_body
  rw [hn, if_neg (by rw [h]; decide)]

/-- For a Regular inode the write check of `check_file_permission` is the write bit. -/
theorem check_file_permission_write {fs : SuperBlock} {k : Int}
    (hk : k ≠ -1) (hreg : (fs.inodes k).file_type = FILE_TYPE_REGULAR) :
    check_file_permission fs k PERM_WRITE = (fs.inodes k).permissions &&& PERM_WRITE := by
  unfold check_file_permission
  simp [hk, hreg]

/-- The page count computed by `append_to_file` when the sizes fit the
machine integers. -/
theorem total_pages_needed_eq {size len : Nat} (h : size + len < 2 ^ 42) :
    total_pages_needed size len = (((size + len + PAGE_SIZE - 1) / PAGE_SIZE : Nat) : Int) := by
  have hP : PAGE_SIZE = 4096 := rfl
  have hS : SIZE_MOD = 18446744073709551616 := rfl
  unfold total_pages_needed
  rw [hP, hS]
  have e1 : (size + len) % 18446744073709551616 = size + len := Nat.mod_eq_of_lt (by omega)
  have e2 : (size + len + 4096 - 1) % 18446744073709551616 = size + len + 4096 - 1 :=
    Nat.mod_eq_of_lt (by omega)
  rw [e1, e2]
  exact to_int_of_lt (by omega)

/-- What one pass of the loop of `append_to_file` leaves in the image, and
the size it gives the file. -/
theorem append_page_frame (fs : SuperBlock) (k p : Int) (src : List Nat) (ws : Nat) :
    (append_page fs k p src ws).directory = fs.directory ∧
    ((append_page fs k p src ws).inodes k).size = ((fs.inodes k).size + ws) % SIZE_MOD ∧
    ∀ j, ((append_page fs k p src ws).inodes j).file_type = (fs.inodes j).file_type ∧
      ((append_page fs k p src ws).inodes j).symlink_path = (fs.inodes j).symlink_path ∧
      ((append_page fs k p src ws).inodes j).permissions = (fs.inodes j).permissions := by
  refine ⟨rfl, ?_, fun j => ?_⟩
  · simp only [append_page, SuperBlock.setInode, SuperBlock.setPage, setAt_same]
  · by_cases hj : j = k
    · subst hj
      refine ⟨?_, ?_, ?_⟩ <;>
        simp only [append_page, SuperBlock.setInode, SuperBlock.setPage, setAt_same]
    · refine ⟨?_, ?_, ?_⟩ <;>
        simp only [append_page, SuperBlock.setInode, SuperBlock.setPage, setAt_other _ _ hj]

/-- `allocate_page` changes neither the inode table nor the directory table. -/
theorem allocate_page_frame (fs : SuperBlock) :
    (allocate_page fs).1.inodes = fs.inodes ∧ (allocate_page fs).1.directory = fs.directory := by
  unfold allocate_page; split <;> exact ⟨rfl, rfl⟩

/-- What the loop of `append_to_file` leaves in the image; when it runs to
the end without wrapping the size, the size has grown by `remaining`. -/
theorem append_loop_frame (content : List Nat) (k : Int) :
    ∀ (fuel remaining offset : Nat) (fs : SuperBlock),
      (append_loop content k fuel remaining offset fs).1.directory = fs.directory ∧
      (∀ j, ((append_loop content k fuel remaining offset fs).1.inodes j).file_type =
          (fs.inodes j).file_type ∧
        ((append_loop content k fuel remaining offset fs).1.inodes j).symlink_path =
          (fs.inodes j).symlink_path ∧
        ((append_loop content k fuel remaining offset fs).1.inodes j).permissions =
          (fs.inodes j).permissions) ∧
      (remaining ≤ fuel → (fs.inodes k).size + remaining < SIZE_MOD →
        (append_loop content k fuel remaining offset fs).2 = true →
        ((append_loop content k fuel remaining offset fs).1.inodes k).size =
          (fs.inodes k).size + remaining)
  | 0, remaining, _, fs =>
    ⟨rfl, fun _ => ⟨rfl, rfl, rfl⟩, fun h _ _ => by
      have : remaining = 0 := by omega
      subst this; rfl⟩
  | fuel + 1, remaining, offset, fs => by
    rw [append_loop]
    by_cases hr : remaining = 0
    · rw [if_pos hr]
      exact ⟨rfl, fun _ => ⟨rfl, rfl, rfl⟩, fun _ _ _ => by rw [hr]; rfl⟩
    · rw [if_neg hr]
      obtain ⟨ha1, ha2⟩ := allocate_page_frame fs
      by_cases ha : (allocate_page fs).2 = -1
      · rw [if_pos ha]
        refine ⟨ha2, fun j => by rw [ha1]; exact ⟨rfl, rfl, rfl⟩, fun _ _ h => ?_⟩
        exact absurd h Bool.false_ne_true
      · rw [if_neg ha]
        have hP : PAGE_SIZE = 4096 := rfl
        generalize hws : (if remaining > PAGE_SIZE then PAGE_SIZE else remaining) = ws
        have hws1 : ws ≤ remaining := by rw [← hws, hP]; split <;> omega
        have hws2 : 0 < ws := by rw [← hws, hP]; split <;> omega
        obtain ⟨p1, p2, p3⟩ := append_page_frame (allocate_page fs).1 k (allocate_page fs).2
          ((content.drop offset).take ws) ws
        obtain ⟨i1, i2, i3⟩ := append_loop_frame content k fuel (remaining - ws) (offset + ws)
          (append_page (allocate_page fs).1 k (allocate_page fs).2
            ((content.drop offset).take ws) ws)
        refine ⟨by rw [i1, p1, ha2], fun j => ?_, fun hf hs ht => ?_⟩
        · obtain ⟨a, b, c⟩ := i2 j
          obtain ⟨a', b', c'⟩ := p3 j
          rw [ha1] at a' b' c'
          exact ⟨a.trans a', b.trans b', c.trans c'⟩
        · rw [ha1] at p2
          have hS : SIZE_MOD = 18446744073709551616 := rfl
          have hm : ((fs.inodes k).size + ws) % SIZE_MOD = (fs.inodes k).size + ws :=
            Nat.mod_eq_of_lt (by omega)
          rw [hm] at p2
          rw [i3 (by omega) (by rw [p2]; omega) ht, p2]
          omega

/-- What the filling of the last page in `append_to_file` leaves in the
image, and the size it gives the file. -/
theorem append_fill_frame (content : List Nat) (k : Int) (fs : SuperBlock) :
    (append_fill content k fs).1.directory = fs.directory ∧
    (∀ j, ((append_fill content k fs).1.inodes j).file_type = (fs.inodes j).file_type ∧
      ((append_fill content k fs).1.inodes j).symlink_path = (fs.inodes j).symlink_path ∧
      ((append_fill content k fs).1.inodes j).permissions = (fs.inodes j).permissions) ∧
    ((fs.inodes k).size + content.length < SIZE_MOD →
      ((append_fill content k fs).1.inodes k).size + (append_fill content k fs).2.2 =
        (fs.inodes k).size + content.length) := by
  have hP : PAGE_SIZE = 4096 := rfl
  unfold append_fill
  by_cases hc : (fs.inodes k).page_count > 0
  · rw [if_pos hc]
    by_cases hf : PAGE_SIZE - (fs.inodes k).size % PAGE_SIZE > 0
    · rw [if_pos hf]
      simp only []
      generalize hws : (if content.length < PAGE_SIZE - (fs.inodes k).size % PAGE_SIZE then
        content.length else PAGE_SIZE - (fs.inodes k).size % PAGE_SIZE) = ws
      have hws1 : ws ≤ content.length := by rw [← hws]; split <;> omega
      refine ⟨rfl, fun j => ?_, fun hs => ?_⟩
      · by_cases hj : j = k
        · subst hj
          refine ⟨?_, ?_, ?_⟩ <;>
            simp only [SuperBlock.setInode, SuperBlock.setPage, setAt_same]
        · refine ⟨?_, ?_, ?_⟩ <;>
            simp only [SuperBlock.setInode, SuperBlock.setPage, setAt_other _ _ hj]
      · simp only [SuperBlock.setInode, SuperBlock.setPage, setAt_same]
        rw [Nat.mod_eq_of_lt (by omega)]
        omega
    · rw [if_neg hf]
      exact ⟨rfl, fun _ => ⟨rfl, rfl, rfl⟩, fun _ => rfl⟩
  · rw [if_neg hc]
    exact ⟨rfl, fun _ => ⟨rfl, rfl, rfl⟩, fun _ => rfl⟩

/-- What `append_finish` leaves in the image. -/
theorem append_finish_frame (now : Int) (s : State) (path : List Nat) (k : Int)
    (fs : SuperBlock) :
    (append_finish now s path k fs).directory = fs.directory ∧
    ∀ j, ((append_finish now s path k fs).inodes j).file_type = (fs.inodes j).file_type ∧
      ((append_finish now s path k fs).inodes j).symlink_path = (fs.inodes j).symlink_path ∧
      ((append_finish now s path k fs).inodes j).permissions = (fs.inodes j).permissions ∧
      ((append_finish now s path k fs).inodes j).size = (fs.inodes j).size := by
  unfold append_finish
  split
  · refine ⟨rfl, fun j => ?_⟩
    by_cases hj1 : j = get_parent_directory_inode s path <;> by_cases hj2 : j = k
    · subst hj2
      refine ⟨?_, ?_, ?_, ?_⟩ <;>
        simp only [set_mtime, SuperBlock.setInode, setAt_same, ← hj1]
    · refine ⟨?_, ?_, ?_, ?_⟩ <;>
        simp only [set_mtime, SuperBlock.setInode, setAt_same, ← hj1, setAt_other _ _ hj2]
    · subst hj2
      refine ⟨?_, ?_, ?_, ?_⟩ <;>
        simp only [set_mtime, SuperBlock.setInode, setAt_same, setAt_other _ _ hj1]
    · refine ⟨?_, ?_, ?_, ?_⟩ <;>
        simp only [set_mtime, SuperBlock.setInode, setAt_other _ _ hj1, setAt_other _ _ hj2]
  · refine ⟨rfl, fun j => ?_⟩
    by_cases hj2 : j = k
    · subst hj2
      refine ⟨?_, ?_, ?_, ?_⟩ <;> simp only [SuperBlock.setInode, setAt_same]
    · refine ⟨?_, ?_, ?_, ?_⟩ <;> simp only [SuperBlock.setInode, setAt_other _ _ hj2]

/-- The effect of an `append_to_file` that passes its checks and reports
success, when the sizes fit the machine integers: the names of the file system
are unchanged, the inode keeps its permission bits and its size has grown by
the length of the content. -/
theorem append_to_file_success (now : Int) (s : State) (path c : List Nat)
    (hres : get_inode_from_path s path ≠ -1) (htgt : target_inode s path ≠ -1)
    (hreg : (s.fs.inodes (target_inode s path)).file_type = FILE_TYPE_REGULAR)
    (hperm : check_file_permission s.fs (target_inode s path) PERM_WRITE ≠ 0)
    (hfit : (s.fs.inodes (target_inode s path)).size + c.length < 2 ^ 42)
    (hmsg : (append_to_file now s path c).2 = "Content appended successfully") :
    SameNames s (append_to_file now s path c).1 ∧
    ((append_to_file now s path c).1.fs.inodes (target_inode s path)).permissions =
      (s.fs.inodes (target_inode s path)).permissions ∧
    ((append_to_file now s path c).1.fs.inodes (target_inode s path)).size =
      (s.fs.inodes (target_inode s path)).size + c.length := by
  have hS : SIZE_MOD = 18446744073709551616 := rfl
  have hw : append_to_file now s path c = append_body now s path c (target_inode s path) := by
    unfold append_to_file
    rw [if_neg hres, if_neg htgt, if_neg (by simp [hreg]), if_neg hperm]
  rw [hw] at hmsg ⊢
  generalize target_inode s path = k at *
  unfold append_body at hmsg ⊢
  by_cases h1 : total_pages_needed (s.fs.inodes k).size c.length > (MAX_FILE_PAGES : Int)
  · rw [if_pos h1] at hmsg
    exact absurd hmsg
      (by decide : ("File size exceeds maximum limit" : String) ≠ "Content appended successfully")
  · rw [if_neg h1] at hmsg ⊢
    by_cases h2 : (append_pages c k s.fs).2 = false
    · rw [if_pos h2] at hmsg
      exact absurd hmsg
        (by decide : ("No free pages available" : String) ≠ "Content appended successfully")
    · rw [if_neg h2]
      have h2' : (append_pages c k s.fs).2 = true := by simpa using h2
      obtain ⟨f1, f2, f3⟩ := append_fill_frame c k s.fs
      have f3' := f3 (by omega)
      obtain ⟨l1, l2, l3⟩ := append_loop_frame c k (append_fill c k s.fs).2.2
        (append_fill c k s.fs).2.2 (append_fill c k s.fs).2.1 (append_fill c k s.fs).1
      have l3' := l3 (Nat.le_refl _) (by omega) h2'
      obtain ⟨g1, g2⟩ := append_finish_frame now s path k (append_pages c k s.fs).1
      refine ⟨⟨rfl, ?_, fun j => ⟨?_, ?_⟩⟩, ?_, ?_⟩
      · show (append_finish now s path k (append_pages c k s.fs).1).directory = s.fs.directory
        rw [g1]; exact l1.trans f1
      · show ((append_finish now s path k (append_pages c k s.fs).1).inodes j).file_type = _
        rw [(g2 j).1]; exact (l2 j).1.trans (f2 j).1
      · show ((append_finish now s path k (append_pages c k s.fs).1).inodes j).symlink_path = _
        rw [(g2 j).2.1]; exact (l2 j).2.1.trans (f2 j).2.1
      · show ((append_finish now s path k (append_pages c k s.fs).1).inodes k).permissions = _
        rw [(g2 k).2.2.1]; exact (l2 k).2.2.trans (f2 k).2.2
      · show ((append_finish now s path k (append_pages c k s.fs).1).inodes k).size = _
        rw [(g2 k).2.2.2]
        exact l3'.trans f3'

/-- The refusal of `append_to_file` for a path resolving to a Regular file
with the write bit, when the sizes fit the machine integers: the size limit is
reported exactly when more than ten pages would be needed, and then the state
is unchanged. -/
theorem append_refused_iff (now : Int) (s : State) (path c : List Nat)
    (hres : get_inode_from_path s path ≠ -1) (htgt : target_inode s path ≠ -1)
    (hreg : (s.fs.inodes (target_inode s path)).file_type = FILE_TYPE_REGULAR)
    (hw : (s.fs.inodes (target_inode s path)).permissions &&& PERM_WRITE ≠ 0)
    (hfit : (s.fs.inodes (target_inode s path)).size + c.length < 2 ^ 42) :
    ((append_to_file now s path c).2 = "File size exceeds maximum limit" ↔
      MAX_FILE_PAGES <
        ((s.fs.inodes (target_inode s path)).size + c.length + PAGE_SIZE - 1) / PAGE_SIZE) ∧
    (MAX_FILE_PAGES <
        ((s.fs.inodes (target_inode s path)).size + c.length + PAGE_SIZE - 1) / PAGE_SIZE →
      (append_to_file now s path c).1 = s) := by
  have hperm : check_file_permission s.fs (target_inode s path) PERM_WRITE ≠ 0 := by
    rw [check_file_permission_write htgt hreg]; exact hw
  unfold append_to_file
  rw [if_neg hres, if_neg htgt, if_neg (by simp [hreg]), if_neg hperm]
  unfold append_body
  rw [total_pages_needed_eq hfit]
  by_cases hlim : MAX_FILE_PAGES <
      ((s.fs.inodes (target_inode s path)).size + c.length + PAGE_SIZE - 1) / PAGE_SIZE
  · have hgt : ((((s.fs.inodes (target_inode s path)).size + c.length + PAGE_SIZE - 1) /
        PAGE_SIZE : Nat) : Int) > (MAX_FILE_PAGES : Int) := by
      exact_mod_cast hlim
    rw [if_pos hgt]
    exact ⟨⟨fun _ => hlim, fun _ => rfl⟩, fun _ => rfl⟩
  · have hgt : ¬ ((((s.fs.inodes (target_inode s path)).size + c.length + PAGE_SIZE - 1) /
        PAGE_SIZE : Nat) : Int) > (MAX_FILE_PAGES : Int) := by
      intro h; apply hlim; exact_mod_cast h
    rw [if_neg hgt]
    refine ⟨⟨fun h => ?_, fun h => absurd h hlim⟩, fun h => absurd h hlim⟩
    exfalso
    split at h
    · exact absurd h
        (by decide : ("No free pages available" : String) ≠ "File size exceeds maximum limit")
    · exact absurd h
        (by decide : ("Content appended successfully" : String) ≠
          "File size exceeds maximum limit")

/-- C8 (append size limit).  For a path resolving to a Regular file with the
write bit, when the sizes fit the machine integers, `append_to_file` refuses
with "File size exceeds maximum limit" exactly when
`ceil((size + len(c)) / 4096) > 10`, and on that refusal the state is unchanged.
In particular an append that brings the size to exactly `10 * 4096` is not
refused, and when it has succeeded a further one-byte append is refused and
changes nothing; so is a one-byte append to any file of `10 * 4096` bytes. -/
theorem append_size_limit (now : Int) (s : State) (path c : List Nat)
    (hres : get_inode_from_path s path ≠ -1) (htgt : target_inode s path ≠ -1)
    (hreg : (s.fs.inodes (target_inode s path)).file_type = FILE_TYPE_REGULAR)
    (hw : (s.fs.inodes (target_inode s path)).permissions &&& PERM_WRITE ≠ 0)
    (hfit : (s.fs.inodes (target_inode s path)).size + c.length < 2 ^ 42) :
    ((append_to_file now s path c).2 = "File size exceeds maximum limit" ↔
      MAX_FILE_PAGES <
        ((s.fs.inodes (target_inode s path)).size + c.length + PAGE_SIZE - 1) / PAGE_SIZE) ∧
    (MAX_FILE_PAGES <
        ((s.fs.inodes (target_inode s path)).size + c.length + PAGE_SIZE - 1) / PAGE_SIZE →
      (append_to_file now s path c).1 = s) ∧
    ((s.fs.inodes (target_inode s path)).size + c.length = MAX_FILE_PAGES * PAGE_SIZE →
      (append_to_file now s path c).2 ≠ "File size exceeds maximum limit" ∧
      ((append_to_file now s path c).2 = "Content appended successfully" →
        ∀ (now' : Int) (b : Nat),
          (append_to_file now' (append_to_file now s path c).1 path [b]).2 =
            "File size exceeds maximum limit" ∧
          (append_to_file now' (append_to_file now s path c).1 path [b]).1 =
            (append_to_file now s path c).1)) ∧
    ((s.fs.inodes (target_inode s path)).size = MAX_FILE_PAGES * PAGE_SIZE → c.length = 1 →
      (append_to_file now s path c).2 = "File size exceeds maximum limit" ∧
        (append_to_file now s path c).1 = s) := by
  have key := append_refused_iff now s path c hres htgt hreg hw hfit
  have hperm : check_file_permission s.fs (target_inode s path) PERM_WRITE ≠ 0 := by
    rw [check_file_permission_write htgt hreg]; exact hw
  refine ⟨key.1, key.2, fun h => ⟨fun hm => ?_, fun hmsg now' b => ?_⟩, ?_⟩
  · have := key.1.1 hm
    rw [h] at this
    simp only [MAX_FILE_PAGES, PAGE_SIZE] at this
    omega
  · obtain ⟨hsame, hp, hsize⟩ := append_to_file_success now s path c hres htgt hreg hperm hfit hmsg
    have ht := target_inode_congr hsame path
    have hsz : ((append_to_file now s path c).1.fs.inodes
        (target_inode (append_to_file now s path c).1 path)).size = MAX_FILE_PAGES * PAGE_SIZE := by
      rw [ht, hsize, h]
    have key' := append_refused_iff now' (append_to_file now s path c).1 path [b]
      (by rw [get_inode_from_path_congr hsame]; exact hres) (by rw [ht]; exact htgt)
      (by rw [ht, (hsame.2.2 _).1]; exact hreg) (by rw [ht, hp]; exact hw)
      (by rw [hsz, List.length_singleton]; decide)
    have hlim : MAX_FILE_PAGES <
        (((append_to_file now s path c).1.fs.inodes
          (target_inode (append_to_file now s path c).1 path)).size + [b].length + PAGE_SIZE - 1) /
            PAGE_SIZE := by
      rw [hsz, List.length_singleton]; decide
    exact ⟨key'.1.2 hlim, key'.2 hlim⟩
  · intro h hl
    have hlim : MAX_FILE_PAGES <
        ((s.fs.inodes (target_inode s path)).size + c.length + PAGE_SIZE - 1) / PAGE_SIZE := by
      rw [h, hl]; decide
    exact ⟨key.1.2 hlim, key.2 hlim⟩

/-- The size limit at `append /f "b"` in the state after
`format; touch /f; write /f c` with `c` of 4096 bytes: two pages would be
needed, the append is not refused. -/
theorem append_size_limit_witness :
    get_inode_from_path full_page_state (cstr "/f") ≠ -1 ∧
      (full_page_state.fs.inodes (target_inode full_page_state (cstr "/f"))).file_type =
        FILE_TYPE_REGULAR ∧
      (full_page_state.fs.inodes (target_inode full_page_state (cstr "/f"))).size = 4096 ∧
      ((append_to_file 0 full_page_state (cstr "/f") [98]).2 =
          "File size exceeds maximum limit" ↔
        MAX_FILE_PAGES <
          ((full_page_state.fs.inodes (target_inode full_page_state (cstr "/f"))).size +
            [98].length + PAGE_SIZE - 1) / PAGE_SIZE) :=
  ⟨by decide!, by decide!, by decide!,
    (append_size_limit 0 full_page_state (cstr "/f") [98] (by decide!) (by decide!) (by decide!)
      (by decide!) (by decide!)).1⟩

/-! ### The bounds on page count and size -/

/-- The allocation loop of `write_file` for a content of 40961 bytes on the
state after `format; touch /f`: eleven pages are allocated. -/
theorem write_file_loop_eleven_pages :
    (write_file_loop (List.replicate 40961 97) 1 11 0 40961 0
      (clear_page_count (free_pages one_file_state.fs 1) 1)).2 = true ∧
    ((write_file_loop (List.replicate 40961 97) 1 11 0 40961 0
      (clear_page_count (free_pages one_file_state.fs 1) 1)).1.inodes 1).page_count = 11 ∧
    ((write_file_loop (List.replicate 40961 97) 1 11 0 40961 0
      (clear_page_count (free_pages one_file_state.fs 1) 1)).1.inodes 1).file_type =
        FILE_TYPE_REGULAR := by
  decide!

/-- The write of a content of the given length 40961 to `/f` after
`format; touch /f`, in terms of the loop. -/
theorem write_file_eleven_pages_eq (c : List Nat) (hc : c.length = 40961)
    (h : (write_file_loop c 1 11 0 40961 0
      (clear_page_count (free_pages one_file_state.fs 1) 1)).2 = true) :
    write_file 0 one_file_state (cstr "/f") c =
      (one_file_state.save (write_file_finish 0 one_file_state (cstr "/f") 40961 1
          (write_file_loop c 1 11 0 40961 0
            (clear_page_count (free_pages one_file_state.fs 1) 1)).1),
        "File written successfully") := by
  have ht : target_inode one_file_state (cstr "/f") = 1 := by decide
  have hn : (pages_needed c.length).toNat = 11 := by rw [hc]; decide
  have hb := write_file_body_of_success 0 one_file_state (cstr "/f") c 1 11 hn (by rw [hc]; exact h)
  rw [hc] at hb
  rw [← hb]
  unfold write_file
  rw [if_neg (by decide), if_neg (by decide), if_neg (by decide), if_neg (by decide), ht]

/-- C7 (inode size invariant), evaluated on the code.  Both bounds fail in
states reached from `format` through `create_file`, `write_file` and
`append_to_file`.  After `format; touch /f; write /f c` with `c` of 40961
bytes, `write_file` reports success and the Regular inode 1 has a page count
of 11, above `MAX_FILE_PAGES = 10`.  After `format; touch /f; write /f c;
append /f "b"` with `c` of 4096 bytes, `append_to_file` reports success and the
Regular inode 1 has size 4097 with a page count of 1, above `1 * PAGE_SIZE`. -/
theorem inode_size_invariant_violated :
    (write_file 0 one_file_state (cstr "/f") (List.replicate 40961 97)).2 =
      "File written successfully" ∧
    ((write_file 0 one_file_state (cstr "/f") (List.replicate 40961 97)).1.fs.inodes 1).file_type
      = FILE_TYPE_REGULAR ∧
    ((write_file 0 one_file_state (cstr "/f") (List.replicate 40961 97)).1.fs.inodes 1).page_count
      = 11 ∧
    (append_to_file 0 full_page_state (cstr "/f") [98]).2 = "Content appended successfully" ∧
    ((append_to_file 0 full_page_state (cstr "/f") [98]).1.fs.inodes 1).inode_number = 1 ∧
    ((append_to_file 0 full_page_state (cstr "/f") [98]).1.fs.inodes 1).file_type =
      FILE_TYPE_REGULAR ∧
    ((append_to_file 0 full_page_state (cstr "/f") [98]).1.fs.inodes 1).page_count = 1 ∧
    ((append_to_file 0 full_page_state (cstr "/f") [98]).1.fs.inodes 1).size = 4097 := by
  have hl := write_file_loop_eleven_pages
  have hw := write_file_eleven_pages_eq (List.replicate 40961 97) (List.length_replicate _ _) hl.1
  have hf := write_file_finish_frame 0 one_file_state (cstr "/f") 40961 1
    (write_file_loop (List.replicate 40961 97) 1 11 0 40961 0
      (clear_page_count (free_pages one_file_state.fs 1) 1)).1 (by decide)
  have ha : (append_to_file 0 full_page_state (cstr "/f") [98]).2 =
      "Content appended successfully" ∧
    ((append_to_file 0 full_page_state (cstr "/f") [98]).1.fs.inodes 1).inode_number = 1 ∧
    ((append_to_file 0 full_page_state (cstr "/f") [98]).1.fs.inodes 1).file_type =
      FILE_TYPE_REGULAR ∧
    ((append_to_file 0 full_page_state (cstr "/f") [98]).1.fs.inodes 1).page_count = 1 ∧
    ((append_to_file 0 full_page_state (cstr "/f") [98]).1.fs.inodes 1).size = 4097 := by
    decide!
  rw [hw]
  exact ⟨rfl, ((hf.2.2.2 1).1).trans hl.2.2, ((hf.2.2.2 1).2.2.2.2).trans hl.2.1, ha⟩

/-! ### Deleting a file: `delete_file` releases the pages before it looks at the link count -/

/-- C1 (hard-link survival), evaluated on the code.  In the state reached by
`format; mkdir /a; touch /a/f; write /a/f "hello"; ln /a/f /a/g`, reading
`/a/g` prints `hello`.  After `delete_file "/a/f"`, which reports one hard
link remaining, the name `/a/g` still resolves to inode 2, but the page of the
file has been released and its first four bytes hold the free-list index: the
five bytes read back are `1 0 0 0 'o'` and `open_file "/a/g"` prints the single
byte `1`, not `hello`. -/
theorem hard_link_content_lost :
    (open_file 0 linked_state (cstr "/a/g")).2 = Output.printed (cstr "hello" ++ [10]) ∧
    (delete_file 0 linked_state (cstr "/a/f")).2 =
      "File unlinked successfully (hard links remaining: 1)" ∧
    get_inode_from_path (delete_file 0 linked_state (cstr "/a/f")).1 (cstr "/a/g") = 2 ∧
    read_bytes (delete_file 0 linked_state (cstr "/a/f")).1.fs 2 = [1, 0, 0, 0, 111] ∧
    (open_file 0 (delete_file 0 linked_state (cstr "/a/f")).1 (cstr "/a/g")).2 =
      Output.printed [1, 10] ∧
    (open_file 0 (delete_file 0 linked_state (cstr "/a/f")).1 (cstr "/a/g")).2 ≠
      Output.printed (cstr "hello" ++ [10]) := by
  decide!

/-- C4 (`delete_file` keeps allocator conservation), evaluated on the code.
In the state reached by `format; touch /f; write /f "hello"` the file is
inode 1, has link count zero and owns the one page 0.  `delete_file "/f"`
reports success and pushes page 0 onto the free list twice: afterwards the
head of the free list is page 0 and the index stored in page 0 is 0 again, so
the walk of the free list never reaches `-1`. -/
theorem delete_file_frees_pages_twice :
    get_inode_from_path hello_state (cstr "/f") = 1 ∧
    (hello_state.fs.inodes 1).file_type = FILE_TYPE_REGULAR ∧
    (hello_state.fs.inodes 1).link_count = 0 ∧
    (hello_state.fs.inodes 1).page_count = 1 ∧
    (hello_state.fs.inodes 1).pages 0 = 0 ∧
    (delete_file 0 hello_state (cstr "/f")).2 = "File deleted successfully" ∧
    (delete_file 0 hello_state (cstr "/f")).1.fs.free_page_head = 0 ∧
    read_int ((delete_file 0 hello_state (cstr "/f")).1.fs.page_table 0).data = 0 ∧
    free_page_list (delete_file 0 hello_state (cstr "/f")).1.fs (NUM_PAGES + 1)
      (delete_file 0 hello_state (cstr "/f")).1.fs.free_page_head = none := by
  decide!

/-- C5 (`delete_file` with hard links remaining), evaluated on the code.  In
the state reached by `format; mkdir /a; touch /a/f; write /a/f "hello";
ln /a/f /a/g` inode 2 has link count 1 and owns page 0.  `delete_file "/a/f"`
removes the name and leaves the inode off the inode free list, but the link
count is still 1 afterwards, and page 0 has been released: it is unmarked, it
is the new head of the page free list and its first byte changed from `'h'`
to the free-list index. -/
theorem delete_file_with_links_frees_pages :
    (linked_state.fs.inodes 2).link_count = 1 ∧
    (linked_state.fs.inodes 2).page_count = 1 ∧
    (linked_state.fs.inodes 2).pages 0 = 0 ∧
    find_in_directory (delete_file 0 linked_state (cstr "/a/f")).1.fs 1 (cstr "f") = -1 ∧
    (delete_file 0 linked_state (cstr "/a/f")).1.fs.free_inode_head =
      linked_state.fs.free_inode_head ∧
    ((delete_file 0 linked_state (cstr "/a/f")).1.fs.inodes 2).link_count = 1 ∧
    (linked_state.fs.page_table 0).is_used = 1 ∧
    ((delete_file 0 linked_state (cstr "/a/f")).1.fs.page_table 0).is_used = 0 ∧
    linked_state.fs.free_page_head = 1 ∧
    (delete_file 0 linked_state (cstr "/a/f")).1.fs.free_page_head = 0 ∧
    (linked_state.fs.page_table 0).data 0 = 104 ∧
    ((delete_file 0 linked_state (cstr "/a/f")).1.fs.page_table 0).data 0 = 1 := by
  decide!

/-! ### Hard links: `link_file` does not ask for a directory -/

/-- C6 (`link_file`), evaluated on the code.  In the state reached by
`format; touch /f` the source `/f` resolves to the Regular inode 1, the parent
of the link name `/f/g` resolves (to inode 1, the file itself), it has the
write bit and holds no entry `g`.  `link_file "/f" "/f/g"` reports success,
yet afterwards the new name does not resolve and the size of the inode has
changed from 0 to one entry unit. -/
theorem link_file_under_regular_file :
    get_inode_from_path one_file_state (cstr "/f") = 1 ∧
    (one_file_state.fs.inodes 1).file_type = FILE_TYPE_REGULAR ∧
    get_parent_directory_inode one_file_state (cstr "/f/g") = 1 ∧
    (one_file_state.fs.inodes 1).permissions &&& PERM_WRITE ≠ 0 ∧
    find_in_directory one_file_state.fs 1 (extract_last_path_component (cstr "/f/g")) = -1 ∧
    (link_file 0 one_file_state (cstr "/f") (cstr "/f/g")).2 = "Hard link created successfully" ∧
    get_inode_from_path (link_file 0 one_file_state (cstr "/f") (cstr "/f/g")).1 (cstr "/f/g")
      = -1 ∧
    (one_file_state.fs.inodes 1).size = 0 ∧
    ((link_file 0 one_file_state (cstr "/f") (cstr "/f/g")).1.fs.inodes 1).size = 264 := by
  decide!

/-! ### Appending to a file whose last page is full -/

/-- C9 (append concatenates), evaluated on the code.  In the state reached
by `format; touch /f; write /f c` with `c` 4096 bytes `'a'`, the file has
size 4096, one page and reads back 4096 bytes starting with `'a'`.
`append_to_file "/f" "b"` reports success and sets the size to 4097, but
allocates no page and stores the `'b'` over byte 0 of the full page: the file
reads back 4096 bytes starting with `'b'`, which is not the old content
followed by `b`. -/
theorem append_overwrites_full_page :
    (full_page_state.fs.inodes 1).size = 4096 ∧
    (full_page_state.fs.inodes 1).page_count = 1 ∧
    (read_bytes full_page_state.fs 1).length = 4096 ∧
    (read_bytes full_page_state.fs 1).head? = some 97 ∧
    (append_to_file 0 full_page_state (cstr "/f") [98]).2 = "Content appended successfully" ∧
    ((append_to_file 0 full_page_state (cstr "/f") [98]).1.fs.inodes 1).size = 4097 ∧
    ((append_to_file 0 full_page_state (cstr "/f") [98]).1.fs.inodes 1).page_count = 1 ∧
    (read_bytes (append_to_file 0 full_page_state (cstr "/f") [98]).1.fs 1).length = 4096 ∧
    (read_bytes (append_to_file 0 full_page_state (cstr "/f") [98]).1.fs 1).head? = some 98 ∧
    (read_bytes (append_to_file 0 full_page_state (cstr "/f") [98]).1.fs 1).head? ≠
      (read_bytes full_page_state.fs 1 ++ [98]).head? := by
  decide!

/-! ### Writing when the pages run out -/

/-- The allocation loop of `write_file` when the free list holds exactly one
page `p` and at least two passes are left: the first pass takes `p`, the second
finds the list empty, and the loop stops with `p` recorded in slot `i`, counted
in `page_count` and marked used. -/
theorem write_file_loop_one_free_page (content : List Nat) (k : Int) (m i remaining offset : Nat)
    (fs : SuperBlock) (hp : fs.free_page_head ≠ -1)
    (hnext : read_int (fs.page_table fs.free_page_head).data = -1) :
    (write_file_loop content k (m + 2) i remaining offset fs).2 = false ∧
    ((write_file_loop content k (m + 2) i remaining offset fs).1.inodes k).page_count =
      (fs.inodes k).page_count + 1 ∧
    ((write_file_loop content k (m + 2) i remaining offset fs).1.inodes k).pages i =
      fs.free_page_head ∧
    ((write_file_loop content k (m + 2) i remaining offset fs).1.page_table
      fs.free_page_head).is_used = 1 := by
  have ha := allocate_page_of_ne hp
  rw [write_file_loop, if_neg (by rw [ha]; exact hp)]
  generalize hws : (if remaining > PAGE_SIZE then PAGE_SIZE else remaining) = ws
  have hh : (store_page (allocate_page fs).1 k i (allocate_page fs).2
      ((content.drop offset).take ws)).free_page_head = -1 := by
    rw [ha]; exact hnext
  have he : allocate_page (store_page (allocate_page fs).1 k i (allocate_page fs).2
      ((content.drop offset).take ws)) =
      (store_page (allocate_page fs).1 k i (allocate_page fs).2
        ((content.drop offset).take ws), -1) := by
    rw [allocate_page, if_pos hh]
  rw [write_file_loop, he, if_pos rfl]
  rw [ha]
  refine ⟨rfl, ?_, ?_, ?_⟩
  · simp only [store_page, SuperBlock.setPage, SuperBlock.setInode, setAt_same]
  · simp only [store_page, SuperBlock.setPage, SuperBlock.setInode, setAt_same, if_pos]
  · simp only [store_page, SuperBlock.setPage, SuperBlock.setInode, setAt_same]

/-- No rollback in `write_file`: for every path that resolves to a Regular
file passing the permission check and every content needing at least two pages,
when the free list (once the old pages of the file are released) holds exactly
one page `p`, `write_file` reports "No free pages available" and saves an image
in which the file has a page count of 1, refers to `p` and `p` is marked used. -/
theorem write_file_no_rollback (now : Int) (s : State) (path c : List Nat) (m : Nat)
    (hres : get_inode_from_path s path ≠ -1) (htgt : target_inode s path ≠ -1)
    (hreg : (s.fs.inodes (target_inode s path)).file_type = FILE_TYPE_REGULAR)
    (hperm : check_file_permission s.fs (target_inode s path) (PERM_READ ||| PERM_WRITE) ≠ 0)
    (hlen : (pages_needed c.length).toNat = m + 2)
    (hp : (free_pages s.fs (target_inode s path)).free_page_head ≠ -1)
    (hnext : read_int ((free_pages s.fs (target_inode s path)).page_table
      (free_pages s.fs (target_inode s path)).free_page_head).data = -1) :
    (write_file now s path c).2 = "No free pages available" ∧
    ((write_file now s path c).1.fs.inodes (target_inode s path)).page_count = 1 ∧
    ((write_file now s path c).1.fs.inodes (target_inode s path)).pages 0 =
      (free_pages s.fs (target_inode s path)).free_page_head ∧
    ((write_file now s path c).1.fs.page_table
      (free_pages s.fs (target_inode s path)).free_page_head).is_used = 1 := by
  have hw : write_file now s path c = write_file_body now s path c (target_inode s path) := by
    unfold write_file
    rw [if_neg hres, if_neg htgt, if_neg (by simp [hreg]), if_neg hperm]
  rw [hw]
  generalize target_inode s path = k at *
  obtain ⟨hc1, hc2, -, hc4, -⟩ := clear_page_count_frame (free_pages s.fs k) k
  obtain ⟨h1, h2, h3, h4⟩ := write_file_loop_one_free_page c k m 0 c.length 0
    (clear_page_count (free_pages s.fs k) k) (by rw [hc2]; exact hp)
    (by rw [hc2, hc1]; exact hnext)
  unfold write_file_body
  rw [hlen, if_pos h1]
  refine ⟨rfl, ?_, ?_, ?_⟩
  · show ((write_file_loop c k (m + 2) 0 c.length 0
        (clear_page_count (free_pages s.fs k) k)).1.inodes k).page_count = 1
    rw [h2, hc4]; rfl
  · show ((write_file_loop c k (m + 2) 0 c.length 0
        (clear_page_count (free_pages s.fs k) k)).1.inodes k).pages 0 = _
    rw [h3, hc2]
  · show ((write_file_loop c k (m + 2) 0 c.length 0
        (clear_page_count (free_pages s.fs k) k)).1.page_table _).is_used = 1
    rw [← hc2]; exact h4

/-- The missing rollback at `write /h c` with `c` of 4097 bytes in
`one_free_page_state`, where the free list is page 0 alone. -/
theorem write_file_no_rollback_witness :
    get_inode_from_path one_free_page_state (cstr "/h") ≠ -1 ∧
      (free_pages one_free_page_state.fs
        (target_inode one_free_page_state (cstr "/h"))).free_page_head = 0 ∧
      read_int ((free_pages one_free_page_state.fs
        (target_inode one_free_page_state (cstr "/h"))).page_table 0).data = -1 ∧
      (write_file 0 one_free_page_state (cstr "/h") (List.replicate 4097 97)).2 =
        "No free pages available" ∧
      ((write_file 0 one_free_page_state (cstr "/h") (List.replicate 4097 97)).1.fs.inodes
        (target_inode one_free_page_state (cstr "/h"))).page_count = 1 :=
  have h := write_file_no_rollback 0 one_free_page_state (cstr "/h") (List.replicate 4097 97) 0
    (by decide!) (by decide!) (by decide!) (by decide!) (by decide!) (by decide!) (by decide!)
  ⟨by decide!, by decide!, by decide!, h.1, h.2.1⟩

/-- C10 (`write_file` on page exhaustion), evaluated on the code.  In the
state reached by `format; touch /f; write /f "hello"; rm /f; touch /g` the
file `/g` is inode 1 and has no page, and the free list is page 0 pointing at
itself.  Writing `three_page_content` to `/g` gets page 0 for the first page,
gets page 0 again for the second page and reads from it the next index `-1`,
and finds the free list empty for the third page: `write_file` reports
"No free pages available" and saves the image as it is, with a page count of
2, both page slots referring to page 0 and page 0 marked used. -/
theorem write_file_exhaustion_keeps_pages :
    get_inode_from_path recycled_state (cstr "/g") = 1 ∧
    (recycled_state.fs.inodes 1).page_count = 0 ∧
    (write_file 0 recycled_state (cstr "/g") three_page_content).2 = "No free pages available" ∧
    ((write_file 0 recycled_state (cstr "/g") three_page_content).1.fs.inodes 1).page_count = 2 ∧
    ((write_file 0 recycled_state (cstr "/g") three_page_content).1.fs.inodes 1).pages 0 = 0 ∧
    ((write_file 0 recycled_state (cstr "/g") three_page_content).1.fs.inodes 1).pages 1 = 0 ∧
    ((write_file 0 recycled_state (cstr "/g") three_page_content).1.fs.page_table 0).is_used = 1 := by
  decide!

/-! ### Copying a file: `copy_file` reports success whatever `add_directory_entry` did -/

/-- C11 (the postcondition of a successful `copy_file`) fails on the code.
(1) In `full_table_state`, where the directory table has no free slot,
`copy_file "/f" "/x"` passes every check, takes inode 2 from the free list and
reports "File copied successfully", but `add_directory_entry` has only printed
"Directory is full": `/x` does not resolve afterwards.
(2) In `unlinked_state` the page 0 of the file `/a/g` (inode 2) is the head of
the page free list; `copy_file "/a/g" "/a/h"` reports success and `/a/h`
resolves to the new inode 3, whose page 0 is the page 0 of the source: the two
files share a page. -/
theorem copy_file_postcondition_violated :
    (∀ i : Fin MAX_FILES, (full_table_state.fs.directory (i.val : Int)).inode_number ≠ -1) ∧
    get_inode_from_path full_table_state (cstr "/f") = 1 ∧
    (allocate_inode 0 full_table_state.fs).2 = 2 ∧
    (copy_file 0 full_table_state (cstr "/f") (cstr "/x")).2 = "File copied successfully" ∧
    get_inode_from_path (copy_file 0 full_table_state (cstr "/f") (cstr "/x")).1 (cstr "/x") = -1 ∧
    (copy_file 0 full_table_state (cstr "/f") (cstr "/x")).1.fs.free_inode_head = 3 ∧
    get_inode_from_path unlinked_state (cstr "/a/g") = 2 ∧
    unlinked_state.fs.free_page_head = 0 ∧
    (copy_file 0 unlinked_state (cstr "/a/g") (cstr "/a/h")).2 = "File copied successfully" ∧
    get_inode_from_path (copy_file 0 unlinked_state (cstr "/a/g") (cstr "/a/h")).1
      (cstr "/a/h") = 3 ∧
    ((copy_file 0 unlinked_state (cstr "/a/g") (cstr "/a/h")).1.fs.inodes 3).page_count = 1 ∧
    ((copy_file 0 unlinked_state (cstr "/a/g") (cstr "/a/h")).1.fs.inodes 2).page_count = 1 ∧
    ((copy_file 0 unlinked_state (cstr "/a/g") (cstr "/a/h")).1.fs.inodes 3).pages 0 = 0 ∧
    ((copy_file 0 unlinked_state (cstr "/a/g") (cstr "/a/h")).1.fs.inodes 2).pages 0 = 0 := by
  decide!

/-! ### Creating a file or a directory -/

/-- C13 (after "File created successfully" the path resolves to the new
regular file) fails on the code.
(1) Right after `format`, `create_file "//"` is not caught by the test for the
string `"/"`: the parent resolves to the root, the last component is the empty
name, inode 1 is allocated and entered in slot 2 under the empty name, and the
call reports success; the path `"//"` resolves to inode 0, the root directory,
not to the new inode 1.
(2) In `full_table_state` `create_file "/x"` allocates inode 2 and reports
success while `add_directory_entry` found no free slot: `/x` does not
resolve. -/
theorem create_file_path_not_resolved :
    (create_file 0 (format_partition 0) (cstr "//")).2 = "File created successfully" ∧
    (allocate_inode 0 (format_partition 0).fs).2 = 1 ∧
    get_inode_from_path (create_file 0 (format_partition 0) (cstr "//")).1 (cstr "//") = 0 ∧
    ((create_file 0 (format_partition 0) (cstr "//")).1.fs.inodes 0).file_type = FILE_TYPE_DIR ∧
    ((create_file 0 (format_partition 0) (cstr "//")).1.fs.directory 2).name = [] ∧
    ((create_file 0 (format_partition 0) (cstr "//")).1.fs.directory 2).inode_number = 1 ∧
    ((create_file 0 (format_partition 0) (cstr "//")).1.fs.directory 2).parent_inode = 0 ∧
    (create_file 0 full_table_state (cstr "/x")).2 = "File created successfully" ∧
    (allocate_inode 0 full_table_state.fs).2 = 2 ∧
    (create_file 0 full_table_state (cstr "/x")).1.fs.free_inode_head = 3 ∧
    get_inode_from_path (create_file 0 full_table_state (cstr "/x")).1 (cstr "/x") = -1 := by
  decide!

/-- C15 (a new directory has exactly the entries `"."` and `".."`) fails on
the code.
(1) In `stale_entry_state` inode 1 is free and slot 4 still holds the entry
`g` with parent 1.  `create_directory "/d"` succeeds and `/d` is inode 1:
three occupied entries have the new directory as parent, and `/d/g` resolves
to the file `/h` (inode 2).
(2) In `full_table_state` `create_directory "/x"` reports success and takes
inode 2 while none of its three entries could be added: no entry has the new
directory as parent and `/x` does not resolve. -/
theorem create_directory_entry_count_violated :
    stale_entry_state.fs.free_inode_head = 1 ∧
    (create_directory 0 stale_entry_state (cstr "/d")).2 = "Directory created successfully" ∧
    get_inode_from_path (create_directory 0 stale_entry_state (cstr "/d")).1 (cstr "/d") = 1 ∧
    entry_count (create_directory 0 stale_entry_state (cstr "/d")).1.fs 1 = 3 ∧
    find_in_directory (create_directory 0 stale_entry_state (cstr "/d")).1.fs 1 (cstr "g") = 2 ∧
    get_inode_from_path (create_directory 0 stale_entry_state (cstr "/d")).1 (cstr "/d/g") = 2 ∧
    (create_directory 0 full_table_state (cstr "/x")).2 = "Directory created successfully" ∧
    (allocate_inode 0 full_table_state.fs).2 = 2 ∧
    entry_count (create_directory 0 full_table_state (cstr "/x")).1.fs 2 = 0 ∧
    get_inode_from_path (create_directory 0 full_table_state (cstr "/x")).1 (cstr "/x") = -1 := by
  decide!

/-! ### Deleting and moving a directory named by a path that ends in `"."` -/

/-- C16 (`delete_directory` succeeds exactly on a directory with two entries
and then removes its entry from the parent) fails on the code.  After
`format; mkdir /a` the path `"/a/."` resolves to the directory inode 1, which
has its two entries, and root and `/a` have every permission.
`delete_directory "/a/."` reports success, clears the two entries and frees
inode 1, but looks for the name `"."` in the directory `/a/` itself: the entry
`a` of the root stays and still leads to inode 1.  A second call
`delete_directory "/a"` then finds no entry with parent 1 (not two) and
succeeds again. -/
theorem delete_directory_dot_path :
    get_inode_from_path one_dir_state (cstr "/a/.") = 1 ∧
    entry_count one_dir_state.fs 1 = 2 ∧
    get_parent_directory_inode one_dir_state (cstr "/a/.") = 1 ∧
    (delete_directory 0 one_dir_state (cstr "/a/.")).2 = "Directory deleted successfully" ∧
    find_in_directory (delete_directory 0 one_dir_state (cstr "/a/.")).1.fs 0 (cstr "a") = 1 ∧
    (delete_directory 0 one_dir_state (cstr "/a/.")).1.fs.free_inode_head = 1 ∧
    get_inode_from_path (delete_directory 0 one_dir_state (cstr "/a/.")).1 (cstr "/a") = 1 ∧
    entry_count (delete_directory 0 one_dir_state (cstr "/a/.")).1.fs 1 = 0 ∧
    (delete_directory 0 (delete_directory 0 one_dir_state (cstr "/a/.")).1 (cstr "/a")).2 =
      "Directory deleted successfully" := by
  decide!

/-- C17 (the root is never deleted or moved) fails on the code.  Right after
`format` the paths `"/."` and `"//"` resolve to inode 0 and are not the
strings that `delete_directory` tests for: each call reports success, clears
the entries `"."` and `".."` of the root, so that slot 0 holds `-1` and `"/"`
no longer resolves, and puts inode 0 on the inode free list.  After
`format; mkdir /a`, `move_directory "/." "/a/r"` reports success: slot 0 then
holds the entry `r` of `/a` and the `".."` of the root leads to `/a`.  In the
same state `"/a/.."` resolves to inode 0 and `move_directory "/a/.." "/a/r"`
reports success: `r` in `/a` leads to the root, `/a` has lost its `".."` entry
and the `".."` of the root leads to `/a`. -/
theorem root_directory_deleted :
    get_inode_from_path (format_partition 0) (cstr "/.") = 0 ∧
    get_inode_from_path (format_partition 0) (cstr "//") = 0 ∧
    (delete_directory 0 (format_partition 0) (cstr "/.")).2 = "Directory deleted successfully" ∧
    ((delete_directory 0 (format_partition 0) (cstr "/.")).1.fs.directory 0).inode_number = -1 ∧
    (delete_directory 0 (format_partition 0) (cstr "/.")).1.fs.free_inode_head = 0 ∧
    get_inode_from_path (delete_directory 0 (format_partition 0) (cstr "/.")).1 (cstr "/") = -1 ∧
    (delete_directory 0 (format_partition 0) (cstr "//")).2 = "Directory deleted successfully" ∧
    ((delete_directory 0 (format_partition 0) (cstr "//")).1.fs.directory 0).inode_number = -1 ∧
    (delete_directory 0 (format_partition 0) (cstr "//")).1.fs.free_inode_head = 0 ∧
    get_inode_from_path one_dir_state (cstr "/.") = 0 ∧
    (move_directory MAX_FILES 0 one_dir_state (cstr "/.") (cstr "/a/r")).map
        (fun r => (r.2, (r.1.fs.directory 0).name, (r.1.fs.directory 0).inode_number,
          (r.1.fs.directory 0).parent_inode, find_in_directory r.1.fs 0 DOTDOT)) =
      some ("Directory moved successfully", cstr "r", 0, 1, 1) ∧
    get_inode_from_path one_dir_state (cstr "/a/..") = 0 ∧
    (move_directory MAX_FILES 0 one_dir_state (cstr "/a/..") (cstr "/a/r")).map
        (fun r => (r.2, find_in_directory r.1.fs 1 (cstr "r"),
          find_in_directory r.1.fs 1 DOTDOT, find_in_directory r.1.fs 0 DOTDOT)) =
      some ("Directory moved successfully", 0, -1, 1) := by
  decide!

/-- C18 (no sequence of successful `move_directory` calls makes a directory
its own ancestor) fails on the code.  After `format; mkdir /a; mkdir /a/b;
mkdir /c`, `move_directory "/a/b/." "/c/d"` succeeds: it removes the entry
`"."` of `/a/b` instead of the entry `b` of `/a`, so that inode 2 is both
`/a/b` and `/c/d`, with `".."` leading to `/c`.  Then
`move_directory "/a" "/c/d/x"` succeeds, because the walk from `/c/d` through
its `".."` entries reaches the root without meeting `/a`: afterwards `/a`
(inode 1) holds `b` (inode 2) and inode 2 holds `x` (inode 1), so
`/c/d/x` and `/c/d/x/b/x` are the same directory. -/
theorem move_directory_makes_cycle :
    (move_directory MAX_FILES 0 three_dirs_state (cstr "/a/b/.") (cstr "/c/d")).map Prod.snd =
      some "Directory moved successfully" ∧
    get_inode_from_path moved_dot_state (cstr "/a") = 1 ∧
    get_parent_directory_inode moved_dot_state (cstr "/c/d/x") = 2 ∧
    find_in_directory moved_dot_state.fs 1 (cstr "b") = 2 ∧
    (move_directory MAX_FILES 0 moved_dot_state (cstr "/a") (cstr "/c/d/x")).map
        (fun r => (r.2, find_in_directory r.1.fs 1 (cstr "b"),
          find_in_directory r.1.fs 2 (cstr "x"),
          get_inode_from_path r.1 (cstr "/c/d/x"),
          get_inode_from_path r.1 (cstr "/c/d/x/b"),
          get_inode_from_path r.1 (cstr "/c/d/x/b/x"))) =
      some ("Directory moved successfully", 2, 1, 1, 2, 1) := by
  decide!

/-- C19 (after a successful `move_directory` the old entry is gone and the
`"."` entry is unchanged) fails on the code.  After `format; mkdir /a;
mkdir /a/b; mkdir /c` the source `"/a/b/."` resolves to inode 2 and the parent
of `"/c/d"` is inode 3.  `move_directory "/a/b/." "/c/d"` reports success and
`d` in `/c` leads to inode 2 with `".."` leading to inode 3, but the entry that
was removed is the `"."` of inode 2: the old entry `b` of `/a` still leads to
inode 2 and inode 2 has no `"."` entry any more. -/
theorem move_directory_dot_source :
    get_inode_from_path three_dirs_state (cstr "/a/b/.") = 2 ∧
    get_parent_directory_inode three_dirs_state (cstr "/c/d") = 3 ∧
    find_in_directory three_dirs_state.fs 1 (cstr "b") = 2 ∧
    find_in_directory three_dirs_state.fs 2 DOT = 2 ∧
    (move_directory MAX_FILES 0 three_dirs_state (cstr "/a/b/.") (cstr "/c/d")).map
        (fun r => (r.2, find_in_directory r.1.fs 3 (cstr "d"),
          find_in_directory r.1.fs 2 DOTDOT, find_in_directory r.1.fs 1 (cstr "b"),
          find_in_directory r.1.fs 2 DOT)) =
      some ("Directory moved successfully", 2, 3, 2, -1) := by
  decide!

/-! ### Refusals of `create_file` and `create_directory` -/

/-- A directory passes the read-and-write test only if it is a directory with
both bits set. -/
theorem check_directory_permission_rw {fs : SuperBlock} {d : Int}
    (h : check_directory_permission fs d (PERM_READ ||| PERM_WRITE) ≠ 0) :
    d ≠ -1 ∧ (fs.inodes d).file_type = FILE_TYPE_DIR ∧
      (fs.inodes d).permissions &&& PERM_READ ≠ 0 ∧
      (fs.inodes d).permissions &&& PERM_WRITE ≠ 0 := by
  unfold check_directory_permission at h
  by_cases h1 : d = -1
  · rw [if_pos h1] at h; exact absurd rfl h
  · rw [if_neg h1] at h
    by_cases h2 : (fs.inodes d).file_type ≠ FILE_TYPE_DIR
    · rw [if_pos h2] at h; exact absurd rfl h
    · rw [if_neg h2, if_neg (by decide), if_neg (by decide), if_neg (by decide),
        if_pos (by decide)] at h
      by_cases h3 : (fs.inodes d).permissions &&& PERM_READ ≠ 0 ∧
          (fs.inodes d).permissions &&& PERM_WRITE ≠ 0
      · exact ⟨h1, not_not.mp h2, h3.1, h3.2⟩
      · rw [if_neg h3] at h; exact absurd rfl h

/-- The function `allocate_inode` returns `-1` when the free list is empty. -/
theorem allocate_inode_of_empty {now : Int} {fs : SuperBlock} (h : fs.free_inode_head = -1) :
    (allocate_inode now fs).2 = -1 := by
  unfold allocate_inode
  rw [if_pos h]

/-- C14: `create_file` and `create_directory` leave the whole image (and the
current path) unchanged whenever the parent path does not resolve, the parent
is not a directory or lacks the read bit or the write bit, the last component
of the path is found in the parent, or the inode free list is empty. -/
theorem creation_refusals_atomic (now : Int) (s : State) (path : List Nat)
    (h : get_parent_directory_inode s path = -1 ∨
      (s.fs.inodes (get_parent_directory_inode s path)).file_type ≠ FILE_TYPE_DIR ∨
      (s.fs.inodes (get_parent_directory_inode s path)).permissions &&& PERM_READ = 0 ∨
      (s.fs.inodes (get_parent_directory_inode s path)).permissions &&& PERM_WRITE = 0 ∨
      find_in_directory s.fs (get_parent_directory_inode s path)
        (extract_last_path_component path) ≠ -1 ∨
      s.fs.free_inode_head = -1) :
    (create_file now s path).1 = s ∧ (create_directory now s path).1 = s := by
  have key : ¬ (get_parent_directory_inode s path ≠ -1 ∧
      check_directory_permission s.fs (get_parent_directory_inode s path)
        (PERM_READ ||| PERM_WRITE) ≠ 0 ∧
      find_in_directory s.fs (get_parent_directory_inode s path)
        (extract_last_path_component path) = -1 ∧
      (allocate_inode now s.fs).2 ≠ -1) := by
    rintro ⟨h1, h2, h3, h4⟩
    obtain ⟨_, hd, hr, hw⟩ := check_directory_permission_rw h2
    rcases h with h | h | h | h | h | h
    · exact h1 h
    · exact h hd
    · exact hr h
    · exact hw h
    · exact h h3
    · exact h4 (allocate_inode_of_empty h)
  constructor
  · unfold create_file
    by_cases h0 : path = [SLASH]
    · rw [if_pos h0]
    · rw [if_neg h0]
      by_cases h1 : get_parent_directory_inode s path = -1
      · rw [if_pos h1]
      · rw [if_neg h1]
        by_cases h2 : check_directory_permission s.fs (get_parent_directory_inode s path)
            (PERM_READ ||| PERM_WRITE) = 0
        · rw [if_pos h2]
        · rw [if_neg h2]
          by_cases h3 : find_in_directory s.fs (get_parent_directory_inode s path)
              (extract_last_path_component path) ≠ -1
          · rw [if_pos h3]
          · rw [if_neg h3]
            by_cases h4 : (allocate_inode now s.fs).2 = -1
            · rw [if_pos h4]
            · exact absurd ⟨h1, h2, not_not.mp h3, h4⟩ key
  · unfold create_directory
    by_cases h1 : get_parent_directory_inode s path = -1
    · rw [if_pos h1]
    · rw [if_neg h1]
      by_cases h2 : check_directory_permission s.fs (get_parent_directory_inode s path)
          (PERM_READ ||| PERM_WRITE) = 0
      · rw [if_pos h2]
      · rw [if_neg h2]
        by_cases h3 : find_in_directory s.fs (get_parent_directory_inode s path)
            (extract_last_path_component path) ≠ -1
        · rw [if_pos h3]
        · rw [if_neg h3]
          by_cases h4 : (allocate_inode now s.fs).2 = -1
          · rw [if_pos h4]
          · exact absurd ⟨h1, h2, not_not.mp h3, h4⟩ key

/-- C14 at a concrete input: in the state after `format; touch /f` the path
`/f` names an entry of the root, so both calls are refused. -/
theorem creation_refusals_atomic_witness :
    find_in_directory one_file_state.fs (get_parent_directory_inode one_file_state (cstr "/f"))
        (extract_last_path_component (cstr "/f")) ≠ -1 ∧
      (create_file 0 one_file_state (cstr "/f")).1 = one_file_state ∧
      (create_directory 0 one_file_state (cstr "/f")).1 = one_file_state :=
  ⟨by decide!,
    creation_refusals_atomic 0 one_file_state (cstr "/f")
      (Or.inr (Or.inr (Or.inr (Or.inr (Or.inl (by decide!))))))⟩

/-! ### The directory table: lookups, additions and removals -/

/-- Replacing one cell of a table changes a count over the table by the
cell taken out and the cell put in. -/
theorem countP_range_setAt {α : Type} (f : Int → α) (q : α → Bool) (v : α) :
    ∀ (N i : Nat), i < N →
      (List.range N).countP (fun (j : Nat) => q (setAt f (i : Int) v (j : Int))) +
          (if q (f (i : Int)) = true then 1 else 0) =
        (List.range N).countP (fun (j : Nat) => q (f (j : Int))) +
          (if q v = true then 1 else 0)
  | 0, _, hi => absurd hi (Nat.not_lt_zero _)
  | N + 1, i, hi => by
    rw [List.range_succ, List.countP_append, List.countP_append, List.countP_singleton,
      List.countP_singleton]
    by_cases hN : i = N
    · subst hN
      have hc : (List.range i).countP (fun (j : Nat) => q (setAt f (i : Int) v (j : Int))) =
          (List.range i).countP (fun (j : Nat) => q (f (j : Int))) := by
        apply List.countP_congr
        intro j hj
        have hji : (j : Int) ≠ (i : Int) := by
          have := List.mem_range.mp hj
          omega
        rw [setAt_other _ _ hji]
      rw [hc, setAt_same]
      omega
    · have hlt : i < N := by omega
      have ih := countP_range_setAt f q v N i hlt
      have hNi : (N : Int) ≠ (i : Int) := by omega
      rw [setAt_other _ _ hNi]
      omega

/-- A lookup that returns an inode number other than `-1` comes from the
first slot, in table order, with that parent and name. -/
theorem find_in_directory_first {fs : SuperBlock} {dir k : Int} {name : List Nat}
    (h : find_in_directory fs dir name = k) (hk : k ≠ -1) :
    ∃ i : Nat, i < MAX_FILES ∧
      (List.range MAX_FILES).find?
        (fun (i : Nat) => (fs.directory (i : Int)).parent_inode = dir ∧
          (fs.directory (i : Int)).name = name) = some i ∧
      (fs.directory (i : Int)).parent_inode = dir ∧ (fs.directory (i : Int)).name = name ∧
      (fs.directory (i : Int)).inode_number = k ∧
      ∀ j : Nat, j < i → ¬ ((fs.directory (j : Int)).parent_inode = dir ∧
        (fs.directory (j : Int)).name = name) := by
  unfold find_in_directory at h
  cases hf : (List.range MAX_FILES).find?
      (fun (i : Nat) => (fs.directory (i : Int)).parent_inode = dir ∧
        (fs.directory (i : Int)).name = name) with
  | none => rw [hf] at h; exact absurd h.symm hk
  | some i =>
    rw [hf] at h
    have hs := List.find?_range_eq_some.mp hf
    refine ⟨i, List.mem_range.mp hs.2.1, rfl, ?_, ?_, h, ?_⟩
    · exact (of_decide_eq_true hs.1).1
    · exact (of_decide_eq_true hs.1).2
    · intro j hj hm
      have := hs.2.2 j hj
      simp only [Bool.not_eq_true', decide_eq_false_iff_not] at this
      exact this hm

/-- The lookup returns the inode number of the first slot with the parent and
the name asked for. -/
theorem find_in_directory_of_first {fs : SuperBlock} {dir : Int} {name : List Nat} {i : Nat}
    (hi : i < MAX_FILES)
    (hm : (fs.directory (i : Int)).parent_inode = dir ∧ (fs.directory (i : Int)).name = name)
    (hfirst : ∀ j : Nat, j < i → ¬ ((fs.directory (j : Int)).parent_inode = dir ∧
      (fs.directory (j : Int)).name = name)) :
    find_in_directory fs dir name = (fs.directory (i : Int)).inode_number := by
  unfold find_in_directory
  have hf : (List.range MAX_FILES).find?
      (fun (i : Nat) => (fs.directory (i : Int)).parent_inode = dir ∧
        (fs.directory (i : Int)).name = name) = some i := by
    apply List.find?_range_eq_some.mpr
    refine ⟨decide_eq_true hm, List.mem_range.mpr hi, ?_⟩
    intro j hj
    simp only [Bool.not_eq_true', decide_eq_false_iff_not]
    exact hfirst j hj
  rw [hf]

/-- A lookup returns `-1` when no slot has the parent and the name. -/
theorem find_in_directory_of_name_count {fs : SuperBlock} {dir : Int} {name : List Nat}
    (h : name_count fs dir name = 0) : find_in_directory fs dir name = -1 := by
  unfold find_in_directory
  have hf : (List.range MAX_FILES).find?
      (fun (i : Nat) => (fs.directory (i : Int)).parent_inode = dir ∧
        (fs.directory (i : Int)).name = name) = none := by
    apply List.find?_range_eq_none.mpr
    intro i hi
    have := (List.countP_eq_zero.mp h) i (List.mem_range.mpr hi)
    simp only [Bool.not_eq_true', decide_eq_false_iff_not]
    intro hm
    exact this (decide_eq_true hm)
  rw [hf]

/-- What `remove_directory_entry` leaves alone: the pages, both free lists, and
of every inode all but the size and `mtime` of the parent. -/
theorem remove_directory_entry_frame (now : Int) (fs : SuperBlock) (name : List Nat)
    (parent : Int) :
    (remove_directory_entry now fs name parent).page_table = fs.page_table ∧
    (remove_directory_entry now fs name parent).free_page_head = fs.free_page_head ∧
    (remove_directory_entry now fs name parent).free_inode_head = fs.free_inode_head ∧
    ∀ k, ((remove_directory_entry now fs name parent).inodes k).file_type =
        (fs.inodes k).file_type ∧
      ((remove_directory_entry now fs name parent).inodes k).permissions =
        (fs.inodes k).permissions ∧
      ((remove_directory_entry now fs name parent).inodes k).link_count =
        (fs.inodes k).link_count ∧
      ((remove_directory_entry now fs name parent).inodes k).page_count =
        (fs.inodes k).page_count ∧
      ((remove_directory_entry now fs name parent).inodes k).pages = (fs.inodes k).pages ∧
      (k ≠ parent → (remove_directory_entry now fs name parent).inodes k = fs.inodes k) := by
  unfold remove_directory_entry
  cases (List.range MAX_FILES).find?
      (fun (i : Nat) => (fs.directory (i : Int)).parent_inode = parent ∧
        (fs.directory (i : Int)).name = name) with
  | none => exact ⟨rfl, rfl, rfl, fun k => ⟨rfl, rfl, rfl, rfl, rfl, fun _ => rfl⟩⟩
  | some i =>
    by_cases hr : 0 ≤ parent ∧ parent < (MAX_FILES : Int)
    · simp only [if_pos hr]
      refine ⟨rfl, rfl, rfl, fun k => ?_⟩
      by_cases hk : k = parent
      · subst hk
        refine ⟨?_, ?_, ?_, ?_, ?_, fun h => absurd rfl h⟩ <;>
          simp only [SuperBlock.setEntry, SuperBlock.setInode, setAt_same]
      · refine ⟨?_, ?_, ?_, ?_, ?_, fun _ => ?_⟩ <;>
          simp only [SuperBlock.setEntry, SuperBlock.setInode, setAt_other _ _ hk]
    · simp only [if_neg hr]
      exact ⟨rfl, rfl, rfl, fun k => ⟨rfl, rfl, rfl, rfl, rfl, fun _ => rfl⟩⟩

/-- The directory table after `remove_directory_entry` has found the name in
slot `i`. -/
theorem remove_directory_entry_directory {now : Int} {fs : SuperBlock} {name : List Nat}
    {parent : Int} {i : Nat}
    (hf : (List.range MAX_FILES).find?
      (fun (i : Nat) => (fs.directory (i : Int)).parent_inode = parent ∧
        (fs.directory (i : Int)).name = name) = some i) :
    (remove_directory_entry now fs name parent).directory =
      setAt fs.directory (i : Int) { name := [], inode_number := -1, parent_inode := -1 } := by
  unfold remove_directory_entry
  rw [hf]
  by_cases hr : 0 ≤ parent ∧ parent < (MAX_FILES : Int)
  · simp only [if_pos hr]; rfl
  · simp only [if_neg hr]; rfl

/-- What `add_directory_entry` leaves alone: the pages, both free lists, and
of every inode all but the size and `mtime` of the parent. -/
theorem add_directory_entry_frame (now : Int) (fs : SuperBlock) (parent : Int)
    (name : List Nat) (target : Int) :
    (add_directory_entry now fs parent name target).page_table = fs.page_table ∧
    (add_directory_entry now fs parent name target).free_page_head = fs.free_page_head ∧
    (add_directory_entry now fs parent name target).free_inode_head = fs.free_inode_head ∧
    ∀ k, ((add_directory_entry now fs parent name target).inodes k).file_type =
        (fs.inodes k).file_type ∧
      ((add_directory_entry now fs parent name target).inodes k).permissions =
        (fs.inodes k).permissions ∧
      ((add_directory_entry now fs parent name target).inodes k).link_count =
        (fs.inodes k).link_count ∧
      ((add_directory_entry now fs parent name target).inodes k).page_count =
        (fs.inodes k).page_count ∧
      ((add_directory_entry now fs parent name target).inodes k).pages = (fs.inodes k).pages ∧
      (k ≠ parent → (add_directory_entry now fs parent name target).inodes k = fs.inodes k) := by
  unfold add_directory_entry
  cases (List.range MAX_FILES).find?
      (fun (i : Nat) => (fs.directory (i : Int)).inode_number = -1) with
  | none => exact ⟨rfl, rfl, rfl, fun k => ⟨rfl, rfl, rfl, rfl, rfl, fun _ => rfl⟩⟩
  | some i =>
    by_cases hr : 0 ≤ parent ∧ parent < (MAX_FILES : Int)
    · simp only [if_pos hr]
      refine ⟨rfl, rfl, rfl, fun k => ?_⟩
      by_cases hk : k = parent
      · subst hk
        refine ⟨?_, ?_, ?_, ?_, ?_, fun h => absurd rfl h⟩ <;>
          simp only [SuperBlock.setEntry, SuperBlock.setInode, setAt_same]
      · refine ⟨?_, ?_, ?_, ?_, ?_, fun _ => ?_⟩ <;>
          simp only [SuperBlock.setEntry, SuperBlock.setInode, setAt_other _ _ hk]
    · simp only [if_neg hr]
      exact ⟨rfl, rfl, rfl, fun k => ⟨rfl, rfl, rfl, rfl, rfl, fun _ => rfl⟩⟩

/-- The directory table after `add_directory_entry` has found the free slot
`j`. -/
theorem add_directory_entry_directory {now : Int} {fs : SuperBlock} {parent : Int}
    {name : List Nat} {target : Int} {j : Nat}
    (hf : (List.range MAX_FILES).find?
      (fun (i : Nat) => (fs.directory (i : Int)).inode_number = -1) = some j) :
    (add_directory_entry now fs parent name target).directory =
      setAt fs.directory (j : Int)
        { name := name.take MAX_FILENAME_LENGTH, inode_number := target,
          parent_inode := parent } := by
  unfold add_directory_entry
  rw [hf]
  by_cases hr : 0 ≤ parent ∧ parent < (MAX_FILES : Int)
  · simp only [if_pos hr]; rfl
  · simp only [if_neg hr]; rfl

/-- With no free slot `add_directory_entry` changes nothing. -/
theorem add_directory_entry_full {now : Int} {fs : SuperBlock} {parent : Int}
    {name : List Nat} {target : Int}
    (hfull : ∀ i : Nat, i < MAX_FILES → (fs.directory (i : Int)).inode_number ≠ -1) :
    add_directory_entry now fs parent name target = fs := by
  unfold add_directory_entry
  have hf : (List.range MAX_FILES).find?
      (fun (i : Nat) => (fs.directory (i : Int)).inode_number = -1) = none := by
    apply List.find?_range_eq_none.mpr
    intro i hi
    simp only [Bool.not_eq_true', decide_eq_false_iff_not]
    exact hfull i hi
  rw [hf]

/-- A directory passes a permission test only if it is a directory. -/
theorem check_directory_permission_dir {fs : SuperBlock} {d : Int} {req : Nat}
    (h : check_directory_permission fs d req ≠ 0) :
    d ≠ -1 ∧ (fs.inodes d).file_type = FILE_TYPE_DIR := by
  unfold check_directory_permission at h
  by_cases h1 : d = -1
  · rw [if_pos h1] at h; exact absurd rfl h
  · rw [if_neg h1] at h
    by_cases h2 : (fs.inodes d).file_type ≠ FILE_TYPE_DIR
    · rw [if_pos h2] at h; exact absurd rfl h
    · exact ⟨h1, not_not.mp h2⟩

/-- A file passes a permission test only if it is a regular file. -/
theorem check_file_permission_regular {fs : SuperBlock} {k : Int} {req : Nat}
    (h : check_file_permission fs k req ≠ 0) :
    k ≠ -1 ∧ (fs.inodes k).file_type = FILE_TYPE_REGULAR := by
  unfold check_file_permission at h
  by_cases h1 : k = -1
  · rw [if_pos h1] at h; exact absurd rfl h
  · rw [if_neg h1] at h
    by_cases h2 : (fs.inodes k).file_type ≠ FILE_TYPE_REGULAR
    · rw [if_pos h2] at h; exact absurd rfl h
    · exact ⟨h1, not_not.mp h2⟩

/-! ### Moving a file into a directory -/

/-- C20: let the source resolve to a readable regular file with inode `k`
that is the entry named `n` (the last component of the source path, shorter
than the name buffer) of the source directory `P`, let the destination resolve
to a directory `D`, let `P` and `D` pass the write test and let `D` have no
entry `n`.  Then `move_file` reports success; afterwards `n` in `D` leads to
`k`, the table has one entry `(P, n)` less than before (none when the name was
unique in `P`), the number of entries with inode number `k` is the same, the
link count, size, page count and pages of inode `k` are the same and no page
has changed. -/
theorem move_file_into_directory (now : Int) (s : State) (source destination : List Nat)
    (hread : check_file_permission s.fs (get_inode_from_path s source) PERM_READ ≠ 0)
    (hD : get_inode_from_path s destination ≠ -1)
    (hdir : (s.fs.inodes (get_inode_from_path s destination)).file_type = FILE_TYPE_DIR)
    (hnamed : find_in_directory s.fs (get_parent_directory_inode s source)
      (extract_last_path_component source) = get_inode_from_path s source)
    (hlen : (extract_last_path_component source).length < MAX_FILENAME_LENGTH)
    (hwP : check_directory_permission s.fs (get_parent_directory_inode s source)
      PERM_WRITE ≠ 0)
    (hwD : check_directory_permission s.fs (get_inode_from_path s destination)
      PERM_WRITE ≠ 0)
    (habsent : find_in_directory s.fs (get_inode_from_path s destination)
      (extract_last_path_component source) = -1) :
    (move_file now s source destination).2 = "File moved successfully" ∧
    find_in_directory (move_file now s source destination).1.fs
        (get_inode_from_path s destination) (extract_last_path_component source) =
      get_inode_from_path s source ∧
    name_count (move_file now s source destination).1.fs
        (get_parent_directory_inode s source) (extract_last_path_component source) + 1 =
      name_count s.fs (get_parent_directory_inode s source)
        (extract_last_path_component source) ∧
    (name_count s.fs (get_parent_directory_inode s source)
        (extract_last_path_component source) = 1 →
      find_in_directory (move_file now s source destination).1.fs
        (get_parent_directory_inode s source) (extract_last_path_component source) = -1) ∧
    ref_count (move_file now s source destination).1.fs (get_inode_from_path s source) =
      ref_count s.fs (get_inode_from_path s source) ∧
    ((move_file now s source destination).1.fs.inodes (get_inode_from_path s source)).link_count =
      (s.fs.inodes (get_inode_from_path s source)).link_count ∧
    ((move_file now s source destination).1.fs.inodes (get_inode_from_path s source)).size =
      (s.fs.inodes (get_inode_from_path s source)).size ∧
    ((move_file now s source destination).1.fs.inodes (get_inode_from_path s source)).page_count =
      (s.fs.inodes (get_inode_from_path s source)).page_count ∧
    ((move_file now s source destination).1.fs.inodes (get_inode_from_path s source)).pages =
      (s.fs.inodes (get_inode_from_path s source)).pages ∧
    (move_file now s source destination).1.fs.page_table = s.fs.page_table := by
  obtain ⟨hk, hreg⟩ := check_file_permission_regular hread
  obtain ⟨hP, hPdir⟩ := check_directory_permission_dir hwP
  have hdp : dest_parent_of s destination = get_inode_from_path s destination := by
    unfold dest_parent_of; rw [if_pos ⟨hD, hdir⟩]
  have hdn : dest_name_of s source destination = extract_last_path_component source := by
    unfold dest_name_of; rw [if_pos ⟨hD, hdir⟩]
  have hmv : move_file now s source destination =
      (s.save (set_mtime now
        (add_directory_entry now
          (remove_directory_entry now s.fs (extract_last_path_component source)
            (get_parent_directory_inode s source))
          (get_inode_from_path s destination) (extract_last_path_component source)
          (get_inode_from_path s source))
        (get_inode_from_path s source)), "File moved successfully") := by
    unfold move_file
    rw [hdp, hdn, if_neg hk, if_neg (not_not.mpr hreg), if_neg hread, if_neg hD, if_neg hP,
      if_neg hwP, if_neg (fun h => hwD h.2), if_neg (not_not.mpr habsent)]
  rw [hmv]
  generalize get_inode_from_path s source = k at *
  generalize get_parent_directory_inode s source = P at *
  generalize get_inode_from_path s destination = D at *
  generalize extract_last_path_component source = n at *
  have hkD : k ≠ D := by
    intro h; rw [h, hdir] at hreg; exact absurd hreg (by decide)
  have hkP : k ≠ P := by
    intro h; rw [h, hPdir] at hreg; exact absurd hreg (by decide)
  have hDP : D ≠ P := by
    intro h; rw [h, hnamed] at habsent; exact hk habsent
  obtain ⟨i0, hi0, hf0, hp0, hn0, hk0, hfirst0⟩ := find_in_directory_first hnamed hk
  have hrd := @remove_directory_entry_directory now s.fs n P i0 hf0
  obtain ⟨hrp, _, _, hri⟩ := remove_directory_entry_frame now s.fs n P
  generalize remove_directory_entry now s.fs n P = fs1 at *
  have hfree0 : (fs1.directory (i0 : Int)).inode_number = -1 := by
    rw [hrd, setAt_same]
  cases hfj : (List.range MAX_FILES).find?
      (fun (i : Nat) => (fs1.directory (i : Int)).inode_number = -1) with
  | none =>
    have := List.find?_range_eq_none.mp hfj i0 hi0
    simp only [Bool.not_eq_true', decide_eq_false_iff_not] at this
    exact absurd hfree0 this
  | some j0 =>
    have hs := List.find?_range_eq_some.mp hfj
    have hj0 : j0 < MAX_FILES := List.mem_range.mp hs.2.1
    have hfreej : (fs1.directory (j0 : Int)).inode_number = -1 := of_decide_eq_true hs.1
    have hbefore : ∀ j : Nat, j < j0 → (fs1.directory (j : Int)).inode_number ≠ -1 := by
      intro j hj
      have := hs.2.2 j hj
      simp only [Bool.not_eq_true', decide_eq_false_iff_not] at this
      exact this
    have hle : j0 ≤ i0 := by
      by_contra hc
      exact hbefore i0 (by omega) hfree0
    have had := @add_directory_entry_directory now fs1 D n k j0 hfj
    obtain ⟨hap, _, _, hai⟩ := add_directory_entry_frame now fs1 D n k
    generalize add_directory_entry now fs1 D n k = fs2 at *
    have htake : n.take MAX_FILENAME_LENGTH = n := List.take_of_length_le (by omega)
    rw [htake] at had
    have hd3 : (set_mtime now fs2 k).directory = fs2.directory := rfl
    have hslotj : fs2.directory (j0 : Int) =
        { name := n, inode_number := k, parent_inode := D } := by
      rw [had, setAt_same]
    -- the slot that is overwritten did not hold the name `n` of `P`
    have hj0P : ¬ ((fs1.directory (j0 : Int)).parent_inode = P ∧
        (fs1.directory (j0 : Int)).name = n) := by
      by_cases hji : j0 = i0
      · subst hji
        rw [hrd, setAt_same]
        intro h; exact hP h.1.symm
      · have hne : (j0 : Int) ≠ (i0 : Int) := by omega
        rw [hrd, setAt_other _ _ hne]
        exact hfirst0 j0 (by omega)
    have hcount : name_count (set_mtime now fs2 k) P n + 1 = name_count s.fs P n := by
      unfold name_count
      rw [hd3, had]
      have c2 := countP_range_setAt fs1.directory
        (fun e => decide (e.parent_inode = P ∧ e.name = n))
        { name := n, inode_number := k, parent_inode := D } MAX_FILES j0 hj0
      have c1 := countP_range_setAt s.fs.directory
        (fun e => decide (e.parent_inode = P ∧ e.name = n))
        { name := [], inode_number := -1, parent_inode := -1 } MAX_FILES i0 hi0
      rw [← hrd] at c1
      simp only [decide_eq_true_eq] at c1 c2
      rw [if_neg hj0P, if_neg (fun h => hDP h.1)] at c2
      rw [if_pos ⟨hp0, hn0⟩, if_neg (fun h => hP h.1.symm)] at c1
      omega
    have hmt : (set_mtime now fs2 k).inodes k = { fs2.inodes k with mtime := now } := by
      simp only [set_mtime, SuperBlock.setInode, setAt_same]
    have hik : fs2.inodes k = s.fs.inodes k := by
      rw [(hai k).2.2.2.2.2 hkD, (hri k).2.2.2.2.2 hkP]
    refine ⟨rfl, ?_, hcount, ?_, ?_, ?_, ?_, ?_, ?_, ?_⟩
    · -- the new entry is the first one named `n` in `D`
      show find_in_directory (set_mtime now fs2 k) D n = k
      have := @find_in_directory_of_first (set_mtime now fs2 k) D n j0
        hj0 (by rw [hd3, hslotj]; exact ⟨rfl, rfl⟩) (by
          intro j hj hm
          rw [hd3, had, setAt_other _ _ (by omega : (j : Int) ≠ (j0 : Int))] at hm
          by_cases hji : j = i0
          · subst hji
            rw [hrd, setAt_same] at hm
            exact hD hm.1.symm
          · have hne : (j : Int) ≠ (i0 : Int) := by omega
            rw [hrd, setAt_other _ _ hne] at hm
            cases hfm : (List.range MAX_FILES).find?
                (fun (i : Nat) => (s.fs.directory (i : Int)).parent_inode = D ∧
                  (s.fs.directory (i : Int)).name = n) with
            | none =>
              have := List.find?_range_eq_none.mp hfm j (by omega)
              simp only [Bool.not_eq_true', decide_eq_false_iff_not] at this
              exact this hm
            | some m =>
              have hsm := List.find?_range_eq_some.mp hfm
              have hmj : m ≤ j := by
                by_contra hc
                have := hsm.2.2 j (by omega)
                simp only [Bool.not_eq_true', decide_eq_false_iff_not] at this
                exact this hm
              have hminus : (s.fs.directory (m : Int)).inode_number = -1 := by
                have := habsent
                unfold find_in_directory at this
                rw [hfm] at this
                exact this
              have hmi : m ≠ i0 := by
                intro h; subst h; rw [hk0] at hminus; exact hk hminus
              have hne' : (m : Int) ≠ (i0 : Int) := by omega
              have : (fs1.directory (m : Int)).inode_number = -1 := by
                rw [hrd, setAt_other _ _ hne']; exact hminus
              exact hbefore m (by omega) this)
      rw [this, hd3, hslotj]
    · intro h1
      show find_in_directory (set_mtime now fs2 k) P n = -1
      exact find_in_directory_of_name_count (by omega)
    · -- as many entries for inode `k` as before
      show ref_count (set_mtime now fs2 k) k = ref_count s.fs k
      unfold ref_count
      rw [hd3, had]
      have c2 := countP_range_setAt fs1.directory
        (fun e => decide (e.inode_number = k))
        { name := n, inode_number := k, parent_inode := D } MAX_FILES j0 hj0
      have c1 := countP_range_setAt s.fs.directory
        (fun e => decide (e.inode_number = k))
        { name := [], inode_number := -1, parent_inode := -1 } MAX_FILES i0 hi0
      rw [← hrd] at c1
      simp only [decide_eq_true_eq] at c1 c2
      rw [if_neg (by rw [hfreej]; exact fun h => hk h.symm), if_pos trivial] at c2
      rw [if_pos hk0, if_neg (fun h => hk h.symm)] at c1
      omega
    · show ((set_mtime now fs2 k).inodes k).link_count = _
      rw [hmt, ← hik]
    · show ((set_mtime now fs2 k).inodes k).size = _
      rw [hmt, ← hik]
    · show ((set_mtime now fs2 k).inodes k).page_count = _
      rw [hmt, ← hik]
    · show ((set_mtime now fs2 k).inodes k).pages = _
      rw [hmt, ← hik]
    · show (set_mtime now fs2 k).page_table = _
      show fs2.page_table = _
      rw [hap, hrp]

/-- C20 at `move_file "/f" "/a"` in the state after `format; mkdir /a;
touch /f`: the file is inode 2, the directory inode 1; afterwards `f` in `/a`
leads to inode 2 and the root has no entry `f`. -/
theorem move_file_into_directory_witness :
    get_inode_from_path file_and_dir_state (cstr "/f") = 2 ∧
      get_inode_from_path file_and_dir_state (cstr "/a") = 1 ∧
      get_parent_directory_inode file_and_dir_state (cstr "/f") = 0 ∧
      name_count file_and_dir_state.fs (get_parent_directory_inode file_and_dir_state (cstr "/f"))
        (extract_last_path_component (cstr "/f")) = 1 ∧
      (move_file 0 file_and_dir_state (cstr "/f") (cstr "/a")).2 = "File moved successfully" ∧
      find_in_directory (move_file 0 file_and_dir_state (cstr "/f") (cstr "/a")).1.fs
          (get_inode_from_path file_and_dir_state (cstr "/a"))
          (extract_last_path_component (cstr "/f")) =
        get_inode_from_path file_and_dir_state (cstr "/f") ∧
      find_in_directory (move_file 0 file_and_dir_state (cstr "/f") (cstr "/a")).1.fs
          (get_parent_directory_inode file_and_dir_state (cstr "/f"))
          (extract_last_path_component (cstr "/f")) = -1 :=
  have h := move_file_into_directory 0 file_and_dir_state (cstr "/f") (cstr "/a")
    (by decide!) (by decide!) (by decide!) (by decide!) (by decide!) (by decide!) (by decide!)
    (by decide!)
  ⟨by decide!, by decide!, by decide!, by decide!, h.1, h.2.1, h.2.2.2.1 (by decide!)⟩
/-! ### The rollback of `copy_file` -/

/-- The head of a free chain is `-1` or its first page. -/
theorem isFreeChain_head_range {fs : SuperBlock} {h : Int} {l : List Int}
    (hc : IsFreeChain fs h l) (hr : ∀ p ∈ l, 0 ≤ p ∧ p < (NUM_PAGES : Int)) :
    -2147483648 ≤ h ∧ h < 2147483648 := by
  cases l with
  | nil =>
    have : h = -1 := hc
    rw [this]; decide
  | cons p l =>
    have hp : h = p := hc.1
    have := hr p (List.mem_cons_self _ _)
    have hN : ((NUM_PAGES : Nat) : Int) = 5000 := rfl
    rw [hp]; omega

/-- Freeing a page that is not on the free chain puts it in front of the chain. -/
theorem isFreeChain_free_page {fs : SuperBlock} {l : List Int} {p : Int}
    (hc : IsFreeChain fs fs.free_page_head l) (hr : ∀ q ∈ l, 0 ≤ q ∧ q < (NUM_PAGES : Int))
    (hp : p ∉ l) (hne : p ≠ -1) :
    IsFreeChain (free_page fs p) (free_page fs p).free_page_head (p :: l) := by
  obtain ⟨h1, h2⟩ := isFreeChain_head_range hc hr
  refine ⟨rfl, hne, ?_⟩
  have hd : (((free_page fs p).page_table p).data) =
      write_int (fs.page_table p).data fs.free_page_head := by
    simp only [free_page, setAt_same]
  rw [hd, read_int_write_int _ _ h1 h2]
  refine isFreeChain_congr l _ (fun q hq => ?_) hc
  have hqp : q ≠ p := fun h => hp (h ▸ hq)
  simp only [free_page, setAt_other _ _ hqp]

/-- The loop that frees the pages of an inode frees the pages listed in its
page array, in order. -/
theorem free_pages_eq_foldl (fs : SuperBlock) (k : Int) :
    free_pages fs k =
      ((List.range (fs.inodes k).page_count.toNat).map (fs.inodes k).pages).foldl free_page fs := by
  unfold free_pages
  have key : ∀ (L : List Nat) (acc : SuperBlock), acc.inodes = fs.inodes →
      L.foldl (fun acc i => free_page acc ((acc.inodes k).pages i)) acc =
        (L.map (fs.inodes k).pages).foldl free_page acc := by
    intro L
    induction L with
    | nil => intro acc _; rfl
    | cons a L ih =>
      intro acc hacc
      rw [List.foldl_cons, List.map_cons, List.foldl_cons, hacc]
      exact ih _ hacc
  exact key _ fs rfl

/-- Freeing, in order, distinct pages that are not on the free chain puts
them in front of the chain in reverse order, marks them unused and leaves
every other page, the inodes, the directory table and the inode free list
alone. -/
theorem foldl_free_page_chain :
    ∀ (all : List Int) (fs : SuperBlock) (old : List Int),
      IsFreeChain fs fs.free_page_head old → all.Nodup → (∀ p ∈ all, p ∉ old) →
      (∀ p ∈ all, 0 ≤ p ∧ p < (NUM_PAGES : Int)) →
      (∀ p ∈ old, 0 ≤ p ∧ p < (NUM_PAGES : Int)) →
      IsFreeChain (all.foldl free_page fs) (all.foldl free_page fs).free_page_head
          (all.reverse ++ old) ∧
        (∀ p ∈ all, ((all.foldl free_page fs).page_table p).is_used = 0) ∧
        (∀ p, p ∉ all → (all.foldl free_page fs).page_table p = fs.page_table p) ∧
        (all.foldl free_page fs).inodes = fs.inodes ∧
        (all.foldl free_page fs).directory = fs.directory ∧
        (all.foldl free_page fs).free_inode_head = fs.free_inode_head
  | [], fs, old, hc, _, _, _, _ =>
    ⟨hc, fun _ h => absurd h (List.not_mem_nil _), fun _ _ => rfl, rfl, rfl, rfl⟩
  | p :: all, fs, old, hc, hnd, hdis, hra, hro => by
    have hpo : p ∉ old := hdis p (List.mem_cons_self _ _)
    have hpr := hra p (List.mem_cons_self _ _)
    have hpa : p ∉ all := (List.nodup_cons.mp hnd).1
    have hc1 := isFreeChain_free_page hc hro hpo (by omega)
    obtain ⟨ih1, ih2, ih3, ih4, ih5, ih6⟩ := foldl_free_page_chain all (free_page fs p) (p :: old)
      hc1 (List.nodup_cons.mp hnd).2
      (fun q hq hqo => by
        rcases List.mem_cons.mp hqo with h | h
        · exact hpa (h ▸ hq)
        · exact hdis q (List.mem_cons_of_mem _ hq) h)
      (fun q hq => hra q (List.mem_cons_of_mem _ hq))
      (fun q hq => by
        rcases List.mem_cons.mp hq with h | h
        · rw [h]; exact hpr
        · exact hro q h)
    rw [List.foldl_cons]
    refine ⟨?_, ?_, ?_, ih4, ih5, ih6⟩
    · rw [List.reverse_cons, List.append_assoc]; exact ih1
    · intro q hq
      rcases List.mem_cons.mp hq with h | h
      · rw [h, ih3 p hpa]
        simp only [free_page, setAt_same]
      · exact ih2 q h
    · intro q hq
      have hqp : q ≠ p := fun h => hq (h ▸ List.mem_cons_self _ _)
      rw [ih3 q (fun h => hq (List.mem_cons_of_mem _ h))]
      simp only [free_page, setAt_other _ _ hqp]

/-- One pass of the loop of `copy_file` that finds a free page: the head of
the free list moves on, the page is recorded at the end of the page array of
the copy, and nothing else changes but the content of that page. -/
theorem copy_page_allocate (fs : SuperBlock) (src new : Int) (i : Nat)
    (hne : fs.free_page_head ≠ -1) :
    (allocate_page fs).2 = fs.free_page_head ∧
    (copy_page (allocate_page fs).1 src new i (allocate_page fs).2).free_page_head =
      read_int (fs.page_table fs.free_page_head).data ∧
    (∀ q, q ≠ fs.free_page_head →
      (copy_page (allocate_page fs).1 src new i (allocate_page fs).2).page_table q =
        fs.page_table q) ∧
    ((copy_page (allocate_page fs).1 src new i (allocate_page fs).2).inodes new).page_count =
      (fs.inodes new).page_count + 1 ∧
    ((copy_page (allocate_page fs).1 src new i (allocate_page fs).2).inodes new).pages =
      (fun j => if j = (fs.inodes new).page_count.toNat then fs.free_page_head
        else (fs.inodes new).pages j) ∧
    (∀ k, k ≠ new →
      (copy_page (allocate_page fs).1 src new i (allocate_page fs).2).inodes k = fs.inodes k) ∧
    (copy_page (allocate_page fs).1 src new i (allocate_page fs).2).directory = fs.directory ∧
    (copy_page (allocate_page fs).1 src new i (allocate_page fs).2).free_inode_head =
      fs.free_inode_head := by
  rw [allocate_page_of_ne hne]
  refine ⟨rfl, rfl, fun q hq => ?_, ?_, ?_, fun k hk => ?_, rfl, rfl⟩
  · simp only [copy_page, SuperBlock.setInode, SuperBlock.setPage, setAt_other _ _ hq]
  · simp only [copy_page, SuperBlock.setInode, SuperBlock.setPage, setAt_same]
  · simp only [copy_page, SuperBlock.setInode, SuperBlock.setPage, setAt_same]
  · simp only [copy_page, SuperBlock.setInode, SuperBlock.setPage, setAt_other _ _ hk]

/-- The loop of `copy_file` when the free chain `rest` is shorter than the
number of passes left: every page of the chain is taken, the next
`allocate_page` fails, and the loop ends with the pages of the copy and its
inode released.  The image `fsK` is the one in which the failure is met: the
free list is empty and the page array of the copy lists the pages taken. -/
theorem copy_loop_exhausted (src new : Int) :
    ∀ (rest : List Int) (n i : Nat) (fs : SuperBlock) (done : List Int),
      rest.length < n →
      IsFreeChain fs fs.free_page_head rest →
      (done ++ rest).Nodup →
      (fs.inodes new).page_count = (done.length : Int) →
      (List.range done.length).map (fs.inodes new).pages = done →
      ∃ fsK : SuperBlock,
        copy_loop src new n i fs = (free_inode (free_pages fsK new) new, false) ∧
        fsK.free_page_head = -1 ∧
        (fsK.inodes new).page_count = ((done ++ rest).length : Int) ∧
        (List.range (done ++ rest).length).map (fsK.inodes new).pages = done ++ rest ∧
        fsK.directory = fs.directory ∧ fsK.free_inode_head = fs.free_inode_head ∧
        (∀ k, k ≠ new → fsK.inodes k = fs.inodes k) ∧
        (∀ p, p ∉ rest → fsK.page_table p = fs.page_table p)
  | [], 0, _, _, _, hn, _, _, _, _ => absurd hn (Nat.not_lt_zero _)
  | [], n + 1, i, fs, done, _, hc, _, hpc, hpg => by
    have hh : fs.free_page_head = -1 := hc
    have ha : (allocate_page fs).2 = -1 := by
      unfold allocate_page; rw [if_pos hh]
    refine ⟨fs, ?_, hh, ?_, ?_, rfl, rfl, fun _ _ => rfl, fun _ _ => rfl⟩
    · simp only [copy_loop, if_pos ha]
    · rw [List.append_nil]; exact hpc
    · rw [List.append_nil]; exact hpg
  | _ :: _, 0, _, _, _, hn, _, _, _, _ => absurd hn (Nat.not_lt_zero _)
  | p :: rest, n + 1, i, fs, done, hn, hc, hnd, hpc, hpg => by
    obtain ⟨hp, hne, hc'⟩ := hc
    have hne' : fs.free_page_head ≠ -1 := by rw [hp]; exact hne
    obtain ⟨a1, a2, a3, a4, a5, a6, a7, a8⟩ := copy_page_allocate fs src new i hne'
    have ha : (allocate_page fs).2 ≠ -1 := by rw [a1]; exact hne'
    have hnd' : ((done ++ [p]) ++ rest).Nodup := by
      rw [List.append_assoc]; exact hnd
    have hprest : p ∉ rest := by
      have := (List.nodup_append.mp hnd).2.1
      exact (List.nodup_cons.mp this).1
    obtain ⟨fsK, k1, k2, k3, k4, k5, k6, k7, k8⟩ := copy_loop_exhausted src new rest n (i + 1)
      (copy_page (allocate_page fs).1 src new i (allocate_page fs).2) (done ++ [p])
      (by simpa using hn)
      (by
        rw [a2, hp]
        refine isFreeChain_congr rest _ (fun q hq => ?_) hc'
        rw [a3 q (by rw [hp]; exact fun h => hprest (h ▸ hq))])
      hnd'
      (by rw [a4, hpc, List.length_append, List.length_singleton]; push_cast; rfl)
      (by
        rw [a5, hpc, Int.toNat_ofNat, List.length_append, List.length_singleton,
          List.range_succ, List.map_append, List.map_singleton, if_pos rfl, hp]
        congr 1
        conv_rhs => rw [← hpg]
        apply List.map_congr_left
        intro j hj
        have : j ≠ done.length := by
          have := List.mem_range.mp hj
          omega
        simp only [if_neg this])
    refine ⟨fsK, ?_, k2, ?_, ?_, ?_, ?_, ?_, ?_⟩
    · simp only [copy_loop, if_neg ha]; exact k1
    · rw [k3, List.append_assoc]; rfl
    · have := k4
      rw [List.append_assoc] at this
      exact this
    · rw [k5, a7]
    · rw [k6, a8]
    · intro k hk; rw [k7 k hk, a6 k hk]
    · intro q hq
      have hqp : q ≠ fs.free_page_head := by
        rw [hp]; exact fun h => hq (h ▸ List.mem_cons_self _ _)
      rw [k8 q (fun h => hq (List.mem_cons_of_mem _ h)), a3 q hqp]

/-- The image in which the loop of `copy_file` starts: the head of the inode
free list has become the inode of the copy, with no page yet, and nothing else
has changed. -/
theorem copy_inode_frame (now : Int) (fs : SuperBlock) (src : Int)
    (hfree : fs.free_inode_head ≠ -1) :
    (allocate_inode now fs).2 = fs.free_inode_head ∧
    (copy_inode now fs src).page_table = fs.page_table ∧
    (copy_inode now fs src).directory = fs.directory ∧
    (copy_inode now fs src).free_page_head = fs.free_page_head ∧
    (copy_inode now fs src).free_inode_head = (fs.inodes fs.free_inode_head).link_count ∧
    ((copy_inode now fs src).inodes fs.free_inode_head).page_count = 0 ∧
    ∀ k, k ≠ fs.free_inode_head → (copy_inode now fs src).inodes k = fs.inodes k := by
  have ha : allocate_inode now fs =
      ({ fs with
          free_inode_head := (fs.inodes fs.free_inode_head).link_count,
          inodes := setAt fs.inodes fs.free_inode_head
            { zero_inode with inode_number := fs.free_inode_head, ctime := now } },
        fs.free_inode_head) := by
    simp only [allocate_inode, if_neg hfree]
  unfold copy_inode
  rw [ha]
  refine ⟨rfl, rfl, rfl, rfl, rfl, ?_, fun k hk => ?_⟩
  · simp only [SuperBlock.setInode, setAt_same]
  · simp only [SuperBlock.setInode, setAt_other _ _ hk]

/-- The rollback of `copy_file` on an image whose page free list holds no
page of the source.  Let the call pass its checks and find a
free inode other than the source, and let the page free list be the chain `l`
of distinct pages of the table, none of them a page of the source, with fewer
pages than the source has.  Then `allocate_page` fails part-way and the call
reports "No free pages available"; afterwards the directory table is the one
before the call (so the destination name is still absent), the inode free list
is the one before the call (same head, same successor, no other inode
changed, the source inode among them), the page free list is the chain of the
same pages in reverse order, each with `is_used = 0`, and every page that was
not on the free list, so every page of the source, is unchanged. -/
theorem copy_file_rollback (now : Int) (s : State) (source destination : List Nat)
    (l : List Int)
    (hread : check_file_permission s.fs (get_inode_from_path s source) PERM_READ ≠ 0)
    (hperm : check_directory_permission s.fs (dest_parent_of s destination)
      (PERM_READ ||| PERM_WRITE) ≠ 0)
    (habsent : find_in_directory s.fs (dest_parent_of s destination)
      (dest_name_of s source destination) = -1)
    (hfree : s.fs.free_inode_head ≠ -1)
    (hnew : s.fs.free_inode_head ≠ get_inode_from_path s source)
    (hchain : IsFreeChain s.fs s.fs.free_page_head l)
    (hnodup : l.Nodup)
    (hrange : ∀ p ∈ l, 0 ≤ p ∧ p < (NUM_PAGES : Int))
    (hshort : (l.length : Int) < (s.fs.inodes (get_inode_from_path s source)).page_count)
    (hsrc : ∀ i : Nat, (i : Int) < (s.fs.inodes (get_inode_from_path s source)).page_count →
      (s.fs.inodes (get_inode_from_path s source)).pages i ∉ l) :
    (copy_file now s source destination).2 = "No free pages available" ∧
    (copy_file now s source destination).1.fs.directory = s.fs.directory ∧
    find_in_directory (copy_file now s source destination).1.fs (dest_parent_of s destination)
      (dest_name_of s source destination) = -1 ∧
    (copy_file now s source destination).1.fs.free_inode_head = s.fs.free_inode_head ∧
    ((copy_file now s source destination).1.fs.inodes s.fs.free_inode_head).link_count =
      (s.fs.inodes s.fs.free_inode_head).link_count ∧
    (∀ k, k ≠ s.fs.free_inode_head →
      (copy_file now s source destination).1.fs.inodes k = s.fs.inodes k) ∧
    IsFreeChain (copy_file now s source destination).1.fs
      (copy_file now s source destination).1.fs.free_page_head l.reverse ∧
    (∀ p ∈ l, ((copy_file now s source destination).1.fs.page_table p).is_used = 0) ∧
    (∀ p, p ∉ l → (copy_file now s source destination).1.fs.page_table p = s.fs.page_table p) ∧
    (copy_file now s source destination).1.fs.inodes (get_inode_from_path s source) =
      s.fs.inodes (get_inode_from_path s source) ∧
    (∀ i : Nat, (i : Int) < (s.fs.inodes (get_inode_from_path s source)).page_count →
      (copy_file now s source destination).1.fs.page_table
          ((s.fs.inodes (get_inode_from_path s source)).pages i) =
        s.fs.page_table ((s.fs.inodes (get_inode_from_path s source)).pages i)) := by
  obtain ⟨hk, hreg⟩ := check_file_permission_regular hread
  obtain ⟨hdp, _⟩ := check_directory_permission_dir hperm
  obtain ⟨i1, i2, i3, i4, i5, i6, i7⟩ :=
    copy_inode_frame now s.fs (get_inode_from_path s source) hfree
  have hsn : get_inode_from_path s source ≠ s.fs.free_inode_head := fun h => hnew h.symm
  -- the loop runs out of pages
  obtain ⟨fsK, k1, k2, k3, k4, k5, k6, k7, k8⟩ :=
    copy_loop_exhausted (get_inode_from_path s source) s.fs.free_inode_head l
      ((copy_inode now s.fs (get_inode_from_path s source)).inodes
        (get_inode_from_path s source)).page_count.toNat 0
      (copy_inode now s.fs (get_inode_from_path s source)) []
      (by rw [i7 _ hsn]; omega)
      (by rw [i4]; exact isFreeChain_congr l _ (fun q _ => by rw [i2]) hchain)
      (by rw [List.nil_append]; exact hnodup)
      (by rw [i6]; rfl)
      rfl
  rw [List.nil_append] at k3 k4
  have hcp : copy_pages now s.fs (get_inode_from_path s source) =
      (free_inode (free_pages fsK s.fs.free_inode_head) s.fs.free_inode_head, false) := by
    unfold copy_pages
    rw [i1]; exact k1
  -- the pages taken are released in the order in which they were taken
  have hfp : free_pages fsK s.fs.free_inode_head = l.foldl free_page fsK := by
    rw [free_pages_eq_foldl, k3, Int.toNat_ofNat, k4]
  obtain ⟨f1, f2, f3, f4, f5, f6⟩ := foldl_free_page_chain l fsK []
    (by rw [k2]; rfl) hnodup (fun _ _ h => absurd h (List.not_mem_nil _)) hrange
    (fun _ h => absurd h (List.not_mem_nil _))
  rw [List.append_nil, ← hfp] at f1
  rw [← hfp] at f2 f3 f4 f5 f6
  have hcf : copy_file now s source destination =
      (s.save (free_inode (free_pages fsK s.fs.free_inode_head) s.fs.free_inode_head),
        "No free pages available") := by
    unfold copy_file
    rw [if_neg hk, if_neg (not_not.mpr hreg), if_neg hread, if_neg hdp, if_neg hperm,
      if_neg (not_not.mpr habsent), if_neg (by rw [i1]; exact hfree), hcp,
      if_neg Bool.false_ne_true]
  rw [hcf]
  have hpt : ∀ p, p ∉ l →
      (free_inode (free_pages fsK s.fs.free_inode_head) s.fs.free_inode_head).page_table p =
        s.fs.page_table p := by
    intro p hp
    show (free_pages fsK s.fs.free_inode_head).page_table p = _
    rw [f3 p hp, k8 p hp, i2]
  have hin : ∀ k, k ≠ s.fs.free_inode_head →
      (free_inode (free_pages fsK s.fs.free_inode_head) s.fs.free_inode_head).inodes k =
        s.fs.inodes k := by
    intro k hkn
    simp only [free_inode, setAt_other _ _ hkn]
    rw [f4, k7 k hkn, i7 k hkn]
  have hdir : (free_inode (free_pages fsK s.fs.free_inode_head) s.fs.free_inode_head).directory =
      s.fs.directory := by
    show (free_pages fsK s.fs.free_inode_head).directory = _
    rw [f5, k5, i3]
  have hch : IsFreeChain
      (free_inode (free_pages fsK s.fs.free_inode_head) s.fs.free_inode_head)
      (free_inode (free_pages fsK s.fs.free_inode_head) s.fs.free_inode_head).free_page_head
      l.reverse :=
    @isFreeChain_congr (free_pages fsK s.fs.free_inode_head)
      (free_inode (free_pages fsK s.fs.free_inode_head) s.fs.free_inode_head) l.reverse _
      (fun _ _ => rfl) f1
  refine ⟨rfl, hdir, ?_, rfl, ?_, hin, hch, f2, hpt, hin _ hsn, fun i hi => hpt _ (hsrc i hi)⟩
  · rw [← habsent]
    exact find_in_directory_congr hdir _ _
  · show ((free_inode (free_pages fsK s.fs.free_inode_head) s.fs.free_inode_head).inodes
      s.fs.free_inode_head).link_count = _
    simp only [free_inode, setAt_same]
    rw [f6, k6, i5]

/-- The rollback at `copy_file "/f" "/g"` in `last_free_page_state`: the file has two
pages and the free list one, so the second `allocate_page` fails; afterwards
`/g` is absent, inode 2 is again the head of the inode free list and page 4999
is again the free list, unused. -/
theorem copy_file_rollback_witness :
    get_inode_from_path last_free_page_state (cstr "/f") = 1 ∧
      (last_free_page_state.fs.inodes 1).page_count = 2 ∧
      last_free_page_state.fs.free_inode_head = 2 ∧
      (copy_file 0 last_free_page_state (cstr "/f") (cstr "/g")).2 = "No free pages available" ∧
      find_in_directory (copy_file 0 last_free_page_state (cstr "/f") (cstr "/g")).1.fs
        (dest_parent_of last_free_page_state (cstr "/g"))
        (dest_name_of last_free_page_state (cstr "/f") (cstr "/g")) = -1 ∧
      (copy_file 0 last_free_page_state (cstr "/f") (cstr "/g")).1.fs.free_inode_head =
        last_free_page_state.fs.free_inode_head ∧
      IsFreeChain (copy_file 0 last_free_page_state (cstr "/f") (cstr "/g")).1.fs
        (copy_file 0 last_free_page_state (cstr "/f") (cstr "/g")).1.fs.free_page_head
        [4999] ∧
      ((copy_file 0 last_free_page_state (cstr "/f") (cstr "/g")).1.fs.page_table 4999).is_used =
        0 ∧
      (copy_file 0 last_free_page_state (cstr "/f") (cstr "/g")).1.fs.inodes
          (get_inode_from_path last_free_page_state (cstr "/f")) =
        last_free_page_state.fs.inodes (get_inode_from_path last_free_page_state (cstr "/f")) :=
  have hpc : (last_free_page_state.fs.inodes
      (get_inode_from_path last_free_page_state (cstr "/f"))).page_count = 2 := by decide!
  have h := copy_file_rollback 0 last_free_page_state (cstr "/f") (cstr "/g") [4999]
    (by decide!) (by decide!) (by decide!) (by decide!) (by decide!)
    ⟨by decide!, by decide, (by decide! : read_int (last_free_page_state.fs.page_table 4999).data = -1)⟩
    (by decide)
    (fun p hp => by rw [List.mem_singleton.mp hp]; decide)
    (by rw [hpc]; decide)
    (fun i hi => by
      rw [hpc] at hi
      have hi' : i = 0 ∨ i = 1 := by omega
      rcases hi' with h0 | h1
      · rw [h0]; decide!
      · rw [h1]; decide!)
  ⟨by decide!, by decide!, by decide!, h.1, h.2.2.1, h.2.2.2.1, h.2.2.2.2.2.2.1,
    h.2.2.2.2.2.2.2.1 4999 (List.mem_singleton_self _), h.2.2.2.2.2.2.2.2.2.1⟩
/-! ### The upward walk of `move_directory` -/

/-- The walk of `move_directory` stops with a refusal when the source, which
is not inode 0, is reached from the start in `k` steps through the `".."`
entries without meeting inode 0, and more than `k` passes are allowed. -/
theorem cycle_walk_meets_source (fs : SuperBlock) (src : Int) (hsrc : src ≠ 0) :
    ∀ (k : Nat) (t : Int) (fuel : Nat), k < fuel →
      (fun d => find_in_directory fs d DOTDOT)^[k] t = src →
      (∀ j, j < k → (fun d => find_in_directory fs d DOTDOT)^[j] t ≠ 0) →
      cycle_walk fs src fuel t = some true
  | _, _, 0, hk, _, _ => absurd hk (Nat.not_lt_zero _)
  | 0, t, fuel + 1, _, hr, _ => by
    have ht : t = src := hr
    simp only [cycle_walk, if_neg (ht ▸ hsrc), if_pos ht]
  | k + 1, t, fuel + 1, hk, hr, hnz => by
    have ht0 : t ≠ 0 := hnz 0 (Nat.succ_pos _)
    by_cases hts : t = src
    · simp only [cycle_walk, if_neg ht0, if_pos hts]
    · simp only [cycle_walk, if_neg ht0, if_neg hts]
      exact cycle_walk_meets_source fs src hsrc k _ fuel (by omega)
        (by rw [← Function.iterate_succ_apply]; exact hr)
        (fun j hj => by
          rw [← Function.iterate_succ_apply]
          exact hnz (j + 1) (by omega))

/-- The refusal of `move_directory` (first part of C18): when the source
resolves to an inode other than the root and the parent directory of the
destination is that inode, or leads to it through `".."` entries in `k` steps
without meeting inode 0, then with more than `k` passes allowed the call
returns and leaves the state as it was. -/
theorem move_directory_into_subtree (fuel k : Nat) (now : Int) (s : State)
    (source destination : List Nat)
    (hS : get_inode_from_path s source ≠ 0) (hk : k < fuel)
    (hreach : (fun d => find_in_directory s.fs d DOTDOT)^[k]
      (get_parent_directory_inode s destination) = get_inode_from_path s source)
    (hnz : ∀ j, j < k → (fun d => find_in_directory s.fs d DOTDOT)^[j]
      (get_parent_directory_inode s destination) ≠ 0) :
    (move_directory fuel now s source destination).map Prod.fst = some s := by
  unfold move_directory
  split_ifs
  · rfl
  · rfl
  · rfl
  · rfl
  · rfl
  · rfl
  · rw [cycle_walk_meets_source s.fs _ hS k _ fuel hk hreach hnz]
    rfl

/-- The refusal at `move_directory "/a" "/a/b/x"` after `format; mkdir /a;
mkdir /a/b; mkdir /c`: the parent `/a/b` of the destination leads to `/a` in
one step. -/
theorem move_directory_into_subtree_witness :
    get_inode_from_path three_dirs_state (cstr "/a") = 1 ∧
      get_parent_directory_inode three_dirs_state (cstr "/a/b/x") = 2 ∧
      (move_directory MAX_FILES 0 three_dirs_state (cstr "/a") (cstr "/a/b/x")).map Prod.snd =
        some "Cannot move a directory to its subdirectory" ∧
      (move_directory MAX_FILES 0 three_dirs_state (cstr "/a") (cstr "/a/b/x")).map Prod.fst =
        some three_dirs_state :=
  ⟨by decide!, by decide!, by decide!,
    move_directory_into_subtree MAX_FILES 1 0 three_dirs_state (cstr "/a") (cstr "/a/b/x")
      (by decide!) (by decide) (by decide!)
      (fun j hj => by
        have : j = 0 := by omega
        rw [this]; decide!)⟩
/-! ### A successful `copy_file` -/

/-- One pass of the loop of `copy_file` that finds a free page: what the new
page holds afterwards. -/
theorem copy_page_data (fs : SuperBlock) (src new : Int) (i : Nat)
    (hne : fs.free_page_head ≠ -1) :
    ((copy_page (allocate_page fs).1 src new i (allocate_page fs).2).page_table
        fs.free_page_head).is_used = 1 ∧
    ∀ b, b < PAGE_SIZE →
      ((copy_page (allocate_page fs).1 src new i (allocate_page fs).2).page_table
          fs.free_page_head).data b =
        (fs.page_table ((fs.inodes src).pages i)).data b := by
  rw [allocate_page_of_ne hne]
  constructor
  · simp only [copy_page, SuperBlock.setInode, SuperBlock.setPage, setAt_same]
  · intro b hb
    simp only [copy_page, SuperBlock.setInode, SuperBlock.setPage, setAt_same, if_pos hb]
    by_cases hq : (fs.inodes src).pages i = fs.free_page_head
    · rw [hq, setAt_same]
    · rw [setAt_other _ _ hq]

/-- The loop of `copy_file` on a free list that starts with the `n` distinct
pages `ps`, none of them one of the pages `i`, ..., `i + n - 1` of the source,
when the copy is another inode and has `i` pages: every allocation succeeds;
the copy gets the pages `ps` at the indices `i`, ..., `i + n - 1` and each of
them holds the `PAGE_SIZE` bytes of the source page of the same index; pages
outside `ps`, the other inodes, the directory table and the inode free list
are kept. -/
theorem copy_loop_success (src new : Int) (hsn : src ≠ new) :
    ∀ (n i : Nat) (fs : SuperBlock) (ps : List Int),
      first_free_pages fs n fs.free_page_head = some ps → ps.Nodup →
      (∀ j, i ≤ j → j < i + n → (fs.inodes src).pages j ∉ ps) →
      (fs.inodes new).page_count = (i : Int) →
      (copy_loop src new n i fs).2 = true ∧
      ((copy_loop src new n i fs).1.inodes new).page_count = ((i + n : Nat) : Int) ∧
      (∀ j, j < n → ((copy_loop src new n i fs).1.inodes new).pages (i + j) ∈ ps) ∧
      (∀ q, q ∉ ps → (copy_loop src new n i fs).1.page_table q = fs.page_table q) ∧
      (∀ j, j < n → ∀ b, b < PAGE_SIZE →
        ((copy_loop src new n i fs).1.page_table
            (((copy_loop src new n i fs).1.inodes new).pages (i + j))).data b =
          (fs.page_table ((fs.inodes src).pages (i + j))).data b) ∧
      (∀ j, j < i → ((copy_loop src new n i fs).1.inodes new).pages j =
        (fs.inodes new).pages j) ∧
      (∀ k, k ≠ new → (copy_loop src new n i fs).1.inodes k = fs.inodes k) ∧
      ((copy_loop src new n i fs).1.inodes new).file_type = (fs.inodes new).file_type ∧
      ((copy_loop src new n i fs).1.inodes new).permissions = (fs.inodes new).permissions ∧
      ((copy_loop src new n i fs).1.inodes new).size = (fs.inodes new).size ∧
      (copy_loop src new n i fs).1.directory = fs.directory ∧
      (copy_loop src new n i fs).1.free_inode_head = fs.free_inode_head
  | 0, i, fs, ps, _, _, _, hpc => by
    refine ⟨rfl, by simpa [copy_loop] using hpc, fun j hj => absurd hj (Nat.not_lt_zero _),
      fun _ _ => rfl, fun j hj => absurd hj (Nat.not_lt_zero _), fun _ _ => rfl,
      fun _ _ => rfl, rfl, rfl, rfl, rfl, rfl⟩
  | n + 1, i, fs, ps, hf, hnd, hsrc, hpc => by
    obtain ⟨hne, l, hps, hl⟩ := first_free_pages_succ hf
    subst hps
    have hpl : fs.free_page_head ∉ l := (List.nodup_cons.1 hnd).1
    obtain ⟨a1, a2, a3, a4, a5, a6, a7, a8⟩ := copy_page_allocate fs src new i hne
    obtain ⟨d1, d2⟩ := copy_page_data fs src new i hne
    have hstep : copy_loop src new (n + 1) i fs =
        copy_loop src new n (i + 1)
          (copy_page (allocate_page fs).1 src new i (allocate_page fs).2) := by
      rw [copy_loop, if_neg (by rw [a1]; exact hne)]
    have hfields : ((copy_page (allocate_page fs).1 src new i (allocate_page fs).2).inodes
          new).file_type = (fs.inodes new).file_type ∧
        ((copy_page (allocate_page fs).1 src new i (allocate_page fs).2).inodes
          new).permissions = (fs.inodes new).permissions ∧
        ((copy_page (allocate_page fs).1 src new i (allocate_page fs).2).inodes
          new).size = (fs.inodes new).size := by
      rw [allocate_page_of_ne hne]
      refine ⟨?_, ?_, ?_⟩ <;> simp only [copy_page, SuperBlock.setInode, SuperBlock.setPage, setAt_same]
    generalize copy_page (allocate_page fs).1 src new i (allocate_page fs).2 = fsB at *
    have hpgB : ∀ j, (fsB.inodes new).pages j =
        if j = i then fs.free_page_head else (fs.inodes new).pages j := by
      intro j
      rw [a5, hpc, Int.toNat_ofNat]
    have hl' : first_free_pages fsB n fsB.free_page_head = some l := by
      rw [a2]
      exact first_free_pages_congr n _ l
        (fun q hq => by rw [a3 q (fun e => hpl (e ▸ hq))]) hl
    obtain ⟨ih1, ih2, ih3, ih4, ih5, ih6, ih7, ih8, ih9, ih10, ih11, ih12⟩ :=
      copy_loop_success src new hsn n (i + 1) fsB l hl' (List.nodup_cons.1 hnd).2
        (fun j hj1 hj2 hm => by
          rw [a6 src hsn] at hm
          exact hsrc j (by omega) (by omega) (List.mem_cons_of_mem _ hm))
        (by rw [a4, hpc]; push_cast; rfl)
    rw [hstep]
    have hpi : ((copy_loop src new n (i + 1) fsB).1.inodes new).pages i = fs.free_page_head := by
      rw [ih6 i (by omega), hpgB i, if_pos rfl]
    refine ⟨ih1, ?_, ?_, ?_, ?_, ?_, ?_, ?_, ?_, ?_, ?_, ?_⟩
    · rw [ih2]; congr 1; omega
    · intro j hj
      cases j with
      | zero =>
        show ((copy_loop src new n (i + 1) fsB).1.inodes new).pages i ∈ _
        rw [hpi]; exact List.mem_cons_self _ _
      | succ j =>
        have := ih3 j (by omega)
        rw [show i + (j + 1) = i + 1 + j by omega]
        exact List.mem_cons_of_mem _ this
    · intro q hq
      rw [List.mem_cons, not_or] at hq
      rw [ih4 q hq.2, a3 q hq.1]
    · intro j hj b hb
      cases j with
      | zero =>
        show ((copy_loop src new n (i + 1) fsB).1.page_table
          (((copy_loop src new n (i + 1) fsB).1.inodes new).pages i)).data b =
            (fs.page_table ((fs.inodes src).pages i)).data b
        rw [hpi, ih4 _ hpl, d2 b hb]
      | succ j =>
        rw [show i + (j + 1) = i + 1 + j by omega, ih5 j (by omega) b hb, a6 src hsn]
        have hnp : (fs.inodes src).pages (i + 1 + j) ≠ fs.free_page_head := by
          intro e
          exact hsrc (i + 1 + j) (by omega) (by omega) (e ▸ List.mem_cons_self _ _)
        rw [a3 _ hnp]
    · intro j hj
      rw [ih6 j (by omega), hpgB j, if_neg (by omega)]
    · intro k hk; rw [ih7 k hk, a6 k hk]
    · rw [ih8, hfields.1]
    · rw [ih9, hfields.2.1]
    · rw [ih10, hfields.2.2]
    · rw [ih11, a7]
    · rw [ih12, a8]

/-- When a slot is free and the name is absent, the entry added by
`add_directory_entry` is the one that a lookup of the name finds. -/
theorem find_in_directory_add (now : Int) (fs : SuperBlock) (parent target : Int)
    (name : List Nat)
    (hslot : ∃ j : Nat, j < MAX_FILES ∧ (fs.directory (j : Int)).inode_number = -1)
    (habsent : find_in_directory fs parent name = -1)
    (hlen : name.length ≤ MAX_FILENAME_LENGTH) :
    find_in_directory (add_directory_entry now fs parent name target) parent name = target := by
  obtain ⟨j1, hj1, hfree1⟩ := hslot
  cases hfj : (List.range MAX_FILES).find?
      (fun (i : Nat) => (fs.directory (i : Int)).inode_number = -1) with
  | none =>
    have := List.find?_range_eq_none.mp hfj j1 hj1
    simp only [Bool.not_eq_true', decide_eq_false_iff_not] at this
    exact absurd hfree1 this
  | some j0 =>
    have hs := List.find?_range_eq_some.mp hfj
    have hj0 : j0 < MAX_FILES := List.mem_range.mp hs.2.1
    have hbefore : ∀ j : Nat, j < j0 → (fs.directory (j : Int)).inode_number ≠ -1 := by
      intro j hj
      have := hs.2.2 j hj
      simp only [Bool.not_eq_true', decide_eq_false_iff_not] at this
      exact this
    have had := @add_directory_entry_directory now fs parent name target j0 hfj
    rw [List.take_of_length_le hlen] at had
    have hslotj : (add_directory_entry now fs parent name target).directory (j0 : Int) =
        { name := name, inode_number := target, parent_inode := parent } := by
      rw [had, setAt_same]
    have := @find_in_directory_of_first (add_directory_entry now fs parent name target)
      parent name j0 hj0 (by rw [hslotj]; exact ⟨rfl, rfl⟩) (by
        intro j hj hm
        rw [had, setAt_other _ _ (by omega : (j : Int) ≠ (j0 : Int))] at hm
        cases hfm : (List.range MAX_FILES).find?
            (fun (i : Nat) => (fs.directory (i : Int)).parent_inode = parent ∧
              (fs.directory (i : Int)).name = name) with
        | none =>
          have := List.find?_range_eq_none.mp hfm j (by omega)
          simp only [Bool.not_eq_true', decide_eq_false_iff_not] at this
          exact this hm
        | some m =>
          have hsm := List.find?_range_eq_some.mp hfm
          have hmj : m ≤ j := by
            by_contra hc
            have := hsm.2.2 j (by omega)
            simp only [Bool.not_eq_true', decide_eq_false_iff_not] at this
            exact this hm
          have hminus : (fs.directory (m : Int)).inode_number = -1 := by
            have := habsent
            unfold find_in_directory at this
            rw [hfm] at this
            exact this
          exact hbefore m (by omega) hminus)
    rw [this, hslotj]

/-- The fields that `copy_file` gives the inode of the copy before its loop. -/
theorem copy_inode_fields (now : Int) (fs : SuperBlock) (src : Int)
    (hfree : fs.free_inode_head ≠ -1) (hsn : src ≠ fs.free_inode_head) :
    ((copy_inode now fs src).inodes fs.free_inode_head).file_type = FILE_TYPE_REGULAR ∧
    ((copy_inode now fs src).inodes fs.free_inode_head).permissions =
      (fs.inodes src).permissions ∧
    ((copy_inode now fs src).inodes fs.free_inode_head).size = (fs.inodes src).size := by
  have ha : allocate_inode now fs =
      ({ fs with
          free_inode_head := (fs.inodes fs.free_inode_head).link_count,
          inodes := setAt fs.inodes fs.free_inode_head
            { zero_inode with inode_number := fs.free_inode_head, ctime := now } },
        fs.free_inode_head) := by
    simp only [allocate_inode, if_neg hfree]
  unfold copy_inode
  rw [ha]
  refine ⟨?_, ?_, ?_⟩ <;>
    simp only [SuperBlock.setInode, setAt_same, setAt_other _ _ hsn]

/-- The postcondition of C11 on a consistent image with room in the
directory table.  Let `copy_file` pass its checks; let the head of the inode
free list be neither the source nor the destination directory; let the page
free list start with as many distinct pages `ps` as the source has, none of
them a page of the source; let a directory slot be free and the destination
name fit the name buffer.  Then the call reports success; the destination
name in the destination directory leads to the new inode, a regular file with
the size, page count and permission bits of the source; no page of the copy is
a page of the source; page `i` of the copy holds the `PAGE_SIZE` bytes of page
`i` of the source; the source inode and its pages are unchanged. -/
theorem copy_file_success (now : Int) (s : State) (source destination : List Nat)
    (ps : List Int)
    (hread : check_file_permission s.fs (get_inode_from_path s source) PERM_READ ≠ 0)
    (hperm : check_directory_permission s.fs (dest_parent_of s destination)
      (PERM_READ ||| PERM_WRITE) ≠ 0)
    (habsent : find_in_directory s.fs (dest_parent_of s destination)
      (dest_name_of s source destination) = -1)
    (hlen : (dest_name_of s source destination).length < MAX_FILENAME_LENGTH)
    (hslot : ∃ j : Nat, j < MAX_FILES ∧ (s.fs.directory (j : Int)).inode_number = -1)
    (hfree : s.fs.free_inode_head ≠ -1)
    (hnew : s.fs.free_inode_head ≠ get_inode_from_path s source)
    (hnp : s.fs.free_inode_head ≠ dest_parent_of s destination)
    (hpc : 0 ≤ (s.fs.inodes (get_inode_from_path s source)).page_count)
    (hps : first_free_pages s.fs (s.fs.inodes (get_inode_from_path s source)).page_count.toNat
      s.fs.free_page_head = some ps)
    (hnd : ps.Nodup)
    (hsrc : ∀ j, j < (s.fs.inodes (get_inode_from_path s source)).page_count.toNat →
      (s.fs.inodes (get_inode_from_path s source)).pages j ∉ ps) :
    (copy_file now s source destination).2 = "File copied successfully" ∧
    find_in_directory (copy_file now s source destination).1.fs (dest_parent_of s destination)
      (dest_name_of s source destination) = s.fs.free_inode_head ∧
    ((copy_file now s source destination).1.fs.inodes s.fs.free_inode_head).file_type =
      FILE_TYPE_REGULAR ∧
    ((copy_file now s source destination).1.fs.inodes s.fs.free_inode_head).size =
      (s.fs.inodes (get_inode_from_path s source)).size ∧
    ((copy_file now s source destination).1.fs.inodes s.fs.free_inode_head).page_count =
      (s.fs.inodes (get_inode_from_path s source)).page_count ∧
    ((copy_file now s source destination).1.fs.inodes s.fs.free_inode_head).permissions =
      (s.fs.inodes (get_inode_from_path s source)).permissions ∧
    (∀ i j, i < (s.fs.inodes (get_inode_from_path s source)).page_count.toNat →
      j < (s.fs.inodes (get_inode_from_path s source)).page_count.toNat →
      ((copy_file now s source destination).1.fs.inodes s.fs.free_inode_head).pages i ≠
        (s.fs.inodes (get_inode_from_path s source)).pages j) ∧
    (∀ i, i < (s.fs.inodes (get_inode_from_path s source)).page_count.toNat →
      ∀ b, b < PAGE_SIZE →
        ((copy_file now s source destination).1.fs.page_table
          (((copy_file now s source destination).1.fs.inodes s.fs.free_inode_head).pages i)).data
            b =
          (s.fs.page_table ((s.fs.inodes (get_inode_from_path s source)).pages i)).data b) ∧
    (copy_file now s source destination).1.fs.inodes (get_inode_from_path s source) =
      s.fs.inodes (get_inode_from_path s source) ∧
    (∀ i, i < (s.fs.inodes (get_inode_from_path s source)).page_count.toNat →
      (copy_file now s source destination).1.fs.page_table
          ((s.fs.inodes (get_inode_from_path s source)).pages i) =
        s.fs.page_table ((s.fs.inodes (get_inode_from_path s source)).pages i)) := by
  obtain ⟨hk, hreg⟩ := check_file_permission_regular hread
  obtain ⟨hdp, hddir⟩ := check_directory_permission_dir hperm
  obtain ⟨i1, i2, i3, i4, i5, i6, i7⟩ :=
    copy_inode_frame now s.fs (get_inode_from_path s source) hfree
  have hsn : get_inode_from_path s source ≠ s.fs.free_inode_head := fun h => hnew h.symm
  obtain ⟨g1, g2, g3⟩ := copy_inode_fields now s.fs (get_inode_from_path s source) hfree hsn
  have hsd : get_inode_from_path s source ≠ dest_parent_of s destination := by
    intro h; rw [← h, hreg] at hddir; exact absurd hddir (by decide)
  have hn : ((copy_inode now s.fs (get_inode_from_path s source)).inodes
      (get_inode_from_path s source)).page_count.toNat =
        (s.fs.inodes (get_inode_from_path s source)).page_count.toNat := by
    rw [i7 _ hsn]
  obtain ⟨l1, l2, l3, l4, l5, _, l7, l8, l9, l10, l11, _⟩ :=
    copy_loop_success (get_inode_from_path s source) s.fs.free_inode_head hsn
      (s.fs.inodes (get_inode_from_path s source)).page_count.toNat 0
      (copy_inode now s.fs (get_inode_from_path s source)) ps
      (by
        rw [i4]
        exact first_free_pages_congr _ _ ps (fun q _ => by rw [i2]) hps)
      hnd
      (fun j _ hj => by rw [i7 _ hsn]; exact hsrc j (by omega))
      (by rw [i6]; rfl)
  have hcp : copy_pages now s.fs (get_inode_from_path s source) =
      copy_loop (get_inode_from_path s source) s.fs.free_inode_head
        (s.fs.inodes (get_inode_from_path s source)).page_count.toNat 0
        (copy_inode now s.fs (get_inode_from_path s source)) := by
    unfold copy_pages
    rw [i1, hn]
  generalize copy_loop (get_inode_from_path s source) s.fs.free_inode_head
    (s.fs.inodes (get_inode_from_path s source)).page_count.toNat 0
    (copy_inode now s.fs (get_inode_from_path s source)) = r at *
  have hcf : copy_file now s source destination =
      (s.save (add_directory_entry now r.1 (dest_parent_of s destination)
        (dest_name_of s source destination) s.fs.free_inode_head),
        "File copied successfully") := by
    unfold copy_file
    rw [if_neg hk, if_neg (not_not.mpr hreg), if_neg hread, if_neg hdp, if_neg hperm,
      if_neg (not_not.mpr habsent), if_neg (by rw [i1]; exact hfree), hcp, if_pos l1, i1]
  rw [hcf]
  obtain ⟨ap, _, _, ai⟩ := add_directory_entry_frame now r.1 (dest_parent_of s destination)
    (dest_name_of s source destination) s.fs.free_inode_head
  have hdirr : r.1.directory = s.fs.directory := by rw [l11, i3]
  have hfind := find_in_directory_add now r.1 (dest_parent_of s destination)
    s.fs.free_inode_head (dest_name_of s source destination)
    (by rw [hdirr]; exact hslot)
    (by rw [find_in_directory_congr hdirr]; exact habsent) (by omega)
  generalize add_directory_entry now r.1 (dest_parent_of s destination)
    (dest_name_of s source destination) s.fs.free_inode_head = fsF at *
  have hnewF : fsF.inodes s.fs.free_inode_head = r.1.inodes s.fs.free_inode_head :=
    (ai _).2.2.2.2.2 hnp
  have hsrcF : fsF.inodes (get_inode_from_path s source) =
      s.fs.inodes (get_inode_from_path s source) := by
    rw [(ai _).2.2.2.2.2 hsd, l7 _ hsn, i7 _ hsn]
  have hpgs : ∀ i, i < (s.fs.inodes (get_inode_from_path s source)).page_count.toNat →
      (r.1.inodes s.fs.free_inode_head).pages i ∈ ps := by
    intro i hi
    have := l3 i hi
    rw [Nat.zero_add] at this
    exact this
  refine ⟨rfl, hfind, ?_, ?_, ?_, ?_, ?_, ?_, hsrcF, ?_⟩
  · show (fsF.inodes s.fs.free_inode_head).file_type = _
    rw [hnewF, l8, g1]
  · show (fsF.inodes s.fs.free_inode_head).size = _
    rw [hnewF, l10, g3]
  · show (fsF.inodes s.fs.free_inode_head).page_count = _
    rw [hnewF, l2, Nat.zero_add, Int.toNat_of_nonneg hpc]
  · show (fsF.inodes s.fs.free_inode_head).permissions = _
    rw [hnewF, l9, g2]
  · intro i j hi hj h
    have h' : (r.1.inodes s.fs.free_inode_head).pages i =
        (s.fs.inodes (get_inode_from_path s source)).pages j := by
      rw [← hnewF]; exact h
    exact hsrc j hj (h' ▸ hpgs i hi)
  · intro i hi b hb
    show (fsF.page_table ((fsF.inodes s.fs.free_inode_head).pages i)).data b = _
    have := l5 i hi b hb
    rw [Nat.zero_add, i7 _ hsn, i2] at this
    rw [hnewF, ap]
    exact this
  · intro i hi
    show fsF.page_table _ = _
    rw [ap, l4 _ (hsrc i hi), i2]

/-- The postcondition at `copy_file "/f" "/g"` in the state after `format;
touch /f; write /f "hello"`: the source is inode 1 with page 0, the copy is
inode 2 with page 1, and `/g` leads to it. -/
theorem copy_file_success_witness :
    get_inode_from_path hello_state (cstr "/f") = 1 ∧
      hello_state.fs.free_inode_head = 2 ∧
      (copy_file 0 hello_state (cstr "/f") (cstr "/g")).2 = "File copied successfully" ∧
      find_in_directory (copy_file 0 hello_state (cstr "/f") (cstr "/g")).1.fs
        (dest_parent_of hello_state (cstr "/g"))
        (dest_name_of hello_state (cstr "/f") (cstr "/g")) = hello_state.fs.free_inode_head ∧
      get_inode_from_path (copy_file 0 hello_state (cstr "/f") (cstr "/g")).1 (cstr "/g") = 2 ∧
      ((copy_file 0 hello_state (cstr "/f") (cstr "/g")).1.fs.inodes 2).pages 0 = 1 ∧
      read_bytes (copy_file 0 hello_state (cstr "/f") (cstr "/g")).1.fs 2 = cstr "hello" :=
  have hpc : (hello_state.fs.inodes (get_inode_from_path hello_state (cstr "/f"))).page_count.toNat
      = 1 := by decide!
  have h := copy_file_success 0 hello_state (cstr "/f") (cstr "/g") [1]
    (by decide!) (by decide!) (by decide!) (by decide!) ⟨3, by decide, by decide!⟩
    (by decide!) (by decide!) (by decide!) (by decide!) (by decide!) (by decide)
    (fun j hj => by
      rw [hpc] at hj
      have : j = 0 := by omega
      rw [this]; decide!)
  ⟨by decide!, by decide!, h.1, h.2.1, by decide!, by decide!, by decide!⟩

/-! ### Deleting a directory with its contents -/

/-- C21 (`delete_directory_force` frees the whole subtree) fails on the code.
After `format; mkdir /a; mkdir /a/b; touch /a/f; write /a/f "hello"` the
directory `/a` (inode 1) holds the directory `b` (inode 2) and the regular
file `f` (inode 3, link count 0, page 0).  The confirmed call
`delete_directory_force "/a"` reports success and frees inode 1, but the
inodes 2 and 3 are not on the inode free list: the sub-directory is only
emptied, its entries `"."` and `".."` stay occupied with parent 2, and the
link count of the file goes from 0 to `-1`, so the file keeps its inode and
its page 0 stays in use: the page free list is the one before the call. -/
theorem delete_directory_force_leaks :
    get_inode_from_path subtree_state (cstr "/a") = 1 ∧
    get_inode_from_path subtree_state (cstr "/a/b") = 2 ∧
    get_inode_from_path subtree_state (cstr "/a/f") = 3 ∧
    (subtree_state.fs.inodes 2).file_type = FILE_TYPE_DIR ∧
    (subtree_state.fs.inodes 3).file_type = FILE_TYPE_REGULAR ∧
    (subtree_state.fs.inodes 3).link_count = 0 ∧
    (subtree_state.fs.inodes 3).page_count = 1 ∧
    (subtree_state.fs.inodes 3).pages 0 = 0 ∧
    ref_count subtree_state.fs 3 = 1 ∧
    (delete_directory_force MAX_FILES 0 subtree_state (cstr "/a") (cstr "yes")).map Prod.snd =
      some "Directory and all its contents deleted successfully" ∧
    (delete_directory_force MAX_FILES 0 subtree_state (cstr "/a") (cstr "yes")).map
        (fun r => (free_inode_list r.1.fs (MAX_FILES + 1) r.1.fs.free_inode_head).map
          (fun l => (decide (1 ∈ l), decide (2 ∈ l), decide (3 ∈ l)))) =
      some (some (true, false, false)) ∧
    (delete_directory_force MAX_FILES 0 subtree_state (cstr "/a") (cstr "yes")).map
        (fun r => (entry_count r.1.fs 2, find_in_directory r.1.fs 2 DOT,
          (r.1.fs.inodes 3).link_count, (r.1.fs.page_table 0).is_used)) =
      some (2, 2, -1, 1) ∧
    subtree_state.fs.free_page_head = 1 ∧
    (delete_directory_force MAX_FILES 0 subtree_state (cstr "/a") (cstr "yes")).map
        (fun r => r.1.fs.free_page_head) = some 1 := by
  decide!

/-! ### The parent component after a move -/

/-- C22 (`"/a/b/.."` resolves as `"/a"` after directory operations) fails on
the code.  The state `moved_dot_state` is reached by `format; mkdir /a;
mkdir /a/b; mkdir /c; move_directory "/a/b/." "/c/d"`, all successful.  In it
`"/a/b"` resolves to the directory inode 2, whose `".."` entry now leads to
`/c`: `"/a/b/.."` resolves to inode 3 while `"/a"` resolves to inode 1. -/
theorem parent_component_after_move :
    (move_directory MAX_FILES 0 three_dirs_state (cstr "/a/b/.") (cstr "/c/d")).map Prod.snd =
      some "Directory moved successfully" ∧
    get_inode_from_path moved_dot_state (cstr "/a/b") = 2 ∧
    (moved_dot_state.fs.inodes 2).file_type = FILE_TYPE_DIR ∧
    get_inode_from_path moved_dot_state (cstr "/a/b/..") = 3 ∧
    get_inode_from_path moved_dot_state (cstr "/a") = 1 ∧
    get_inode_from_path moved_dot_state (cstr "/c") = 3 := by
  decide!

/-! ### Symbolic links -/

/-- C29 (a chain of exactly ten symbolic links is followed to its end) fails
on the code.  In `symlink_chain_state` the link `/l10` (inode 11) starts a
chain of ten links that ends at the regular file `/t` (inode 1), and every
stored path resolves; `resolve_symlink` returns `-1` for it, because the
counter `max_links` is 0 when the loop is left and the test after the loop
does not tell this from a chain that is too long.  The link `/l9` (inode 10),
nine links from `/t`, is resolved. -/
theorem resolve_symlink_ten_hops :
    get_inode_from_path symlink_chain_state (cstr "/l10") = 11 ∧
    get_inode_from_path symlink_chain_state (cstr "/t") = 1 ∧
    (symlink_chain_state.fs.inodes 1).file_type = FILE_TYPE_REGULAR ∧
    follow_links symlink_chain_state 10 11 = some 1 ∧
    resolve_symlink symlink_chain_state 11 = -1 ∧
    follow_links symlink_chain_state 9 10 = some 1 ∧
    resolve_symlink symlink_chain_state 10 = 1 := by
  decide!

/-- C30 (after `create_symlink` the new entry leads to the new symbolic link)
fails on the code when the directory table is full.  In `full_table_state`
the target `/f` resolves and the name `x` is free in the root;
`create_symlink "/f" "/x"` takes inode 2 from the free list, makes it a
symbolic link and reports "Symbolic link created successfully", but
`add_directory_entry` found no free slot: no entry leads to inode 2 and `/x`
does not resolve. -/
theorem create_symlink_full_table :
    (∀ i : Fin MAX_FILES, (full_table_state.fs.directory (i.val : Int)).inode_number ≠ -1) ∧
    get_inode_from_path full_table_state (cstr "/f") = 1 ∧
    find_in_directory full_table_state.fs
      (get_parent_directory_inode full_table_state (cstr "/x"))
      (extract_last_path_component (cstr "/x")) = -1 ∧
    (allocate_inode 0 full_table_state.fs).2 = 2 ∧
    (create_symlink 0 full_table_state (cstr "/f") (cstr "/x")).2 =
      "Symbolic link created successfully" ∧
    ((create_symlink 0 full_table_state (cstr "/f") (cstr "/x")).1.fs.inodes 2).file_type =
      FILE_TYPE_SYMLINK ∧
    (create_symlink 0 full_table_state (cstr "/f") (cstr "/x")).1.fs.free_inode_head = 3 ∧
    ref_count (create_symlink 0 full_table_state (cstr "/f") (cstr "/x")).1.fs 2 = 0 ∧
    get_inode_from_path (create_symlink 0 full_table_state (cstr "/f") (cstr "/x")).1
      (cstr "/x") = -1 := by
  decide!

/-! ### Relative paths -/

/-- C23 fails for a relative path that is too long before its runs of `'/'`
are collapsed.  After `format; mkdir /a`, with the current path `"/"`, the
relative path `a` followed by 1022 times `'/'` is refused by the length test
(1 + 1023 + 1 ≥ 1024) and gives `-1`; with the run collapsed it is `"a/"` and
resolves to inode 1. -/
theorem long_relative_path_not_collapsed :
    one_dir_state.current_path = cstr "/" ∧
    (cstr "a" ++ List.replicate 1022 SLASH).head? ≠ some SLASH ∧
    one_dir_state.current_path.length + (cstr "a" ++ List.replicate 1022 SLASH).length + 1 ≥
      MAX_PATH_LENGTH ∧
    collapse_slashes (cstr "a" ++ List.replicate 1022 SLASH) = cstr "a/" ∧
    get_inode_from_path one_dir_state (cstr "a" ++ List.replicate 1022 SLASH) = -1 ∧
    get_inode_from_path one_dir_state
      (collapse_slashes (cstr "a" ++ List.replicate 1022 SLASH)) = 1 := by
  decide!

/-! ### Permission checks -/

/-- C26 fails on the code for the request read+execute.  After `format;
touch /f; chmod r-x /f` the regular file inode 1 has the permission bits 5,
read and execute; `check_file_permission` has no case for the request
`PERM_READ | PERM_EXECUTE` and returns 0, while `check_directory_permission`
grants the same request on the root. -/
theorem check_file_permission_read_execute :
    (read_execute_state.fs.inodes 1).file_type = FILE_TYPE_REGULAR ∧
    (read_execute_state.fs.inodes 1).permissions = 5 ∧
    (read_execute_state.fs.inodes 1).permissions &&& (PERM_READ ||| PERM_EXECUTE) =
      PERM_READ ||| PERM_EXECUTE ∧
    check_file_permission read_execute_state.fs 1 (PERM_READ ||| PERM_EXECUTE) = 0 ∧
    check_directory_permission read_execute_state.fs 0 (PERM_READ ||| PERM_EXECUTE) ≠ 0 := by
  decide!

/-! ### The last component of a path -/

/-- What is left when the longest prefix satisfying `p` is dropped is empty
or starts with an element that does not satisfy `p`. -/
theorem dropWhile_nil_or_head {α : Type} (p : α → Bool) :
    ∀ l : List α, l.dropWhile p = [] ∨ ∃ a t, l.dropWhile p = a :: t ∧ p a = false
  | [] => Or.inl rfl
  | a :: l => by
    cases h : p a with
    | true => rw [List.dropWhile_cons_of_pos h]; exact dropWhile_nil_or_head p l
    | false =>
      rw [List.dropWhile_cons_of_neg (by rw [h]; exact Bool.false_ne_true)]
      exact Or.inr ⟨a, l, rfl, h⟩

/-- C24: for every path, the result of `extract_last_path_component` contains
no `'/'`; the path without its trailing `'/'` characters is a prefix, empty or
ending with `'/'`, followed by the result; and the result is empty exactly
when every character of the path is `'/'` (the empty path included).  The
three examples of the claim are evaluated. -/
theorem extract_last_path_component_spec :
    (∀ path : List Nat,
      SLASH ∉ extract_last_path_component path ∧
      (∃ pre, strip_trailing_slashes path = pre ++ extract_last_path_component path ∧
        (pre = [] ∨ pre.getLast? = some SLASH)) ∧
      (extract_last_path_component path = [] ↔ ∀ c ∈ path, c = SLASH)) ∧
    extract_last_path_component (cstr "/a/b//") = cstr "b" ∧
    extract_last_path_component (cstr "abc") = cstr "abc" ∧
    extract_last_path_component (cstr "/") = cstr "" := by
  refine ⟨fun path => ?_, by decide, by decide, by decide⟩
  unfold extract_last_path_component strip_trailing_slashes
  generalize hr : path.reverse.dropWhile (fun c => decide (c = SLASH)) = r
  refine ⟨?_, ?_, ?_⟩
  · intro hm
    have := List.mem_takeWhile_imp (List.mem_reverse.mp hm)
    simp at this
  · refine ⟨(r.dropWhile (fun c => decide (c ≠ SLASH))).reverse, ?_, ?_⟩
    · rw [← List.reverse_append, List.takeWhile_append_dropWhile]
    · rcases dropWhile_nil_or_head (fun c => decide (c ≠ SLASH)) r with h | ⟨a, t, h, ha⟩
      · left; rw [h]; rfl
      · right
        rw [h, List.getLast?_reverse, List.head?_cons]
        simp at ha
        rw [ha]
  · rw [List.reverse_eq_nil_iff]
    constructor
    · intro h
      have hrn : r = [] := by
        rcases dropWhile_nil_or_head (fun c => decide (c = SLASH)) path.reverse with h1 | ⟨a, t, h1, ha⟩
        · rw [← hr]; exact h1
        · rw [hr] at h1
          rw [h1, List.takeWhile_cons] at h
          simp at ha
          simp [ha] at h
      rw [← hr] at hrn
      intro c hc
      have := (List.dropWhile_eq_nil_iff.mp hrn) c (List.mem_reverse.mpr hc)
      simpa using this
    · intro h
      have hrn : r = [] := by
        rw [← hr]
        apply List.dropWhile_eq_nil_iff.mpr
        intro c hc
        simpa using h c (List.mem_reverse.mp hc)
      rw [hrn]; rfl

/-! ### The permission checks -/

/-- The bits of a request below 8 only depend on the three low bits of the
permission byte. -/
theorem and_low_bits (x k : Nat) (hk : 7 &&& k = k) : x &&& k = (x % 8) &&& k := by
  have h := Nat.and_pow_two_sub_one_eq_mod x 3
  have h7 : (2 : Nat) ^ 3 - 1 = 7 := rfl
  rw [h7] at h
  have h8 : (2 : Nat) ^ 3 = 8 := rfl
  rw [h8] at h
  rw [← h, Nat.and_assoc, hk]

/-- The tests that the permission checks make on the stored bits, in terms
of "every bit of the request is set". -/
theorem permission_bits (x : Nat) :
    (x &&& 4 ≠ 0 ↔ x &&& 4 = 4) ∧ (x &&& 2 ≠ 0 ↔ x &&& 2 = 2) ∧ (x &&& 1 ≠ 0 ↔ x &&& 1 = 1) ∧
    ((x &&& 4 ≠ 0 ∧ x &&& 1 ≠ 0) ↔ x &&& 5 = 5) ∧
    ((x &&& 4 ≠ 0 ∧ x &&& 2 ≠ 0) ↔ x &&& 6 = 6) ∧
    ((x &&& 4 ≠ 0 ∧ x &&& 2 ≠ 0 ∧ x &&& 1 ≠ 0) ↔ x &&& 7 = 7) := by
  rw [and_low_bits x 4 rfl, and_low_bits x 2 rfl, and_low_bits x 1 rfl, and_low_bits x 5 rfl,
    and_low_bits x 6 rfl, and_low_bits x 7 rfl]
  have hlt : x % 8 < 8 := Nat.mod_lt _ (by decide)
  generalize x % 8 = y at hlt
  interval_cases y <;> decide

/-- C25: for every inode number `d` other than `-1` and every request `req`,
`check_directory_permission` grants (returns non-zero) exactly when the inode
is a directory, the request is one of read (4), read+execute (5), write (2),
read+write (6), read+write+execute (7), and every bit of the request is set
in the permission bits of the inode. -/
theorem check_directory_permission_iff (fs : SuperBlock) (d : Int) (req : Nat)
    (hd : d ≠ -1) :
    check_directory_permission fs d req ≠ 0 ↔
      ((fs.inodes d).file_type = FILE_TYPE_DIR ∧
        req ∈ [PERM_READ, PERM_READ ||| PERM_EXECUTE, PERM_WRITE, PERM_READ ||| PERM_WRITE,
          PERM_READ ||| PERM_WRITE ||| PERM_EXECUTE] ∧
        (fs.inodes d).permissions &&& req = req) := by
  obtain ⟨b4, b2, b1, b5, b6, b7⟩ := permission_bits (fs.inodes d).permissions
  unfold check_directory_permission
  rw [if_neg hd]
  by_cases ht : (fs.inodes d).file_type = FILE_TYPE_DIR
  · rw [if_neg (not_not.mpr ht)]
    have e4 : (PERM_READ : Nat) = 4 := rfl
    have e5 : (PERM_READ ||| PERM_EXECUTE : Nat) = 5 := rfl
    have e2 : (PERM_WRITE : Nat) = 2 := rfl
    have e6 : (PERM_READ ||| PERM_WRITE : Nat) = 6 := rfl
    have e7 : (PERM_READ ||| PERM_WRITE ||| PERM_EXECUTE : Nat) = 7 := rfl
    have e1 : (PERM_EXECUTE : Nat) = 1 := rfl
    rw [e7, e5, e6, e4, e2, e1]
    by_cases r4 : req = 4
    · subst r4; rw [if_pos rfl]; simp [ht, b4]
    · rw [if_neg r4]
      by_cases r5 : req = 5
      · subst r5; rw [if_pos rfl]
        by_cases hb : (fs.inodes d).permissions &&& 4 ≠ 0 ∧ (fs.inodes d).permissions &&& 1 ≠ 0
        · rw [if_pos hb]; simp [ht, b5.mp hb]
        · rw [if_neg hb]; simp [ht]; exact fun h => hb (b5.mpr h)
      · rw [if_neg r5]
        by_cases r2 : req = 2
        · subst r2; rw [if_pos rfl]; simp [ht, b2]
        · rw [if_neg r2]
          by_cases r6 : req = 6
          · subst r6; rw [if_pos rfl]
            by_cases hb : (fs.inodes d).permissions &&& 4 ≠ 0 ∧
                (fs.inodes d).permissions &&& 2 ≠ 0
            · rw [if_pos hb]; simp [ht, b6.mp hb]
            · rw [if_neg hb]; simp [ht]; exact fun h => hb (b6.mpr h)
          · rw [if_neg r6]
            by_cases r7 : req = 7
            · subst r7; rw [if_pos rfl]
              by_cases hb : (fs.inodes d).permissions &&& 4 ≠ 0 ∧
                  (fs.inodes d).permissions &&& 2 ≠ 0 ∧ (fs.inodes d).permissions &&& 1 ≠ 0
              · rw [if_pos hb]; simp [ht, b7.mp hb]
              · rw [if_neg hb]; simp [ht]; exact fun h => hb (b7.mpr h)
            · rw [if_neg r7]
              simp [r4, r5, r2, r6, r7]
  · rw [if_pos ht]
    simp [ht]

/-- C25 at the root directory after `format`, which has every permission:
the request read+write is granted, and the request 3 (write+execute), which
is not one of the five, is denied. -/
theorem check_directory_permission_iff_witness :
    (check_directory_permission (format_partition 0).fs 0 (PERM_READ ||| PERM_WRITE) ≠ 0 ↔
      (((format_partition 0).fs.inodes 0).file_type = FILE_TYPE_DIR ∧
        (PERM_READ ||| PERM_WRITE) ∈ [PERM_READ, PERM_READ ||| PERM_EXECUTE, PERM_WRITE,
          PERM_READ ||| PERM_WRITE, PERM_READ ||| PERM_WRITE ||| PERM_EXECUTE] ∧
        ((format_partition 0).fs.inodes 0).permissions &&& (PERM_READ ||| PERM_WRITE) =
          PERM_READ ||| PERM_WRITE)) ∧
      check_directory_permission (format_partition 0).fs 0 (PERM_READ ||| PERM_WRITE) = 1 ∧
      check_directory_permission (format_partition 0).fs 0 3 = 0 :=
  ⟨check_directory_permission_iff (format_partition 0).fs 0 (PERM_READ ||| PERM_WRITE)
    (by decide), by decide!, by decide!⟩

/-- C26 as the code has it: for every regular file `f` and every request
`req`, `check_file_permission` grants exactly when the request is one of read
(4), write (2), read+write (6), read+write+execute (7), execute (1) and every
bit of the request is set in the permission bits of the file.  The request
read+execute (5) is not among them and is always denied. -/
theorem check_file_permission_iff (fs : SuperBlock) (f : Int) (req : Nat)
    (hf : f ≠ -1) (hreg : (fs.inodes f).file_type = FILE_TYPE_REGULAR) :
    (check_file_permission fs f req ≠ 0 ↔
      (req ∈ [PERM_READ, PERM_WRITE, PERM_READ ||| PERM_WRITE,
          PERM_READ ||| PERM_WRITE ||| PERM_EXECUTE, PERM_EXECUTE] ∧
        (fs.inodes f).permissions &&& req = req)) ∧
    check_file_permission fs f (PERM_READ ||| PERM_EXECUTE) = 0 := by
  obtain ⟨b4, b2, b1, _, b6, b7⟩ := permission_bits (fs.inodes f).permissions
  unfold check_file_permission
  rw [if_neg hf, if_neg (not_not.mpr hreg), if_neg hf, if_neg (not_not.mpr hreg)]
  have e4 : (PERM_READ : Nat) = 4 := rfl
  have e5 : (PERM_READ ||| PERM_EXECUTE : Nat) = 5 := rfl
  have e2 : (PERM_WRITE : Nat) = 2 := rfl
  have e6 : (PERM_READ ||| PERM_WRITE : Nat) = 6 := rfl
  have e7 : (PERM_READ ||| PERM_WRITE ||| PERM_EXECUTE : Nat) = 7 := rfl
  have e1 : (PERM_EXECUTE : Nat) = 1 := rfl
  rw [e7, e5, e6, e4, e2, e1]
  refine ⟨?_, by
    rw [if_neg (by decide), if_neg (by decide), if_neg (by decide), if_neg (by decide),
      if_neg (by decide)]⟩
  by_cases r4 : req = 4
  · subst r4; rw [if_pos rfl]; simp [b4]
  · rw [if_neg r4]
    by_cases r2 : req = 2
    · subst r2; rw [if_pos rfl]; simp [b2]
    · rw [if_neg r2]
      by_cases r6 : req = 6
      · subst r6; rw [if_pos rfl]
        by_cases hb : (fs.inodes f).permissions &&& 4 ≠ 0 ∧ (fs.inodes f).permissions &&& 2 ≠ 0
        · rw [if_pos hb]; simp [b6.mp hb]
        · rw [if_neg hb]; simp; exact fun h => hb (b6.mpr h)
      · rw [if_neg r6]
        by_cases r7 : req = 7
        · subst r7; rw [if_pos rfl]
          by_cases hb : (fs.inodes f).permissions &&& 4 ≠ 0 ∧
              (fs.inodes f).permissions &&& 2 ≠ 0 ∧ (fs.inodes f).permissions &&& 1 ≠ 0
          · rw [if_pos hb]; simp [b7.mp hb]
          · rw [if_neg hb]; simp; exact fun h => hb (b7.mpr h)
        · rw [if_neg r7]
          by_cases r1 : req = 1
          · subst r1; rw [if_pos rfl]; simp [b1]
          · rw [if_neg r1]
            simp [r4, r2, r6, r7, r1]

/-- The amended C26 at the file `/f` with the bits `r-x` (inode 1 of
`read_execute_state`): the request read is granted. -/
theorem check_file_permission_iff_witness :
    (check_file_permission read_execute_state.fs 1 PERM_READ ≠ 0 ↔
      (PERM_READ ∈ [PERM_READ, PERM_WRITE, PERM_READ ||| PERM_WRITE,
          PERM_READ ||| PERM_WRITE ||| PERM_EXECUTE, PERM_EXECUTE] ∧
        (read_execute_state.fs.inodes 1).permissions &&& PERM_READ = PERM_READ)) ∧
      check_file_permission read_execute_state.fs 1 PERM_READ = 4 ∧
      check_file_permission read_execute_state.fs 1 PERM_WRITE = 0 :=
  ⟨(check_file_permission_iff read_execute_state.fs 1 PERM_READ (by decide) (by decide!)).1,
    by decide!, by decide!⟩

/-! ### Changing the permissions -/

/-- On a valid descriptor `parse_permissions` gives the bits that the
descriptor stands for. -/
theorem parse_permissions_of_valid {d : List Nat} (h : valid_descriptor d) :
    parse_permissions d = descriptor_bits d := by
  obtain ⟨a, b, c, rfl, ha, hb, hc⟩ := h
  rcases ha with rfl | rfl <;> rcases hb with rfl | rfl <;> rcases hc with rfl | rfl <;> decide

/-- The tests of `change_permissions` on the descriptor are the rule of the
specification. -/
theorem valid_descriptor_iff (d : List Nat) :
    valid_descriptor d ↔
      (d.length = 3 ∧ (d.getD 0 0 = 114 ∨ d.getD 0 0 = 45) ∧
        (d.getD 1 0 = 119 ∨ d.getD 1 0 = 45) ∧ (d.getD 2 0 = 120 ∨ d.getD 2 0 = 45)) := by
  constructor
  · rintro ⟨a, b, c, rfl, ha, hb, hc⟩
    exact ⟨rfl, ha, hb, hc⟩
  · rintro ⟨hl, ha, hb, hc⟩
    match d, hl with
    | [a, b, c], _ => exact ⟨a, b, c, rfl, ha, hb, hc⟩

/-- C27: when the path resolves and the descriptor is valid,
`change_permissions` reports success and the new state is the old one with the
permission bits of the inode set to the bits of the descriptor and its `mtime`
set to the time of the call, nothing else; in every other case the state is
unchanged.  So the permission bits differ afterwards only for a path that
resolves and a valid descriptor. -/
theorem change_permissions_validation (now : Int) (s : State) (path d : List Nat) :
    (get_inode_from_path s path ≠ -1 → valid_descriptor d →
      (change_permissions now s path d).2 = "Permissions changed successfully" ∧
      ((change_permissions now s path d).1.fs.inodes (get_inode_from_path s path)).permissions =
        descriptor_bits d ∧
      (change_permissions now s path d).1 =
        s.save (s.fs.setInode (get_inode_from_path s path)
          { s.fs.inodes (get_inode_from_path s path) with
            permissions := descriptor_bits d, mtime := now })) ∧
    (¬ (get_inode_from_path s path ≠ -1 ∧ valid_descriptor d) →
      (change_permissions now s path d).1 = s) ∧
    (∀ i, ((change_permissions now s path d).1.fs.inodes i).permissions ≠
        (s.fs.inodes i).permissions →
      get_inode_from_path s path = i ∧ valid_descriptor d) := by
  have hsucc : get_inode_from_path s path ≠ -1 → valid_descriptor d →
      change_permissions now s path d =
        (s.save (s.fs.setInode (get_inode_from_path s path)
          { s.fs.inodes (get_inode_from_path s path) with
            permissions := descriptor_bits d, mtime := now }),
          "Permissions changed successfully") := by
    intro hk hv
    obtain ⟨hl, ha, hb, hc⟩ := (valid_descriptor_iff d).mp hv
    unfold change_permissions
    rw [if_neg hk, if_neg (not_not.mpr hl),
      if_neg (fun hh => ha.elim hh.1 hh.2),
      if_neg (fun hh => hb.elim hh.1 hh.2),
      if_neg (fun hh => hc.elim hh.1 hh.2),
      parse_permissions_of_valid hv]
  have hfail : ¬ (get_inode_from_path s path ≠ -1 ∧ valid_descriptor d) →
      (change_permissions now s path d).1 = s := by
    intro hn
    unfold change_permissions
    by_cases hk : get_inode_from_path s path = -1
    · rw [if_pos hk]
    · rw [if_neg hk]
      by_cases hl : d.length ≠ 3
      · rw [if_pos hl]
      · rw [if_neg hl]
        by_cases ha : d.getD 0 0 ≠ 114 ∧ d.getD 0 0 ≠ 45
        · rw [if_pos ha]
        · rw [if_neg ha]
          by_cases hb : d.getD 1 0 ≠ 119 ∧ d.getD 1 0 ≠ 45
          · rw [if_pos hb]
          · rw [if_neg hb]
            by_cases hc : d.getD 2 0 ≠ 120 ∧ d.getD 2 0 ≠ 45
            · rw [if_pos hc]
            · exfalso
              apply hn
              refine ⟨hk, (valid_descriptor_iff d).mpr ⟨not_not.mp hl, ?_, ?_, ?_⟩⟩
              · by_contra h; exact ha (not_or.mp h)
              · by_contra h; exact hb (not_or.mp h)
              · by_contra h; exact hc (not_or.mp h)
  refine ⟨fun hk hv => ?_, hfail, fun i hi => ?_⟩
  · rw [hsucc hk hv]
    refine ⟨rfl, ?_, rfl⟩
    simp only [State.save, SuperBlock.setInode, setAt_same]
  · by_cases hkv : get_inode_from_path s path ≠ -1 ∧ valid_descriptor d
    · refine ⟨?_, hkv.2⟩
      by_contra hne
      rw [hsucc hkv.1 hkv.2] at hi
      apply hi
      simp only [State.save, SuperBlock.setInode, setAt_other _ _ (fun h => hne h.symm)]
    · rw [hfail hkv] at hi
      exact absurd rfl hi
/-- C27 at `format; touch /f`: `chmod r-x /f` succeeds and sets the bits of
inode 1 to 5, and `chmod rwxr /f` leaves the state as it is. -/
theorem change_permissions_validation_witness :
    get_inode_from_path one_file_state (cstr "/f") = 1 ∧
      descriptor_bits (cstr "r-x") = 5 ∧
      ((change_permissions 5 one_file_state (cstr "/f") (cstr "r-x")).2 =
          "Permissions changed successfully" ∧
        ((change_permissions 5 one_file_state (cstr "/f") (cstr "r-x")).1.fs.inodes
            (get_inode_from_path one_file_state (cstr "/f"))).permissions =
          descriptor_bits (cstr "r-x")) ∧
      (change_permissions 5 one_file_state (cstr "/f") (cstr "rwxr")).1 = one_file_state :=
  have h := (change_permissions_validation 5 one_file_state (cstr "/f") (cstr "r-x")).1
    (by decide!) ⟨114, 45, 120, rfl, Or.inl rfl, Or.inr rfl, Or.inl rfl⟩
  ⟨by decide!, by decide, ⟨h.1, h.2.1⟩,
    (change_permissions_validation 5 one_file_state (cstr "/f") (cstr "rwxr")).2.1
      (fun hh => absurd ((valid_descriptor_iff _).mp hh.2).1 (by decide))⟩

/-! ### The bound on chains of symbolic links -/

/-- The loop of `resolve_symlink` with `m` hops allowed on a chain of `n`
symbolic links from `current` to `target`: with `n < m` and a target that is
not a symbolic link the target is returned, with `m ≤ n` the result is `-1`. -/
theorem resolve_symlink_loop_of_chain (s : State) (target : Int) :
    ∀ (n m : Nat) (current : Int), follow_links s n current = some target →
      (n < m → (s.fs.inodes target).file_type ≠ FILE_TYPE_SYMLINK →
        resolve_symlink_loop s m current = target) ∧
      (m ≤ n → resolve_symlink_loop s m current = -1)
  | _, 0, _, _ => ⟨fun h => absurd h (Nat.not_lt_zero _), fun _ => rfl⟩
  | 0, m + 1, current, hf => by
    have hc : current = target := by
      simp only [follow_links, Option.some.injEq] at hf; exact hf
    subst hc
    refine ⟨fun _ ht => ?_, fun h => absurd h (by omega)⟩
    simp only [resolve_symlink_loop, if_neg ht]
  | n + 1, m + 1, current, hf => by
    simp only [follow_links] at hf
    by_cases hc : (s.fs.inodes current).file_type = FILE_TYPE_SYMLINK ∧
        get_inode_from_path s (s.fs.inodes current).symlink_path ≠ -1
    · rw [if_pos hc] at hf
      obtain ⟨ih1, ih2⟩ := resolve_symlink_loop_of_chain s target n m _ hf
      have hstep : resolve_symlink_loop s (m + 1) current =
          resolve_symlink_loop s m (get_inode_from_path s (s.fs.inodes current).symlink_path) := by
        simp only [resolve_symlink_loop, if_pos hc.1, if_neg hc.2]
      rw [hstep]
      exact ⟨fun h ht => ih1 (by omega) ht, fun h => ih2 (by omega)⟩
    · rw [if_neg hc] at hf
      exact absurd hf (by simp)

/-- C28: when `n` symbolic links, each with a stored path that resolves, lead
from `first` to `target`, `resolve_symlink first` returns `target` for
`n ≤ 9` and a target that is not a symbolic link, and returns `-1` for
`n ≥ 11` (whatever the chain leads to, so also for a chain that comes back to
itself). -/
theorem symlink_chain_bound (s : State) (n : Nat) (first target : Int)
    (hchain : follow_links s n first = some target) :
    (n ≤ 9 → (s.fs.inodes target).file_type ≠ FILE_TYPE_SYMLINK →
      resolve_symlink s first = target) ∧
    (11 ≤ n → resolve_symlink s first = -1) := by
  obtain ⟨h1, h2⟩ := resolve_symlink_loop_of_chain s target n 10 first hchain
  unfold resolve_symlink
  exact ⟨fun h ht => h1 (by omega) ht, fun h => h2 (by omega)⟩

/-- C28 in `symlink_chain_state`: nine links lead from `/l9` (inode 10) to the
file `/t` (inode 1), which is returned; eleven links lead from `/l11`
(inode 12) to it, and the result is `-1`. -/
theorem symlink_chain_bound_witness :
    follow_links symlink_chain_state 9 10 = some 1 ∧
      resolve_symlink symlink_chain_state 10 = 1 ∧
      follow_links symlink_chain_state 11 12 = some 1 ∧
      resolve_symlink symlink_chain_state 12 = -1 :=
  ⟨by decide!,
    (symlink_chain_bound symlink_chain_state 9 10 1 (by decide!)).1 (by decide) (by decide!),
    by decide!,
    (symlink_chain_bound symlink_chain_state 11 12 1 (by decide!)).2 (by decide)⟩

/-! ### Relative paths and repeated separators -/

/-- The tokens of a path do not change when its runs of `'/'` are collapsed. -/
theorem strtok_loop_collapse :
    ∀ (p tok : List Nat), strtok_loop (collapse_slashes p) tok = strtok_loop p tok
  | [], _ => rfl
  | [_], _ => rfl
  | c :: d :: rest, tok => by
    have ih := strtok_loop_collapse (d :: rest)
    by_cases h : c = SLASH ∧ d = SLASH
    · obtain ⟨hc, hd⟩ := h
      subst hc; subst hd
      have e : collapse_slashes (SLASH :: SLASH :: rest) = collapse_slashes (SLASH :: rest) := by
        simp [collapse_slashes]
      rw [e, ih]
      have u : ∀ r : List Nat, strtok_loop (SLASH :: r) tok =
          if tok = [] then strtok_loop r [] else tok :: strtok_loop r [] := fun r => by
        rw [strtok_loop, if_pos rfl]
      rw [u (SLASH :: rest), u rest]
      have v : strtok_loop (SLASH :: rest) [] = strtok_loop rest [] := by
        rw [strtok_loop, if_pos rfl, if_pos rfl]
      rw [v]
    · have e : collapse_slashes (c :: d :: rest) = c :: collapse_slashes (d :: rest) := by
        simp only [collapse_slashes, if_neg h]
      rw [e]
      by_cases hc : c = SLASH
      · rw [strtok_loop, strtok_loop, if_pos hc, if_pos hc, ih]
      · rw [strtok_loop, strtok_loop, if_neg hc, if_neg hc, ih]

/-- Two strings with the same tokens after every start have the same tokens
behind a common prefix. -/
theorem strtok_loop_append_congr {x y : List Nat}
    (h : ∀ tok, strtok_loop x tok = strtok_loop y tok) :
    ∀ (a tok : List Nat), strtok_loop (a ++ x) tok = strtok_loop (a ++ y) tok
  | [], tok => h tok
  | c :: a, tok => by
    have ih := strtok_loop_append_congr h a
    by_cases hc : c = SLASH
    · rw [List.cons_append, List.cons_append, strtok_loop, strtok_loop, if_pos hc, if_pos hc,
        ih]
    · rw [List.cons_append, List.cons_append, strtok_loop, strtok_loop, if_neg hc, if_neg hc,
        ih]

/-- Collapsing the runs of `'/'` does not lengthen a path. -/
theorem collapse_slashes_length : ∀ p : List Nat, (collapse_slashes p).length ≤ p.length
  | [] => Nat.le_refl _
  | [_] => Nat.le_refl _
  | c :: d :: rest => by
    have ih := collapse_slashes_length (d :: rest)
    by_cases h : c = SLASH ∧ d = SLASH
    · simp only [collapse_slashes, if_pos h]
      simp only [List.length_cons] at ih ⊢
      omega
    · simp only [collapse_slashes, if_neg h]
      simp only [List.length_cons] at ih ⊢
      omega

/-- Collapsing the runs of `'/'` keeps the first character of a path. -/
theorem collapse_slashes_head : ∀ p : List Nat, (collapse_slashes p).head? = p.head?
  | [] => rfl
  | [_] => rfl
  | c :: d :: rest => by
    have ih := collapse_slashes_head (d :: rest)
    by_cases h : c = SLASH ∧ d = SLASH
    · rw [collapse_slashes, if_pos h, ih, h.1, h.2]
      rfl
    · simp only [collapse_slashes, if_neg h, List.head?_cons]

/-- The components of two paths that fit the path buffer and have the same
tokens are the same. -/
theorem split_path_congr {x y : List Nat} (hx : x.length ≤ MAX_PATH_LENGTH)
    (hy : y.length ≤ MAX_PATH_LENGTH) (h : strtok_loop x [] = strtok_loop y []) :
    split_path x = split_path y := by
  unfold split_path
  rw [List.take_of_length_le hx, List.take_of_length_le hy, h]

/-- An absolute path is resolved by the walk from the root, whatever the
depth of recursion allowed. -/
theorem get_inode_from_path_fuel_absolute (s : State) (fuel : Nat) {q : List Nat}
    (hq : q.head? = some SLASH) :
    get_inode_from_path_fuel s (fuel + 1) q =
      walk_path s.fs (s.fs.directory 0).inode_number (split_path q) := by
  rw [get_inode_from_path_fuel, if_pos hq]

/-- The absolute form of a relative path starts with `'/'` when the current
path does. -/
theorem absolute_form_head {c p : List Nat} (hc : c.head? = some SLASH) :
    (absolute_form c p).head? = some SLASH := by
  unfold absolute_form
  cases c with
  | nil => exact absurd hc (by simp)
  | cons a c =>
    simp only [List.head?_cons, Option.some.injEq] at hc
    subst hc
    split <;> rfl

/-- A relative path is resolved as its absolute form, when the length test
passes. -/
theorem get_inode_from_path_relative (s : State) {p : List Nat}
    (hp : p.head? ≠ some SLASH)
    (hlen : s.current_path.length + p.length + 1 < MAX_PATH_LENGTH) :
    get_inode_from_path s p =
      get_inode_from_path_fuel s MAX_PATH_LENGTH (absolute_form s.current_path p) := by
  unfold get_inode_from_path absolute_form
  have hl : ¬ (s.current_path.length + p.length + 1 ≥ MAX_PATH_LENGTH) := by omega
  rw [get_inode_from_path_fuel, if_neg hp, if_neg hl]
  by_cases hg : s.current_path.getLast? = some SLASH
  · rw [if_pos hg, if_pos hg]
  · rw [if_neg hg, if_neg hg]

/-- C23 as the code has it.  For a relative path `p`: when
`len(c) + len(p) + 1 ≥ 1024` the result is `-1`; when the current path `c`
starts with `'/'` and `len(c) + len(p) + 1 < 1024`, the result is that of the
absolute form of `p` and also that of `p` with its runs of `'/'` collapsed.
For an absolute path `p` that fits the path buffer the result is that of `p`
with its runs of `'/'` collapsed. -/
theorem relative_resolution_rewrite (s : State) (p : List Nat) :
    (p.head? ≠ some SLASH → s.current_path.length + p.length + 1 ≥ MAX_PATH_LENGTH →
      get_inode_from_path s p = -1) ∧
    (p.head? ≠ some SLASH → s.current_path.head? = some SLASH →
      s.current_path.length + p.length + 1 < MAX_PATH_LENGTH →
      get_inode_from_path s p = get_inode_from_path s (absolute_form s.current_path p) ∧
      get_inode_from_path s (collapse_slashes p) = get_inode_from_path s p) ∧
    (p.head? = some SLASH → p.length < MAX_PATH_LENGTH →
      get_inode_from_path s (collapse_slashes p) = get_inode_from_path s p) := by
  have hcl := collapse_slashes_length p
  refine ⟨fun hp hlen => ?_, fun hp hc hlen => ⟨?_, ?_⟩, fun hp hlen => ?_⟩
  · unfold get_inode_from_path
    rw [get_inode_from_path_fuel, if_neg hp, if_pos hlen]
  · rw [get_inode_from_path_relative s hp hlen]
    unfold get_inode_from_path
    rw [show MAX_PATH_LENGTH = 1023 + 1 from rfl,
      get_inode_from_path_fuel_absolute s _ (absolute_form_head hc),
      get_inode_from_path_fuel_absolute s _ (absolute_form_head hc)]
  · have hp' : (collapse_slashes p).head? ≠ some SLASH := by
      rw [collapse_slashes_head]; exact hp
    rw [get_inode_from_path_relative s hp hlen,
      get_inode_from_path_relative s hp' (by omega),
      show MAX_PATH_LENGTH = 1023 + 1 from rfl,
      get_inode_from_path_fuel_absolute s _ (absolute_form_head hc),
      get_inode_from_path_fuel_absolute s _ (absolute_form_head hc)]
    congr 1
    have hM : MAX_PATH_LENGTH = 1024 := rfl
    unfold absolute_form
    by_cases hg : s.current_path.getLast? = some SLASH
    · rw [if_pos hg, if_pos hg]
      apply split_path_congr
      · rw [List.length_append]; omega
      · rw [List.length_append]; omega
      · exact strtok_loop_append_congr (strtok_loop_collapse p) _ _
    · rw [if_neg hg, if_neg hg]
      apply split_path_congr
      · rw [List.length_append, List.length_append, List.length_singleton]; omega
      · rw [List.length_append, List.length_append, List.length_singleton]; omega
      · rw [List.append_assoc, List.append_assoc]
        exact strtok_loop_append_congr
          (strtok_loop_append_congr (strtok_loop_collapse p) [SLASH]) _ _
  · have hp' : (collapse_slashes p).head? = some SLASH := by
      rw [collapse_slashes_head]; exact hp
    unfold get_inode_from_path
    rw [get_inode_from_path_fuel_absolute s _ hp, get_inode_from_path_fuel_absolute s _ hp']
    congr 1
    apply split_path_congr
    · omega
    · omega
    · exact strtok_loop_collapse p []

/-- The amended C23 after `format; mkdir /a` with the current path `"/"`: the
relative path `"a//."` is resolved as `"/a//."`, and as `"a/."`, to inode 1. -/
theorem relative_resolution_rewrite_witness :
    absolute_form one_dir_state.current_path (cstr "a//.") = cstr "/a//." ∧
      collapse_slashes (cstr "a//.") = cstr "a/." ∧
      get_inode_from_path one_dir_state (cstr "a//.") = 1 ∧
      get_inode_from_path one_dir_state (cstr "a//.") =
        get_inode_from_path one_dir_state
          (absolute_form one_dir_state.current_path (cstr "a//.")) ∧
      get_inode_from_path one_dir_state (collapse_slashes (cstr "a//.")) =
        get_inode_from_path one_dir_state (cstr "a//.") :=
  ⟨by decide!, by decide!, by decide!,
    ((relative_resolution_rewrite one_dir_state (cstr "a//.")).2.1 (by decide!) (by decide!)
      (by decide!)).1,
    ((relative_resolution_rewrite one_dir_state (cstr "a//.")).2.1 (by decide!) (by decide!)
      (by decide!)).2⟩

/-! ### Creating a symbolic link -/

/-- Adding an entry does not change a lookup that found something, unless the
lookup is for the parent and name that are added. -/
theorem find_in_directory_add_other (now : Int) (fs : SuperBlock) (parent target : Int)
    (name : List Nat) (d : Int) (nm : List Nat)
    (hfound : find_in_directory fs d nm ≠ -1)
    (hne : ¬ (parent = d ∧ name.take MAX_FILENAME_LENGTH = nm)) :
    find_in_directory (add_directory_entry now fs parent name target) d nm =
      find_in_directory fs d nm := by
  cases hfj : (List.range MAX_FILES).find?
      (fun (i : Nat) => (fs.directory (i : Int)).inode_number = -1) with
  | none =>
    have e : add_directory_entry now fs parent name target = fs := by
      unfold add_directory_entry
      rw [hfj]
    rw [e]
  | some j0 =>
    have hs := List.find?_range_eq_some.mp hfj
    have hj0 : (fs.directory (j0 : Int)).inode_number = -1 := by simpa using hs.1
    obtain ⟨i, hi, _, hmp, hmn, hk, hfirst⟩ := find_in_directory_first rfl hfound
    have hij : i ≠ j0 := by
      rintro rfl
      rw [hj0] at hk
      exact hfound hk.symm
    have hd : (add_directory_entry now fs parent name target).directory =
        setAt fs.directory (j0 : Int)
          { name := name.take MAX_FILENAME_LENGTH, inode_number := target,
            parent_inode := parent } := add_directory_entry_directory hfj
    have hnew : ∀ j : Nat, j ≠ j0 →
        (add_directory_entry now fs parent name target).directory (j : Int) =
          fs.directory (j : Int) := by
      intro j hj
      rw [hd, setAt_other _ _ (by exact_mod_cast hj)]
    have hnew0 : (add_directory_entry now fs parent name target).directory (j0 : Int) =
        { name := name.take MAX_FILENAME_LENGTH, inode_number := target,
          parent_inode := parent } := by
      rw [hd, setAt_same]
    have e := @find_in_directory_of_first (add_directory_entry now fs parent name target) d nm i
      hi (by rw [hnew i hij]; exact ⟨hmp, hmn⟩)
      (by
        intro j hj
        by_cases hjj : j = j0
        · rw [hjj, hnew0]
          exact hne
        · rw [hnew j hjj]
          exact hfirst j hj)
    rw [e, hnew i hij, hk]

/-- A walk that arrives somewhere arrives at the same inode in an image that
keeps every successful lookup and the kind of every inode a lookup finds. -/
theorem walk_path_stable {fs fs' : SuperBlock}
    (hfind : ∀ d nm, find_in_directory fs d nm ≠ -1 →
      find_in_directory fs' d nm = find_in_directory fs d nm)
    (htype : ∀ d nm, find_in_directory fs d nm ≠ -1 →
      (fs'.inodes (find_in_directory fs d nm)).file_type =
        (fs.inodes (find_in_directory fs d nm)).file_type) :
    ∀ (comps : List (List Nat)) (cur : Int), walk_path fs cur comps ≠ -1 →
      walk_path fs' cur comps = walk_path fs cur comps
  | [], _, _ => rfl
  | c :: rest, cur, h => by
    have ih := walk_path_stable hfind htype rest
    rw [walk_path] at h
    rw [walk_path, walk_path]
    by_cases hdot : c = DOT
    · rw [if_pos hdot] at h
      rw [if_pos hdot, if_pos hdot]
      exact ih cur h
    · rw [if_neg hdot] at h
      rw [if_neg hdot, if_neg hdot]
      by_cases hdd : c = DOTDOT
      · rw [if_pos hdd] at h
        rw [if_pos hdd, if_pos hdd]
        by_cases hf : find_in_directory fs cur DOTDOT = -1
        · rw [if_pos hf] at h
          exact absurd rfl h
        · rw [if_neg hf] at h
          rw [hfind _ _ hf, if_neg hf, if_neg hf]
          exact ih _ h
      · rw [if_neg hdd] at h
        rw [if_neg hdd, if_neg hdd]
        by_cases hf : find_in_directory fs cur c = -1
        · rw [if_pos hf] at h
          exact absurd rfl h
        · rw [if_neg hf] at h
          rw [hfind _ _ hf, if_neg hf, if_neg hf, htype _ _ hf]
          by_cases ht : (fs.inodes (find_in_directory fs cur c)).file_type ≠ FILE_TYPE_DIR ∧
              rest ≠ []
          · rw [if_pos ht] at h
            exact absurd rfl h
          · rw [if_neg ht] at h
            rw [if_neg ht, if_neg ht]
            exact ih _ h

/-- Two `'/'` in a row read as one. -/
theorem strtok_loop_double_slash (x tok : List Nat) :
    strtok_loop (SLASH :: SLASH :: x) tok = strtok_loop (SLASH :: x) tok := by
  have u : ∀ r : List Nat, strtok_loop (SLASH :: r) tok =
      if tok = [] then strtok_loop r [] else tok :: strtok_loop r [] := fun r => by
    rw [strtok_loop, if_pos rfl]
  have v : strtok_loop (SLASH :: x) [] = strtok_loop x [] := by
    rw [strtok_loop, if_pos rfl, if_pos rfl]
  rw [u (SLASH :: x), u x, v]

/-- The path that `create_symlink` stores for a target that resolves: it
starts with `'/'`, it is the target itself when the target is absolute, and
the walk from the root over its components is the resolution of the target. -/
theorem stored_symlink_path_resolves (s : State) (target : List Nat)
    (ht : get_inode_from_path s target ≠ -1)
    (htl : target.length < MAX_PATH_LENGTH)
    (hc : s.current_path.head? = some SLASH) :
    (stored_symlink_path s target).head? = some SLASH ∧
    (target.head? = some SLASH → stored_symlink_path s target = target) ∧
    (target.head? ≠ some SLASH →
      stored_symlink_path s target = s.current_path ++ target ∨
      stored_symlink_path s target = s.current_path ++ [SLASH] ++ target) ∧
    get_inode_from_path s target =
      walk_path s.fs (s.fs.directory 0).inode_number
        (split_path (stored_symlink_path s target)) := by
  have hM : MAX_PATH_LENGTH = 1024 := rfl
  by_cases hp : target.head? = some SLASH
  · have hle : target.length ≤ MAX_PATH_LENGTH - 1 := by omega
    have e : stored_symlink_path s target = target := by
      unfold stored_symlink_path
      rw [if_pos hp, List.take_of_length_le hle, List.take_of_length_le hle]
    refine ⟨by rw [e]; exact hp, fun _ => e, fun h => absurd hp h, ?_⟩
    rw [e]
    exact get_inode_from_path_fuel_absolute s _ hp
  · have hlen : s.current_path.length + target.length + 1 < MAX_PATH_LENGTH := by
      by_contra hl
      apply ht
      unfold get_inode_from_path
      rw [get_inode_from_path_fuel, if_neg hp, if_pos (by omega)]
    have hres := get_inode_from_path_relative s hp hlen
    rw [show MAX_PATH_LENGTH = 1023 + 1 from rfl,
      get_inode_from_path_fuel_absolute s _ (absolute_form_head hc)] at hres
    by_cases h1 : s.current_path = [SLASH]
    · have e : stored_symlink_path s target = s.current_path ++ target := by
        unfold stored_symlink_path
        rw [if_neg hp, if_neg (not_not.mpr h1), List.take_of_length_le]
        rw [List.length_append]; omega
      have ea : absolute_form s.current_path target = s.current_path ++ target := by
        unfold absolute_form
        rw [if_pos (by rw [h1]; rfl)]
      refine ⟨?_, fun h => absurd h hp, fun _ => Or.inl e, ?_⟩
      · rw [e, h1]; rfl
      · rw [hres, e, ea]
    · have e : stored_symlink_path s target = s.current_path ++ [SLASH] ++ target := by
        unfold stored_symlink_path
        rw [if_neg hp, if_pos h1, List.take_of_length_le]
        rw [List.length_append, List.length_append, List.length_singleton]; omega
      refine ⟨?_, fun h => absurd h hp, fun _ => Or.inr e, ?_⟩
      · rw [e, List.append_assoc, List.head?_append_of_ne_nil]
        · exact hc
        · intro hnil
          rw [hnil] at hc
          exact absurd hc (by simp)
      · rw [hres, e]
        congr 1
        unfold absolute_form
        by_cases hg : s.current_path.getLast? = some SLASH
        · rw [if_pos hg]
          have hcs : s.current_path.dropLast ++ [SLASH] = s.current_path :=
            List.dropLast_append_getLast? SLASH hg
          apply split_path_congr
          · rw [List.length_append]; omega
          · rw [List.length_append, List.length_append, List.length_singleton]; omega
          · rw [← hcs, List.append_assoc, List.append_assoc, List.append_assoc]
            exact (strtok_loop_append_congr
              (fun tok => strtok_loop_double_slash target tok) _ _).symm
        · rw [if_neg hg]

/-- Where the directory table has a free slot, `create_symlink` does what C30
says: for a target that resolves and a link name that is free in a parent that
resolves, with a free inode that no entry refers to, the call reports success,
the new entry leads to the inode taken from the free list, that inode is a
symbolic link, its stored path starts with `'/'` (the target when that is
absolute, otherwise the current path joined with it), the stored path resolves
in the new state to the inode the target resolved to, and the size of the
inode is the length of the stored path. -/
theorem create_symlink_success (now : Int) (s : State) (target linkpath : List Nat)
    (ht : get_inode_from_path s target ≠ -1)
    (htl : target.length < MAX_PATH_LENGTH)
    (hc : s.current_path.head? = some SLASH)
    (hp : get_parent_directory_inode s linkpath ≠ -1)
    (habs : find_in_directory s.fs (get_parent_directory_inode s linkpath)
      (extract_last_path_component linkpath) = -1)
    (hname : (extract_last_path_component linkpath).length ≤ MAX_FILENAME_LENGTH)
    (hfree : s.fs.free_inode_head ≠ -1)
    (hslot : ∃ j : Nat, j < MAX_FILES ∧ (s.fs.directory (j : Int)).inode_number = -1)
    (hroot : (s.fs.directory 0).inode_number ≠ -1)
    (hunref : ∀ i : Nat, i < MAX_FILES →
      (s.fs.directory (i : Int)).inode_number ≠ s.fs.free_inode_head)
    (hpk : get_parent_directory_inode s linkpath ≠ s.fs.free_inode_head) :
    (create_symlink now s target linkpath).2 = "Symbolic link created successfully" ∧
    (allocate_inode now s.fs).2 = s.fs.free_inode_head ∧
    find_in_directory (create_symlink now s target linkpath).1.fs
      (get_parent_directory_inode s linkpath) (extract_last_path_component linkpath) =
      s.fs.free_inode_head ∧
    ((create_symlink now s target linkpath).1.fs.inodes s.fs.free_inode_head).file_type =
      FILE_TYPE_SYMLINK ∧
    ((create_symlink now s target linkpath).1.fs.inodes s.fs.free_inode_head).symlink_path =
      stored_symlink_path s target ∧
    (stored_symlink_path s target).head? = some SLASH ∧
    (target.head? = some SLASH → stored_symlink_path s target = target) ∧
    (target.head? ≠ some SLASH →
      stored_symlink_path s target = s.current_path ++ target ∨
      stored_symlink_path s target = s.current_path ++ [SLASH] ++ target) ∧
    get_inode_from_path (create_symlink now s target linkpath).1 (stored_symlink_path s target) =
      get_inode_from_path s target ∧
    ((create_symlink now s target linkpath).1.fs.inodes s.fs.free_inode_head).size =
      (stored_symlink_path s target).length := by
  obtain ⟨hhead, habsolute, hrelative, hwalk⟩ := stored_symlink_path_resolves s target ht htl hc
  have hal : allocate_inode now s.fs =
      ({ s.fs with
          free_inode_head := (s.fs.inodes s.fs.free_inode_head).link_count,
          inodes := setAt s.fs.inodes s.fs.free_inode_head
            { zero_inode with inode_number := s.fs.free_inode_head, ctime := now } },
        s.fs.free_inode_head) := by
    unfold allocate_inode
    rw [if_neg hfree]
  have hal2 : (allocate_inode now s.fs).2 = s.fs.free_inode_head := by rw [hal]
  have hcs : create_symlink now s target linkpath =
      (s.save (add_directory_entry now
        ((allocate_inode now s.fs).1.setInode (allocate_inode now s.fs).2
          { (allocate_inode now s.fs).1.inodes (allocate_inode now s.fs).2 with
            file_type := FILE_TYPE_SYMLINK,
            permissions := PERM_READ ||| PERM_WRITE,
            size := (stored_symlink_path s target).length,
            link_count := 1,
            page_count := 0,
            ctime := now, mtime := now, atime := now,
            symlink_path := stored_symlink_path s target })
        (get_parent_directory_inode s linkpath) (extract_last_path_component linkpath)
        (allocate_inode now s.fs).2),
      "Symbolic link created successfully") := by
    unfold create_symlink
    rw [if_neg ht, if_neg hp, if_neg (not_not.mpr habs), if_neg (by rw [hal2]; exact hfree)]
  rw [hcs]
  generalize hA : (allocate_inode now s.fs).1.setInode (allocate_inode now s.fs).2
      { (allocate_inode now s.fs).1.inodes (allocate_inode now s.fs).2 with
        file_type := FILE_TYPE_SYMLINK,
        permissions := PERM_READ ||| PERM_WRITE,
        size := (stored_symlink_path s target).length,
        link_count := 1,
        page_count := 0,
        ctime := now, mtime := now, atime := now,
        symlink_path := stored_symlink_path s target } = fsA
  rw [hal2]
  have hAd : fsA.directory = s.fs.directory := by
    rw [← hA, hal]; rfl
  have hAk : fsA.inodes s.fs.free_inode_head =
      { (allocate_inode now s.fs).1.inodes (allocate_inode now s.fs).2 with
        file_type := FILE_TYPE_SYMLINK,
        permissions := PERM_READ ||| PERM_WRITE,
        size := (stored_symlink_path s target).length,
        link_count := 1,
        page_count := 0,
        ctime := now, mtime := now, atime := now,
        symlink_path := stored_symlink_path s target } := by
    rw [← hA]
    simp only [SuperBlock.setInode, hal2, setAt_same]
  have hAo : ∀ r, r ≠ s.fs.free_inode_head → fsA.inodes r = s.fs.inodes r := by
    intro r hr
    rw [← hA, hal]
    simp only [SuperBlock.setInode, setAt_other _ _ hr]
  have hfr := add_directory_entry_frame now fsA (get_parent_directory_inode s linkpath)
    (extract_last_path_component linkpath) s.fs.free_inode_head
  have hkeep := (hfr.2.2.2 s.fs.free_inode_head).2.2.2.2.2 (fun h => hpk h.symm)
  have hslotA : ∃ j : Nat, j < MAX_FILES ∧ (fsA.directory (j : Int)).inode_number = -1 := by
    rw [hAd]; exact hslot
  have hnm : (extract_last_path_component linkpath).take MAX_FILENAME_LENGTH =
      extract_last_path_component linkpath := List.take_of_length_le hname
  refine ⟨rfl, rfl, ?_, ?_, ?_, hhead, habsolute, hrelative, ?_, ?_⟩
  · exact find_in_directory_add now fsA _ _ _ hslotA
      (by rw [find_in_directory_congr hAd]; exact habs) hname
  · show ((add_directory_entry now fsA _ _ _).inodes _).file_type = _
    rw [hkeep, hAk]
  · show ((add_directory_entry now fsA _ _ _).inodes _).symlink_path = _
    rw [hkeep, hAk]
  · rw [hwalk]
    have hnewabs : get_inode_from_path
        (s.save (add_directory_entry now fsA (get_parent_directory_inode s linkpath)
          (extract_last_path_component linkpath) s.fs.free_inode_head))
        (stored_symlink_path s target) =
        walk_path (add_directory_entry now fsA (get_parent_directory_inode s linkpath)
            (extract_last_path_component linkpath) s.fs.free_inode_head)
          ((add_directory_entry now fsA (get_parent_directory_inode s linkpath)
            (extract_last_path_component linkpath) s.fs.free_inode_head).directory
              0).inode_number
          (split_path (stored_symlink_path s target)) :=
      get_inode_from_path_fuel_absolute _ _ hhead
    rw [hnewabs]
    have hfindS : ∀ d nm, find_in_directory s.fs d nm ≠ -1 →
        find_in_directory (add_directory_entry now fsA (get_parent_directory_inode s linkpath)
          (extract_last_path_component linkpath) s.fs.free_inode_head) d nm =
          find_in_directory s.fs d nm := by
      intro d nm hf
      rw [find_in_directory_add_other now fsA _ _ _ d nm
        (by rw [find_in_directory_congr hAd]; exact hf)
        (by
          rintro ⟨h1, h2⟩
          rw [hnm] at h2
          rw [← h1, ← h2] at hf
          exact hf habs),
        find_in_directory_congr hAd]
    have htypeS : ∀ d nm, find_in_directory s.fs d nm ≠ -1 →
        ((add_directory_entry now fsA (get_parent_directory_inode s linkpath)
          (extract_last_path_component linkpath) s.fs.free_inode_head).inodes
            (find_in_directory s.fs d nm)).file_type =
          (s.fs.inodes (find_in_directory s.fs d nm)).file_type := by
      intro d nm hf
      obtain ⟨i, hi, _, _, _, hk, _⟩ := find_in_directory_first rfl hf
      rw [(hfr.2.2.2 _).1, hAo _ (by rw [← hk]; exact hunref i hi)]
    have hrootS : ((add_directory_entry now fsA (get_parent_directory_inode s linkpath)
        (extract_last_path_component linkpath) s.fs.free_inode_head).directory 0).inode_number =
        (s.fs.directory 0).inode_number := by
      have := hfindS
      cases hfj : (List.range MAX_FILES).find?
          (fun (i : Nat) => (fsA.directory (i : Int)).inode_number = -1) with
      | none =>
        have e : add_directory_entry now fsA (get_parent_directory_inode s linkpath)
            (extract_last_path_component linkpath) s.fs.free_inode_head = fsA := by
          unfold add_directory_entry
          rw [hfj]
        rw [e, hAd]
      | some j0 =>
        have hs := List.find?_range_eq_some.mp hfj
        have hj0 : (fsA.directory (j0 : Int)).inode_number = -1 := by simpa using hs.1
        have hne0 : (0 : Int) ≠ (j0 : Int) := by
          intro h0
          rw [← h0, hAd] at hj0
          exact hroot hj0
        rw [add_directory_entry_directory hfj, setAt_other _ _ hne0, hAd]
    rw [hrootS]
    apply walk_path_stable hfindS htypeS
    rw [← hwalk]
    exact ht
  · show ((add_directory_entry now fsA _ _ _).inodes _).size = _
    rw [hkeep, hAk]

/-- The success case of `create_symlink` after `format; touch /f`: the call
`create_symlink "/f" "/l"` takes inode 2. -/
theorem create_symlink_success_witness :
    (create_symlink 0 one_file_state (cstr "/f") (cstr "/l")).2 =
      "Symbolic link created successfully" ∧
    one_file_state.fs.free_inode_head = 2 ∧
    get_inode_from_path one_file_state (cstr "/f") = 1 ∧
    get_inode_from_path (create_symlink 0 one_file_state (cstr "/f") (cstr "/l")).1
      (stored_symlink_path one_file_state (cstr "/f")) =
      get_inode_from_path one_file_state (cstr "/f") :=
  have h := create_symlink_success 0 one_file_state (cstr "/f") (cstr "/l")
    (by decide!) (by decide!) (by decide!) (by decide!) (by decide!) (by decide!) (by decide!)
    ⟨3, by decide!, by decide!⟩ (by decide!)
    (fun i hi =>
      (by decide! : ∀ j : Fin MAX_FILES,
        (one_file_state.fs.directory (j.val : Int)).inode_number ≠
          one_file_state.fs.free_inode_head) ⟨i, hi⟩)
    (by decide!)
  ⟨h.1, by decide!, by decide!, h.2.2.2.2.2.2.2.2.1⟩

/-- A target that does not resolve is refused by `create_symlink` and the
state is unchanged. -/
theorem create_symlink_dangling (now : Int) (s : State) (target linkpath : List Nat)
    (h : get_inode_from_path s target = -1) :
    create_symlink now s target linkpath = (s, "Target file not found") := by
  unfold create_symlink
  rw [if_pos h]

/-! ### The inode allocator -/

/-- C31: with a free list that starts at `h ≥ 0`, `allocate_inode` returns
`h`, makes the value stored in the link count of inode `h` the new head, and
leaves inode `h` zeroed but for `inode_number = h` and the create timestamp;
no other inode and no other table changes.  With an empty free list it
returns `-1` and changes nothing.  After `free_inode i` the next
`allocate_inode` returns `i` and the head is the one before the release. -/
theorem allocate_inode_spec (now : Int) (fs : SuperBlock) :
    (0 ≤ fs.free_inode_head →
      (allocate_inode now fs).2 = fs.free_inode_head ∧
      (allocate_inode now fs).1.free_inode_head = (fs.inodes fs.free_inode_head).link_count ∧
      (allocate_inode now fs).1.inodes fs.free_inode_head =
        { inode_number := fs.free_inode_head, size := 0, file_type := 0, permissions := 0,
          link_count := 0, atime := 0, mtime := 0, ctime := now, page_count := 0,
          pages := fun _ => 0, symlink_path := [] } ∧
      (∀ k, k ≠ fs.free_inode_head → (allocate_inode now fs).1.inodes k = fs.inodes k) ∧
      (allocate_inode now fs).1.directory = fs.directory ∧
      (allocate_inode now fs).1.page_table = fs.page_table ∧
      (allocate_inode now fs).1.free_page_head = fs.free_page_head) ∧
    (fs.free_inode_head = -1 → allocate_inode now fs = (fs, -1)) ∧
    (∀ i : Int, 0 ≤ i →
      (allocate_inode now (free_inode fs i)).2 = i ∧
      (allocate_inode now (free_inode fs i)).1.free_inode_head = fs.free_inode_head) := by
  refine ⟨fun h => ?_, fun h => ?_, fun i hi => ?_⟩
  · have hne : fs.free_inode_head ≠ -1 := by omega
    unfold allocate_inode
    rw [if_neg hne]
    refine ⟨rfl, rfl, ?_, fun k hk => ?_, rfl, rfl, rfl⟩
    · show setAt fs.inodes fs.free_inode_head _ fs.free_inode_head = _
      rw [setAt_same]
      rfl
    · show setAt fs.inodes fs.free_inode_head _ k = _
      rw [setAt_other _ _ hk]
  · unfold allocate_inode
    rw [if_pos h]
  · have hne : (free_inode fs i).free_inode_head ≠ -1 := by
      show i ≠ -1
      omega
    unfold allocate_inode
    rw [if_neg hne]
    refine ⟨rfl, ?_⟩
    show ((free_inode fs i).inodes i).link_count = fs.free_inode_head
    unfold free_inode
    show (setAt fs.inodes i _ i).link_count = _
    rw [setAt_same]

/-- C31 after `format`: the free list starts at inode 1, which
`allocate_inode` returns, and inode 2 is the new head. -/
theorem allocate_inode_spec_witness :
    (format_partition 0).fs.free_inode_head = 1 ∧
      (allocate_inode 7 (format_partition 0).fs).2 = (format_partition 0).fs.free_inode_head ∧
      (allocate_inode 7 (format_partition 0).fs).1.free_inode_head =
        ((format_partition 0).fs.inodes (format_partition 0).fs.free_inode_head).link_count ∧
      (allocate_inode 7 (format_partition 0).fs).1.free_inode_head = 2 :=
  have h := (allocate_inode_spec 7 (format_partition 0).fs).1 (by decide!)
  ⟨by decide!, h.1, h.2.1, by decide!⟩

/-! ### Changing the working directory -/

/-- C32: for an absolute path `p` shorter than the path buffer that does not
end with `'/'` and resolves to a directory with the read and the execute bit,
`change_directory p` makes `p` the current path, which
`print_working_directory` then prints; when the path does not resolve, the
symbolic link it names cannot be resolved, the inode reached is not a
directory, or the permission test fails, the state (current path included) is
unchanged. -/
theorem change_directory_absolute (now : Int) (s : State) (p : List Nat) :
    (p.head? = some SLASH → p.getLast? ≠ some SLASH → p.length < MAX_PATH_LENGTH →
      get_inode_from_path s p ≠ -1 →
      (s.fs.inodes (get_inode_from_path s p)).file_type = FILE_TYPE_DIR →
      (s.fs.inodes (get_inode_from_path s p)).permissions &&& PERM_READ ≠ 0 →
      (s.fs.inodes (get_inode_from_path s p)).permissions &&& PERM_EXECUTE ≠ 0 →
      (change_directory now s p).1.current_path = p ∧
      print_working_directory (change_directory now s p).1 = p ++ [10] ∧
      (change_directory now s p).2 =
        "Changed directory to: " ++ String.mk (p.map Char.ofNat)) ∧
    (get_inode_from_path s p = -1 ∨ target_inode s p = -1 ∨
        (s.fs.inodes (target_inode s p)).file_type ≠ FILE_TYPE_DIR ∨
        check_directory_permission s.fs (target_inode s p) (PERM_READ ||| PERM_EXECUTE) = 0 →
      (change_directory now s p).1 = s) := by
  constructor
  · intro habs hlast hlen hget hdir hr hx
    have hns : ¬ (s.fs.inodes (get_inode_from_path s p)).file_type = FILE_TYPE_SYMLINK := by
      rw [hdir]; decide
    have htarget : target_inode s p = get_inode_from_path s p := by
      unfold target_inode
      rw [if_neg hns]
    have hwork : working_path s p = p := by
      unfold working_path
      rw [if_neg hns]
    have hcheck : check_directory_permission s.fs (get_inode_from_path s p)
        (PERM_READ ||| PERM_EXECUTE) = 1 := by
      unfold check_directory_permission
      rw [if_neg hget, if_neg (not_not.mpr hdir), if_neg (by decide), if_pos rfl,
        if_pos ⟨hr, hx⟩]
    have hdot : p ≠ DOT := by
      intro h
      rw [h] at habs
      exact absurd habs (by decide)
    have hbuilt : drop_trailing_slash (built_path s p) = p := by
      unfold built_path
      rw [if_pos habs, List.take_of_length_le (by omega)]
      unfold drop_trailing_slash
      rw [if_neg (fun h => hlast h.2)]
    have hcd : change_directory now s p =
        ({ fs := s.fs.setInode (get_inode_from_path s p)
              { s.fs.inodes (get_inode_from_path s p) with atime := now },
           current_path := p },
          "Changed directory to: " ++ String.mk (p.map Char.ofNat)) := by
      unfold change_directory
      rw [if_neg hget, if_neg (fun h => hns h.1), htarget, if_neg (not_not.mpr hdir), hcheck,
        if_neg (by decide), hwork, if_neg hdot, hbuilt]
    rw [hcd]
    exact ⟨rfl, rfl, rfl⟩
  · intro h
    unfold change_directory
    by_cases h1 : get_inode_from_path s p = -1
    · rw [if_pos h1]
    · rw [if_neg h1]
      by_cases h2 : (s.fs.inodes (get_inode_from_path s p)).file_type = FILE_TYPE_SYMLINK ∧
          resolve_symlink s (get_inode_from_path s p) = -1
      · rw [if_pos h2]
      · rw [if_neg h2]
        by_cases h3 : (s.fs.inodes (target_inode s p)).file_type ≠ FILE_TYPE_DIR
        · rw [if_pos h3]
        · rw [if_neg h3]
          by_cases h4 : check_directory_permission s.fs (target_inode s p)
              (PERM_READ ||| PERM_EXECUTE) = 0
          · rw [if_pos h4]
          · exfalso
            rcases h with h | h | h | h
            · exact h1 h
            · unfold target_inode at h
              by_cases hs : (s.fs.inodes (get_inode_from_path s p)).file_type =
                  FILE_TYPE_SYMLINK
              · rw [if_pos hs] at h
                exact h2 ⟨hs, h⟩
              · rw [if_neg hs] at h
                exact h1 h
            · exact h3 h
            · exact h4 h

/-- C32 in the scenario of the claim: after `format; mkdir /a; mkdir /a/b;
cd /a/b` the working directory printed is `/a/b`; and `cd /x`, which does not
resolve, leaves the state as it is. -/
theorem change_directory_absolute_witness :
    get_inode_from_path two_dirs_state (cstr "/a/b") = 2 ∧
      ((change_directory 0 two_dirs_state (cstr "/a/b")).1.current_path = cstr "/a/b" ∧
        print_working_directory (change_directory 0 two_dirs_state (cstr "/a/b")).1 =
          cstr "/a/b" ++ [10] ∧
        (change_directory 0 two_dirs_state (cstr "/a/b")).2 =
          "Changed directory to: " ++ String.mk ((cstr "/a/b").map Char.ofNat)) ∧
      (change_directory 0 two_dirs_state (cstr "/x")).1 = two_dirs_state :=
  ⟨by decide!,
    (change_directory_absolute 0 two_dirs_state (cstr "/a/b")).1 (by decide) (by decide)
      (by decide) (by decide!) (by decide!) (by decide!) (by decide!),
    (change_directory_absolute 0 two_dirs_state (cstr "/x")).2 (Or.inl (by decide!))⟩

/-! ### Adding an entry and removing it again -/

/-- A table cell replaced by its own value is the table. -/
theorem setAt_self {α : Type} (f : Int → α) (i : Int) : setAt f i (f i) = f := by
  funext j
  by_cases h : j = i
  · rw [h, setAt_same]
  · rw [setAt_other _ _ h]

/-- C34: when the table has a free slot, no occupied entry has the parent and
the name, the name fits the name buffer and the parent is an inode of the
table whose recorded size can grow by one entry unit, then after
`add_directory_entry` the lookup returns the target and the recorded size
of the parent is one unit (264) larger; after the following
`remove_directory_entry` the lookup returns `-1`, the recorded size of the
parent is the one before, every entry that was occupied is as before and
every slot that was free is free.  `remove_directory_entry` for a parent and
name that no slot holds changes nothing, and neither does it for a parent and
name that no occupied slot holds when the free slots are cleared. -/
theorem directory_entry_round_trip (now now' : Int) (fs : SuperBlock) (parent target : Int)
    (name : List Nat) :
    ((∃ j : Nat, j < MAX_FILES ∧ (fs.directory (j : Int)).inode_number = -1) →
      (∀ i : Nat, i < MAX_FILES → (fs.directory (i : Int)).inode_number ≠ -1 →
        ¬ ((fs.directory (i : Int)).parent_inode = parent ∧
          (fs.directory (i : Int)).name = name)) →
      name.length < MAX_FILENAME_LENGTH →
      0 ≤ parent ∧ parent < (MAX_FILES : Int) →
      (fs.inodes parent).size + SIZEOF_DIRECTORY_ENTRY < SIZE_MOD →
      find_in_directory (add_directory_entry now fs parent name target) parent name = target ∧
      ((add_directory_entry now fs parent name target).inodes parent).size =
        (fs.inodes parent).size + SIZEOF_DIRECTORY_ENTRY ∧
      find_in_directory
        (remove_directory_entry now' (add_directory_entry now fs parent name target)
          name parent) parent name = -1 ∧
      ((remove_directory_entry now' (add_directory_entry now fs parent name target)
          name parent).inodes parent).size = (fs.inodes parent).size ∧
      (∀ i : Int, (fs.directory i).inode_number ≠ -1 →
        (remove_directory_entry now' (add_directory_entry now fs parent name target)
          name parent).directory i = fs.directory i) ∧
      (∀ i : Int, (fs.directory i).inode_number = -1 →
        ((remove_directory_entry now' (add_directory_entry now fs parent name target)
          name parent).directory i).inode_number = -1)) ∧
    ((∀ i : Nat, i < MAX_FILES →
        ¬ ((fs.directory (i : Int)).parent_inode = parent ∧
          (fs.directory (i : Int)).name = name)) →
      remove_directory_entry now fs name parent = fs) ∧
    ((∀ i : Nat, i < MAX_FILES → (fs.directory (i : Int)).inode_number ≠ -1 →
        ¬ ((fs.directory (i : Int)).parent_inode = parent ∧
          (fs.directory (i : Int)).name = name)) →
      (∀ i : Nat, i < MAX_FILES → (fs.directory (i : Int)).inode_number = -1 →
        (fs.directory (i : Int)).parent_inode = -1 ∧ (fs.directory (i : Int)).name = []) →
      remove_directory_entry now fs name parent = fs) := by
  refine ⟨fun hslot habsent hname hparent hsize => ?_, fun hno => ?_, fun habsent hclear => ?_⟩
  · obtain ⟨j1, hj1, hfree1⟩ := hslot
    -- the first free slot
    cases hfj : (List.range MAX_FILES).find?
        (fun (i : Nat) => (fs.directory (i : Int)).inode_number = -1) with
    | none =>
      have := List.find?_range_eq_none.mp hfj j1 hj1
      simp only [Bool.not_eq_true', decide_eq_false_iff_not] at this
      exact absurd hfree1 this
    | some j0 =>
      have hs := List.find?_range_eq_some.mp hfj
      have hj0 : (fs.directory (j0 : Int)).inode_number = -1 := by simpa using hs.1
      have hj0lt : j0 < MAX_FILES := List.mem_range.mp hs.2.1
      have hbefore : ∀ j : Nat, j < j0 → (fs.directory (j : Int)).inode_number ≠ -1 := by
        intro j hj
        have := hs.2.2 j hj
        simpa using this
      have htake : name.take MAX_FILENAME_LENGTH = name :=
        List.take_of_length_le (Nat.le_of_lt hname)
      -- the image after the addition
      have hadd : add_directory_entry now fs parent name target =
          (fs.setEntry (j0 : Int)
            { name := name, inode_number := target, parent_inode := parent }).setInode parent
            { fs.inodes parent with
              size := ((fs.inodes parent).size + SIZEOF_DIRECTORY_ENTRY) % SIZE_MOD,
              mtime := now } := by
        unfold add_directory_entry
        rw [hfj]
        simp only [if_pos hparent, htake]
        rfl
      have haddd : (add_directory_entry now fs parent name target).directory =
          setAt fs.directory (j0 : Int)
            { name := name, inode_number := target, parent_inode := parent } := by
        rw [hadd]; rfl
      have hadds : ((add_directory_entry now fs parent name target).inodes parent).size =
          (fs.inodes parent).size + SIZEOF_DIRECTORY_ENTRY := by
        rw [hadd]
        simp only [SuperBlock.setInode, setAt_same]
        exact Nat.mod_eq_of_lt hsize
      -- the first slot with the parent and the name after the addition
      have hfirst : (List.range MAX_FILES).find?
          (fun (i : Nat) =>
            ((add_directory_entry now fs parent name target).directory (i : Int)).parent_inode =
                parent ∧
              ((add_directory_entry now fs parent name target).directory (i : Int)).name =
                name) = some j0 := by
        apply List.find?_range_eq_some.mpr
        refine ⟨?_, List.mem_range.mpr hj0lt, ?_⟩
        · rw [haddd, setAt_same]
          simp
        · intro j hj
          have hne : (j : Int) ≠ (j0 : Int) := by
            intro h
            have : j = j0 := by exact_mod_cast h
            omega
          rw [haddd, setAt_other _ _ hne]
          simp only [Bool.not_eq_true', decide_eq_false_iff_not]
          exact habsent j (by omega) (hbefore j hj)
      have hfind1 : find_in_directory (add_directory_entry now fs parent name target)
          parent name = target := by
        unfold find_in_directory
        rw [hfirst, haddd]
        simp only [setAt_same]
      -- the image after the removal
      have hrem : remove_directory_entry now' (add_directory_entry now fs parent name target)
          name parent =
          ((add_directory_entry now fs parent name target).setInode parent
            { (add_directory_entry now fs parent name target).inodes parent with
              size := (((add_directory_entry now fs parent name target).inodes parent).size +
                SIZE_MOD - SIZEOF_DIRECTORY_ENTRY) % SIZE_MOD,
              mtime := now' }).setEntry (j0 : Int)
            { name := [], inode_number := -1, parent_inode := -1 } := by
        unfold remove_directory_entry
        rw [hfirst]
        simp only [if_pos hparent]
      have hremd : (remove_directory_entry now'
          (add_directory_entry now fs parent name target) name parent).directory =
          setAt (setAt fs.directory (j0 : Int)
            { name := name, inode_number := target, parent_inode := parent }) (j0 : Int)
            { name := [], inode_number := -1, parent_inode := -1 } := by
        rw [hrem]
        show setAt (add_directory_entry now fs parent name target).directory _ _ = _
        rw [haddd]
      have hrems : ((remove_directory_entry now'
          (add_directory_entry now fs parent name target) name parent).inodes parent).size =
          (fs.inodes parent).size := by
        rw [hrem]
        simp only [SuperBlock.setInode, SuperBlock.setEntry, setAt_same]
        rw [hadds]
        have e : (fs.inodes parent).size + SIZEOF_DIRECTORY_ENTRY + SIZE_MOD -
            SIZEOF_DIRECTORY_ENTRY = (fs.inodes parent).size + SIZE_MOD := by omega
        rw [e, Nat.add_mod_right]
        exact Nat.mod_eq_of_lt (by omega)
      have hslots : ∀ i : Int, i ≠ (j0 : Int) →
          (remove_directory_entry now' (add_directory_entry now fs parent name target)
            name parent).directory i = fs.directory i := by
        intro i hi
        rw [hremd, setAt_other _ _ hi, setAt_other _ _ hi]
      have hslot0 : (remove_directory_entry now'
          (add_directory_entry now fs parent name target) name parent).directory (j0 : Int) =
          { name := [], inode_number := -1, parent_inode := -1 } := by
        rw [hremd, setAt_same]
      refine ⟨hfind1, hadds, ?_, hrems, ?_, ?_⟩
      · unfold find_in_directory
        cases hf2 : (List.range MAX_FILES).find?
            (fun (i : Nat) =>
              ((remove_directory_entry now' (add_directory_entry now fs parent name target)
                name parent).directory (i : Int)).parent_inode = parent ∧
              ((remove_directory_entry now' (add_directory_entry now fs parent name target)
                name parent).directory (i : Int)).name = name) with
        | none => rfl
        | some i =>
          have hs2 := List.find?_range_eq_some.mp hf2
          have hi : i < MAX_FILES := List.mem_range.mp hs2.2.1
          have hm := hs2.1
          simp only [decide_eq_true_eq] at hm
          show ((remove_directory_entry now' (add_directory_entry now fs parent name target)
            name parent).directory (i : Int)).inode_number = -1
          by_cases hij : (i : Int) = (j0 : Int)
          · rw [hij, hslot0]
          · rw [hslots _ hij] at hm ⊢
            by_contra hocc
            exact habsent i hi hocc hm
      · intro i hi
        apply hslots
        intro h
        rw [h] at hi
        exact hi hj0
      · intro i hi
        by_cases hij : i = (j0 : Int)
        · rw [hij, hslot0]
        · rw [hslots _ hij]
          exact hi
  · unfold remove_directory_entry
    have hf : (List.range MAX_FILES).find?
        (fun (i : Nat) => (fs.directory (i : Int)).parent_inode = parent ∧
          (fs.directory (i : Int)).name = name) = none := by
      apply List.find?_range_eq_none.mpr
      intro i hi
      simp only [Bool.not_eq_true', decide_eq_false_iff_not]
      exact hno i hi
    rw [hf]
  · unfold remove_directory_entry
    cases hf : (List.range MAX_FILES).find?
        (fun (i : Nat) => (fs.directory (i : Int)).parent_inode = parent ∧
          (fs.directory (i : Int)).name = name) with
    | none => rfl
    | some i =>
      have hs := List.find?_range_eq_some.mp hf
      have hi : i < MAX_FILES := List.mem_range.mp hs.2.1
      have hm := hs.1
      simp only [decide_eq_true_eq] at hm
      have hfree : (fs.directory (i : Int)).inode_number = -1 := by
        by_contra hocc
        exact habsent i hi hocc hm
      obtain ⟨hp, hn⟩ := hclear i hi hfree
      have hparent : parent = -1 := by rw [← hm.1, hp]
      have hnr : ¬ (0 ≤ parent ∧ parent < (MAX_FILES : Int)) := by
        rw [hparent]; decide
      simp only [if_neg hnr]
      have hentry : ({ name := [], inode_number := -1, parent_inode := -1 } : DirectoryEntry) =
          fs.directory (i : Int) := by
        cases hd : fs.directory (i : Int) with
        | mk n k q =>
          rw [hd] at hp hn hfree
          simp only at hp hn hfree
          rw [hp, hn, hfree]
      show ({ fs with directory := setAt fs.directory (i : Int) _ } : SuperBlock) = fs
      rw [hentry, setAt_self]

/-- C34 after `format; touch /f`: the entry `x` is added to the root for
inode 7 and removed again. -/
theorem directory_entry_round_trip_witness :
    find_in_directory (add_directory_entry 1 one_file_state.fs 0 (cstr "x") 7) 0 (cstr "x") =
        7 ∧
      ((add_directory_entry 1 one_file_state.fs 0 (cstr "x") 7).inodes 0).size =
        (one_file_state.fs.inodes 0).size + SIZEOF_DIRECTORY_ENTRY ∧
      find_in_directory
        (remove_directory_entry 2 (add_directory_entry 1 one_file_state.fs 0 (cstr "x") 7)
          (cstr "x") 0) 0 (cstr "x") = -1 ∧
      ((remove_directory_entry 2 (add_directory_entry 1 one_file_state.fs 0 (cstr "x") 7)
          (cstr "x") 0).inodes 0).size = (one_file_state.fs.inodes 0).size ∧
      remove_directory_entry 3 one_file_state.fs (cstr "x") 0 = one_file_state.fs :=
  have hocc : ∀ i : Nat, i < MAX_FILES →
      (one_file_state.fs.directory (i : Int)).inode_number ≠ -1 →
      ¬ ((one_file_state.fs.directory (i : Int)).parent_inode = 0 ∧
        (one_file_state.fs.directory (i : Int)).name = cstr "x") :=
    fun i hi =>
      (by decide! : ∀ j : Fin MAX_FILES,
        (one_file_state.fs.directory (j.val : Int)).inode_number ≠ -1 →
        ¬ ((one_file_state.fs.directory (j.val : Int)).parent_inode = 0 ∧
          (one_file_state.fs.directory (j.val : Int)).name = cstr "x")) ⟨i, hi⟩
  have h := (directory_entry_round_trip 1 2 one_file_state.fs 0 7 (cstr "x")).1
    ⟨3, by decide, by decide!⟩ hocc (by decide) (by decide) (by decide!)
  ⟨h.1, h.2.1, h.2.2.1, h.2.2.2.1,
    (directory_entry_round_trip 3 3 one_file_state.fs 0 7 (cstr "x")).2.2 hocc
      (fun i hi =>
        (by decide! : ∀ j : Fin MAX_FILES,
          (one_file_state.fs.directory (j.val : Int)).inode_number = -1 →
          (one_file_state.fs.directory (j.val : Int)).parent_inode = -1 ∧
            (one_file_state.fs.directory (j.val : Int)).name = []) ⟨i, hi⟩)⟩

/-! ### The size of a directory -/

/-- C33 (`get_dir_size` is the directory's own size plus the contributions of
its children other than `"."` and `".."`) fails on the code.  After `format;
mkdir /a; mkdir /a/b` the directory `/a/b` (inode 2, recorded size 1056) has
no entry but `"."` and `".."`, and `get_dir_size` returns 3432 for it: its
own size, the size of `"."` (itself again) and the size of `".."` (1320, the
size of `/a`).  For `/a` (inode 1) the result 7392 holds the size of the
child `b` twice, in `get_dir_size b` and on its own.  After `format; mkdir /a;
ln -s /a /a/l` the symbolic link `l` (stored path `"/a"`, size 2) is counted
with 4 bytes: 2908 = 1320 + 1320 + 264 + 4. -/
theorem get_dir_size_counts_twice :
    (two_dirs_state.fs.inodes 0).size = 264 ∧
    (two_dirs_state.fs.inodes 1).size = 1320 ∧
    (two_dirs_state.fs.inodes 2).size = 1056 ∧
    entry_count two_dirs_state.fs 2 = 2 ∧
    find_in_directory two_dirs_state.fs 2 DOT = 2 ∧
    find_in_directory two_dirs_state.fs 2 DOTDOT = 1 ∧
    get_dir_size MAX_FILES two_dirs_state.fs 2 = some 3432 ∧
    entry_count two_dirs_state.fs 1 = 3 ∧
    find_in_directory two_dirs_state.fs 1 (cstr "b") = 2 ∧
    get_dir_size MAX_FILES two_dirs_state.fs 1 = some 7392 ∧
    (link_in_dir_state.fs.inodes 0).size = 264 ∧
    (link_in_dir_state.fs.inodes 1).size = 1320 ∧
    entry_count link_in_dir_state.fs 1 = 3 ∧
    find_in_directory link_in_dir_state.fs 1 (cstr "l") = 2 ∧
    (link_in_dir_state.fs.inodes 2).file_type = FILE_TYPE_SYMLINK ∧
    (link_in_dir_state.fs.inodes 2).size = 2 ∧
    (link_in_dir_state.fs.inodes 2).symlink_path = cstr "/a" ∧
    get_dir_size MAX_FILES link_in_dir_state.fs 1 = some 2908 := by
  decide!

/-! ### Invariants of the directory table -/

/-- C35 (no occupied entry refers to an inode on the free list) fails on the
code.  After `format; mkdir /a; rmdir /a/.`, which reports success, inode 1 is
the head of the inode free list and slot 2 of the table is still the entry
`a` of the root with inode number 1.  After `format; touch /f; touch /h;
ln /h /f/g; rm /f` inode 1 is the head of the free list and slot 4 is the
entry `g` for inode 2 with parent 1. -/
theorem dangling_entries_after_delete :
    (delete_directory 0 one_dir_state (cstr "/a/.")).2 = "Directory deleted successfully" ∧
    dot_deleted_state.fs.free_inode_head = 1 ∧
    (dot_deleted_state.fs.directory 2).name = cstr "a" ∧
    (dot_deleted_state.fs.directory 2).inode_number = 1 ∧
    (dot_deleted_state.fs.directory 2).parent_inode = 0 ∧
    get_inode_from_path dot_deleted_state (cstr "/a") = 1 ∧
    stale_entry_state.fs.free_inode_head = 1 ∧
    (stale_entry_state.fs.directory 4).name = cstr "g" ∧
    (stale_entry_state.fs.directory 4).inode_number = 2 ∧
    (stale_entry_state.fs.directory 4).parent_inode = 1 := by
  decide!

/-- C36 (the parent of every occupied entry is a directory) fails on the
code.  After `format; touch /f` the call `create_symlink "/f" "/f/l"` reports
success and puts the entry `l` (inode 2) in slot 3 with the parent 1, the
regular file `/f`. -/
theorem create_symlink_under_regular_file :
    get_inode_from_path one_file_state (cstr "/f") = 1 ∧
    (one_file_state.fs.inodes 1).file_type = FILE_TYPE_REGULAR ∧
    get_parent_directory_inode one_file_state (cstr "/f/l") = 1 ∧
    (create_symlink 0 one_file_state (cstr "/f") (cstr "/f/l")).2 =
      "Symbolic link created successfully" ∧
    ((create_symlink 0 one_file_state (cstr "/f") (cstr "/f/l")).1.fs.directory 3).name =
      cstr "l" ∧
    ((create_symlink 0 one_file_state (cstr "/f") (cstr "/f/l")).1.fs.directory 3).inode_number =
      2 ∧
    ((create_symlink 0 one_file_state (cstr "/f") (cstr "/f/l")).1.fs.directory 3).parent_inode =
      1 ∧
    ((create_symlink 0 one_file_state (cstr "/f") (cstr "/f/l")).1.fs.inodes 1).file_type =
      FILE_TYPE_REGULAR := by
  decide!

/-- C39 (no two occupied entries have the same parent and name) fails on the
code.  In `reused_inode_state`, reached by `format; touch /f; touch /h;
ln /h /f/.; rm /f; mkdir /d` with every call successful, inode 1 is the
directory `/d`, and the slots 4 and 5 both hold the name `"."` with parent 1:
slot 4 the entry that `link_file` made under the regular file `/f` for inode
2, slot 5 the entry that `create_directory` added.  The lookup of `"."` in
`/d` returns inode 2, the regular file `/h`. -/
theorem duplicate_names_after_reuse :
    (link_file 0 (create_file 0 one_file_state (cstr "/h")).1 (cstr "/h") (cstr "/f/.")).2 =
      "Hard link created successfully" ∧
    (delete_file 0
      (link_file 0 (create_file 0 one_file_state (cstr "/h")).1 (cstr "/h") (cstr "/f/.")).1
      (cstr "/f")).2 = "File deleted successfully" ∧
    (create_directory 0
      (delete_file 0
        (link_file 0 (create_file 0 one_file_state (cstr "/h")).1 (cstr "/h") (cstr "/f/.")).1
        (cstr "/f")).1
      (cstr "/d")).2 = "Directory created successfully" ∧
    get_inode_from_path reused_inode_state (cstr "/d") = 1 ∧
    (reused_inode_state.fs.inodes 1).file_type = FILE_TYPE_DIR ∧
    (reused_inode_state.fs.directory 4).name = DOT ∧
    (reused_inode_state.fs.directory 4).parent_inode = 1 ∧
    (reused_inode_state.fs.directory 4).inode_number = 2 ∧
    (reused_inode_state.fs.directory 5).name = DOT ∧
    (reused_inode_state.fs.directory 5).parent_inode = 1 ∧
    (reused_inode_state.fs.directory 5).inode_number = 1 ∧
    name_count reused_inode_state.fs 1 DOT = 2 ∧
    find_in_directory reused_inode_state.fs 1 DOT = 2 ∧
    (reused_inode_state.fs.inodes 2).file_type = FILE_TYPE_REGULAR := by
  decide!

/-! ### The current path -/

/-- C38 (after a successful `change_directory` the current path resolves to
the directory the call validated) fails on the code.  After `format;
mkdir /a; cd a/..` the current path is `"/a/.."`, which resolves to the root,
the inode that call validated.  The call `cd ..` then validates the root
again (`".."` resolves to inode 0) and reports success, but it cuts the
current path at its last `'/'`: the current path is `"/a"`, which resolves to
inode 1. -/
theorem current_path_after_cd_up :
    (change_directory 0 one_dir_state (cstr "a/..")).2 = "Changed directory to: /a/.." ∧
    target_inode one_dir_state (cstr "a/..") = 0 ∧
    cd_up_state.current_path = cstr "/a/.." ∧
    get_inode_from_path cd_up_state cd_up_state.current_path = 0 ∧
    target_inode cd_up_state (cstr "..") = 0 ∧
    (change_directory 0 cd_up_state (cstr "..")).2 = "Changed directory to: /a" ∧
    (change_directory 0 cd_up_state (cstr "..")).1.current_path = cstr "/a" ∧
    get_inode_from_path (change_directory 0 cd_up_state (cstr "..")).1
      (change_directory 0 cd_up_state (cstr "..")).1.current_path = 1 := by
  decide!

/-! ### The recorded size of a directory -/

/-- C40 (`create_file` adds one entry unit to the recorded size of the
directory and `delete_file` takes it away again) fails on the code.  After
`format` the root has the recorded size 0; `create_file "/f"` succeeds and
leaves it at 528, two units of `sizeof(DirectoryEntry)` = 264;
`delete_file "/f"` succeeds and leaves it at 264. -/
theorem create_file_counts_entry_twice :
    ((format_partition 0).fs.inodes 0).size = 0 ∧
    check_directory_permission (format_partition 0).fs 0 (PERM_READ ||| PERM_WRITE) ≠ 0 ∧
    find_in_directory (format_partition 0).fs 0 (cstr "f") = -1 ∧
    (create_file 0 (format_partition 0) (cstr "/f")).2 = "File created successfully" ∧
    (one_file_state.fs.inodes 0).size = 2 * SIZEOF_DIRECTORY_ENTRY ∧
    (delete_file 0 one_file_state (cstr "/f")).2 = "File deleted successfully" ∧
    ((delete_file 0 one_file_state (cstr "/f")).1.fs.inodes 0).size = SIZEOF_DIRECTORY_ENTRY := by
  decide!

/-! ### The upward walk of `move_directory` from a regular file -/

/-- From `-1` the upward walk of `move_directory` never ends: no entry has
the parent `-1` and the name `".."`, so the lookup gives `-1` again. -/
theorem cycle_walk_stuck (fs : SuperBlock) (src : Int) (hsrc : src ≠ -1)
    (hnone : find_in_directory fs (-1) DOTDOT = -1) :
    ∀ fuel : Nat, cycle_walk fs src fuel (-1) = none
  | 0 => rfl
  | fuel + 1 => by
    rw [cycle_walk, if_neg (by decide), if_neg (fun h => hsrc h.symm), hnone]
    exact cycle_walk_stuck fs src hsrc hnone fuel

/-- The walk does not end from an inode other than 0 and the source that has
no `".."` entry. -/
theorem cycle_walk_no_dotdot (fs : SuperBlock) (src t : Int) (hsrc : src ≠ -1)
    (ht0 : t ≠ 0) (hts : t ≠ src) (hdd : find_in_directory fs t DOTDOT = -1)
    (hnone : find_in_directory fs (-1) DOTDOT = -1) :
    ∀ fuel : Nat, cycle_walk fs src fuel t = none
  | 0 => rfl
  | fuel + 1 => by
    rw [cycle_walk, if_neg ht0, if_neg hts, hdd]
    exact cycle_walk_stuck fs src hsrc hnone fuel

/-- When a call of `move_directory` passes its checks and the walk does not end, the
call does not return. -/
theorem move_directory_of_walk (fuel : Nat) (now : Int) (s : State)
    (source destination : List Nat)
    (h1 : ¬ is_root_string s source = true)
    (h2 : get_inode_from_path s source ≠ -1)
    (h3 : (s.fs.inodes (get_inode_from_path s source)).file_type = FILE_TYPE_DIR)
    (h4 : get_parent_directory_inode s destination ≠ -1)
    (h5 : get_parent_directory_inode s source ≠ -1)
    (h6 : find_in_directory s.fs (get_parent_directory_inode s destination)
      (extract_last_path_component destination) = -1)
    (hw : cycle_walk s.fs (get_inode_from_path s source) fuel
      (get_parent_directory_inode s destination) = none) :
    move_directory fuel now s source destination = none := by
  unfold move_directory
  rw [if_neg h1, if_neg h2, if_neg (not_not.mpr h3), if_neg h4, if_neg h5,
    if_neg (not_not.mpr h6), hw]

/-- C37 (`move_directory` always returns) fails on the code.  After `format;
mkdir /a; touch /f` the call `move_directory "/a" "/f/x"` passes every check:
the destination parent is inode 2, the regular file `/f`, for which nothing
asks whether it is a directory.  The walk starts at inode 2, which is neither
0 nor the source and has no `".."` entry, so `temp_inode` becomes `-1` and
stays `-1`: whatever number of passes is allowed, the call has not
returned. -/
theorem move_directory_never_returns :
    get_inode_from_path file_and_dir_state (cstr "/a") = 1 ∧
    (file_and_dir_state.fs.inodes 1).file_type = FILE_TYPE_DIR ∧
    get_inode_from_path file_and_dir_state (cstr "/f") = 2 ∧
    (file_and_dir_state.fs.inodes 2).file_type = FILE_TYPE_REGULAR ∧
    get_parent_directory_inode file_and_dir_state (cstr "/f/x") = 2 ∧
    find_in_directory file_and_dir_state.fs 2 DOTDOT = -1 ∧
    find_in_directory file_and_dir_state.fs (-1) DOTDOT = -1 ∧
    ∀ fuel : Nat,
      move_directory fuel 0 file_and_dir_state (cstr "/a") (cstr "/f/x") = none := by
  have hsrc : get_inode_from_path file_and_dir_state (cstr "/a") = 1 := by decide!
  have hdst : get_parent_directory_inode file_and_dir_state (cstr "/f/x") = 2 := by decide!
  have hdd : find_in_directory file_and_dir_state.fs 2 DOTDOT = -1 := by decide!
  have hnone : find_in_directory file_and_dir_state.fs (-1) DOTDOT = -1 := by decide!
  refine ⟨hsrc, by decide!, by decide!, by decide!, hdst, hdd, hnone, fun fuel => ?_⟩
  apply move_directory_of_walk
  · decide!
  · decide!
  · decide!
  · decide!
  · decide!
  · decide!
  · rw [hsrc, hdst]
    exact cycle_walk_no_dotdot _ 1 2 (by decide) (by decide) (by decide) hdd hnone fuel

/-! ### The rollback of `copy_file` when a page of the source is on the free list -/

/-- C12 (after a failed `allocate_page` in `copy_file` the source is
unchanged) fails on the code.  The state `shared_page_state` is reached by
`format; touch /s; write /s c; ln /s /t; rm /s; append /t d`, every call
successful, with `c` 4096 bytes `'a'` and 4096 bytes `'b'` and `d` four bytes
`0xFF`.  In it the file `/t` (inode 1) has the pages 0 and 1 and the page free
list is page 1 alone, the second page of the file.  `copy_file "/t" "/x"`
takes page 1 for the copy, copies page 0 of the source into it, finds no
second page, releases page 1 and reports "No free pages available".  The
inode of the source is as before, but the bytes 4 to 7 of its second page
have changed from `'b'` to `'a'`. -/
theorem copy_file_overwrites_source :
    (write_file 0 (create_file 0 (format_partition 0) (cstr "/s")).1 (cstr "/s")
      (List.replicate 4096 97 ++ List.replicate 4096 98)).2 = "File written successfully" ∧
    (delete_file 0
      (link_file 0
        (write_file 0 (create_file 0 (format_partition 0) (cstr "/s")).1 (cstr "/s")
          (List.replicate 4096 97 ++ List.replicate 4096 98)).1
        (cstr "/s") (cstr "/t")).1
      (cstr "/s")).2 = "File unlinked successfully (hard links remaining: 1)" ∧
    (append_to_file 0
      (delete_file 0
        (link_file 0
          (write_file 0 (create_file 0 (format_partition 0) (cstr "/s")).1 (cstr "/s")
            (List.replicate 4096 97 ++ List.replicate 4096 98)).1
          (cstr "/s") (cstr "/t")).1
        (cstr "/s")).1
      (cstr "/t") [255, 255, 255, 255]).2 = "Content appended successfully" ∧
    get_inode_from_path shared_page_state (cstr "/t") = 1 ∧
    (shared_page_state.fs.inodes 1).page_count = 2 ∧
    (shared_page_state.fs.inodes 1).pages 0 = 0 ∧
    (shared_page_state.fs.inodes 1).pages 1 = 1 ∧
    (shared_page_state.fs.inodes 1).size = 8196 ∧
    shared_page_state.fs.free_page_head = 1 ∧
    read_int (shared_page_state.fs.page_table 1).data = -1 ∧
    (List.range 8).map (shared_page_state.fs.page_table 1).data =
      [255, 255, 255, 255, 98, 98, 98, 98] ∧
    (copy_file 0 shared_page_state (cstr "/t") (cstr "/x")).2 = "No free pages available" ∧
    (List.range 8).map
        ((copy_file 0 shared_page_state (cstr "/t") (cstr "/x")).1.fs.page_table 1).data =
      [255, 255, 255, 255, 97, 97, 97, 97] ∧
    ((copy_file 0 shared_page_state (cstr "/t") (cstr "/x")).1.fs.inodes 1).page_count = 2 ∧
    ((copy_file 0 shared_page_state (cstr "/t") (cstr "/x")).1.fs.inodes 1).pages 1 = 1 ∧
    ((copy_file 0 shared_page_state (cstr "/t") (cstr "/x")).1.fs.inodes 1).size = 8196 ∧
    (copy_file 0 shared_page_state (cstr "/t") (cstr "/x")).1.fs.free_page_head = 1 := by
  decide!

end FileSystem
